/-
  Verification of the rogue dungeon-crawl engine.

  Shallow embedding of the JavaScript sources:
    src/dungeon/tiles.js, src/dungeon/room.js + src/dungeon/corridor.js,
    src/dungeon/generator.js, src/fov/octants.js, src/fov/index.js,
    src/game/combat.js, src/game/player.js, src/game/ai.js, src/game/state.js.

  Conventions of the embedding:
  - JS numbers holding integers are embedded as Int; values that are genuinely
    fractional (Math.random draws, shadowcasting slopes, steal fractions) are
    embedded as Rat.  JS float arithmetic on these expressions is exact for the
    integer cases; for the fractional cases the code and the spec use the same
    closed-form expressions, which we interpret in exact rational arithmetic.
  - Math.random and injected rng functions are embedded as an ambient stream
    rng : Nat -> Rat together with an explicit cursor k : Nat; every draw reads
    rng k and advances the cursor, in exactly the source's call order.
  - In-place mutation of the cell grid becomes a functional update of a
    position-indexed cell function; loops writing disjoint cells become the
    equivalent pointwise update over the written region.
  - JS object identity comparison (===) between items is embedded as value
    equality; the only aliased objects the embedded code compares are the
    equipped item slots against inventory entries.
-/
import Mathlib

namespace Rogue

/-- Math.floor on an exact rational: integer division of the numerator by
the (positive) denominator is exactly the floor.  Written this way (rather
than with the Int.floor notation) so that concrete witnesses evaluate
inside the kernel. -/
def mfloor (q : ℚ) : Int := q.num / (q.den : Int)

/-- Math.ceil on an exact rational. -/
def mceil (q : ℚ) : Int := -(mfloor (-q))

theorem mfloor_eq (q : ℚ) : mfloor q = ⌊q⌋ := Rat.floor_def.symm

theorem mceil_eq (q : ℚ) : mceil q = ⌈q⌉ := by
  unfold mceil
  rw [mfloor_eq, Int.floor_neg, neg_neg]

/-! ### Tiles and cells (src/dungeon/tiles.js) -/

/-- Numeric tile-type enum TILE, in source order VOID..STAIRS_DOWN. -/
inductive Tile where
  | void
  | wall
  | floor
  | corridor
  | door
  | stairsUp
  | stairsDown
  deriving DecidableEq, Repr

/-- A map cell as produced by makeCell: a tile type plus visibility flags. -/
structure Cell where
  type : Tile
  visible : Bool
  visited : Bool
  alwaysVisible : Bool
  deriving DecidableEq, Repr

/-- makeCell: fresh cell of the given type with all visibility flags false. -/
def makeCell (t : Tile) : Cell :=
  { type := t, visible := false, visited := false, alwaysVisible := false }

/-- The cell grid.  JS indexes map[y][x] with map.length = height and
map[0].length = width; we store the dimensions plus the cell contents as a
function of (x, y).  Out-of-bounds positions are never written by the
embedded operations (they all carry the source's bounds guards). -/
structure GMap where
  width : Int
  height : Int
  cell : Int → Int → Cell

/-- Bounds test matching the JS guards y >= 0 && y < map.length etc. -/
def GMap.inB (m : GMap) (x y : Int) : Prop :=
  0 ≤ x ∧ x < m.width ∧ 0 ≤ y ∧ y < m.height

instance (m : GMap) (x y : Int) : Decidable (m.inB x y) := by
  unfold GMap.inB; infer_instance

/-- Functional write of one cell (the JS assignment map[y][x] = c). -/
def GMap.set (m : GMap) (x y : Int) (c : Cell) : GMap :=
  { m with cell := fun a b => if a = x ∧ b = y then c else m.cell a b }

/-! ### Field of view (src/fov/octants.js and src/fov/index.js) -/

/-- The 8 octant coordinate transforms octant0..octant7, as one function of
the octant index; OCTANTS lists them in index order. -/
def octantTransform (oct : ℕ) (row col : Int) : Int × Int :=
  match oct with
  | 0 => (row, -col)
  | 1 => (col, -row)
  | 2 => (-col, -row)
  | 3 => (-row, -col)
  | 4 => (-row, col)
  | 5 => (-col, row)
  | 6 => (col, row)
  | _ => (row, col)

/-- isBlocking: VOID and WALL block line of sight; all other types are
transparent. -/
def isBlocking (t : Tile) : Bool :=
  t = Tile.void || t = Tile.wall

/-- resetVisibility: set visible to false on every (in-bounds) cell, leaving
visited and alwaysVisible untouched. -/
def resetVisibility (m : GMap) : GMap :=
  { m with cell := fun a b =>
      if m.inB a b then { m.cell a b with visible := false } else m.cell a b }

/-- markVisible: set visible and visited on one cell, silently ignoring
out-of-bounds coordinates. -/
def markVisible (m : GMap) (x y : Int) : GMap :=
  if m.inB x y then
    m.set x y { m.cell x y with visible := true, visited := true }
  else m

/-- Descending column list floor(row*startSlope), ..., ceil(row*endSlope)
traversed by scanOctant's inner for loop. -/
def colList (c0 c1 : Int) : List Int :=
  (List.range (c0 + 1 - c1).toNat).map (fun i => c0 - i)

/-- World position scanned for octant oct at (row, col): origin plus the
octant transform of (row, col). -/
def scanPos (origin : Int × Int) (oct : ℕ) (row : ℕ) (col : Int) : Int × Int :=
  (origin.1 + (octantTransform oct (row : Int) col).1,
   origin.2 + (octantTransform oct (row : Int) col).2)

/-- The blocked test of scanOctant's loop body: out of bounds, or the scanned
tile's type blocks sight.  (markVisible never changes the type, and the JS
double bounds guard collapses: markVisible is itself a no-op out of bounds.) -/
def scanBlocked (m : GMap) (p : Int × Int) : Bool :=
  !(decide (m.inB p.1 p.2)) || isBlocking ((markVisible m p.1 p.2).cell p.1 p.2).type

mutual
/-- scanOctant: one octant of recursive shadowcasting.  The fuel argument is
a structural-recursion bound on the remaining rows; computeFov passes
radius + 1, which strictly exceeds the depth reachable before the guard
row > radius fires, so the fuel-exhausted branch is never taken. -/
def scanOctant (origin : Int × Int) (radius : ℕ) (oct : ℕ)
    (fuel : ℕ) (row : ℕ) (startSlope endSlope : ℚ) (m : GMap) : GMap :=
  match fuel with
  | 0 => m
  | fuel + 1 =>
    if radius < row ∨ startSlope < endSlope then m
    else
      scanCols origin radius oct fuel row
        (colList (mfloor ((row : ℚ) * startSlope)) (mceil ((row : ℚ) * endSlope)))
        false startSlope endSlope m
termination_by (fuel, 0)

/-- The inner column loop of scanOctant, carrying the loop state
(prevBlocked, savedStart); when the loop ends without a pending blocked run
it recurses into the next row with the saved arc. -/
def scanCols (origin : Int × Int) (radius : ℕ) (oct : ℕ)
    (fuel : ℕ) (row : ℕ) (cols : List Int) (prevBlocked : Bool)
    (savedStart endSlope : ℚ) (m : GMap) : GMap :=
  match cols with
  | [] =>
    if prevBlocked then m
    else scanOctant origin radius oct fuel (row + 1) savedStart endSlope m
  | col :: rest =>
    if prevBlocked then
      if !scanBlocked m (scanPos origin oct row col) then
        scanCols origin radius oct fuel row rest false
          (((col : ℚ) + 1/2) / (row : ℚ)) endSlope
          (markVisible m (scanPos origin oct row col).1 (scanPos origin oct row col).2)
      else
        scanCols origin radius oct fuel row rest true savedStart endSlope
          (markVisible m (scanPos origin oct row col).1 (scanPos origin oct row col).2)
    else
      if scanBlocked m (scanPos origin oct row col) then
        scanCols origin radius oct fuel row rest true savedStart endSlope
          (scanOctant origin radius oct fuel (row + 1) savedStart
            (((col : ℚ) + 1/2) / (row : ℚ))
            (markVisible m (scanPos origin oct row col).1 (scanPos origin oct row col).2))
      else
        scanCols origin radius oct fuel row rest false savedStart endSlope
          (markVisible m (scanPos origin oct row col).1 (scanPos origin oct row col).2)
termination_by (fuel, cols.length + 1)
end

/-- computeFov: reset all visible flags, mark the origin, then scan the
8 octants in order with full arc [1, 0]. -/
def computeFov (m : GMap) (origin : Int × Int) (radius : ℕ) : GMap :=
  let m1 := markVisible (resetVisibility m) origin.1 origin.2
  (List.range 8).foldl
    (fun mm oct => scanOctant origin radius oct (radius + 1) 1 1 0 mm) m1

/-! ### Rooms (shared record) and revealRoom (src/game/state.js) -/

/-- A room: interior bounds; walls are carved one tile outside.  The room.js
variant in the repository leaves the illuminated flag unset (undefined, i.e.
falsy), embedded as an explicit Bool. -/
structure Room where
  x : Int
  y : Int
  width : Int
  height : Int
  illuminated : Bool
  deriving DecidableEq, Repr

/-- revealRoom: permanently reveal all cells covering a room (interior plus
the one-tile wall perimeter), setting visible, visited and alwaysVisible. -/
def revealRoom (m : GMap) (room : Room) : GMap :=
  { m with cell := fun a b =>
      if (room.x - 1 ≤ a ∧ a ≤ room.x + room.width ∧
          room.y - 1 ≤ b ∧ b ≤ room.y + room.height) ∧ m.inB a b then
        { m.cell a b with visible := true, visited := true, alwaysVisible := true }
      else m.cell a b }

/-! ### C7 machinery: sequences of FOV-affecting operations -/

/-- One visibility-affecting operation: a full FOV recompute, a bare
visibility reset, or a room reveal. -/
inductive FovOp where
  | fov (origin : Int × Int) (radius : ℕ)
  | reset
  | reveal (room : Room)

/-- Apply one FovOp to the map. -/
def applyFovOp (m : GMap) : FovOp → GMap
  | FovOp.fov origin radius => computeFov m origin radius
  | FovOp.reset => resetVisibility m
  | FovOp.reveal room => revealRoom m room

/-- Run a sequence of FovOps left to right. -/
def runFovOps (m : GMap) (ops : List FovOp) : GMap :=
  ops.foldl applyFovOp m

/-- The visible implies visited invariant. -/
def VisInv (m : GMap) : Prop :=
  ∀ x y, (m.cell x y).visible = true → (m.cell x y).visited = true

theorem visInv_markVisible {m : GMap} (h : VisInv m) (x y : Int) :
    VisInv (markVisible m x y) := by
  intro a b
  unfold markVisible GMap.set
  split
  · simp only
    split
    · simp
    · exact h a b
  · exact h a b

theorem visInv_resetVisibility {m : GMap} (h : VisInv m) :
    VisInv (resetVisibility m) := by
  intro a b
  unfold resetVisibility
  simp only
  split
  · simp
  · exact h a b

theorem visInv_revealRoom {m : GMap} (h : VisInv m) (room : Room) :
    VisInv (revealRoom m room) := by
  intro a b
  unfold revealRoom
  simp only
  split
  · simp
  · exact h a b

theorem scanOctant_zero (origin : Int × Int) (radius oct row : ℕ)
    (sS eS : ℚ) (m : GMap) :
    scanOctant origin radius oct 0 row sS eS m = m := by
  unfold scanOctant
  rfl

theorem scanOctant_stop {origin : Int × Int} {radius oct fuel row : ℕ}
    {sS eS : ℚ} {m : GMap} (h : radius < row ∨ sS < eS) :
    scanOctant origin radius oct fuel row sS eS m = m := by
  cases fuel with
  | zero => exact scanOctant_zero origin radius oct row sS eS m
  | succ fuel =>
    unfold scanOctant
    rw [if_pos h]

theorem visInv_scan (origin : Int × Int) (radius : ℕ) (oct : ℕ) :
    ∀ fuel : ℕ,
      (∀ row sS eS m, VisInv m →
        VisInv (scanOctant origin radius oct fuel row sS eS m)) ∧
      (∀ cols row pb sav eS m, VisInv m →
        VisInv (scanCols origin radius oct fuel row cols pb sav eS m)) := by
  intro fuel
  induction fuel with
  | zero =>
    have hcols : ∀ cols row pb sav eS m, VisInv m →
        VisInv (scanCols origin radius oct 0 row cols pb sav eS m) := by
      intro cols
      induction cols with
      | nil =>
        intro row pb sav eS m h
        unfold scanCols
        split
        · exact h
        · rw [scanOctant_zero]; exact h
      | cons c rest ih =>
        intro row pb sav eS m h
        unfold scanCols
        split
        · split
          · exact ih row false _ eS _ (visInv_markVisible h _ _)
          · exact ih row true _ eS _ (visInv_markVisible h _ _)
        · split
          · rw [scanOctant_zero]
            exact ih row true _ eS _ (visInv_markVisible h _ _)
          · exact ih row false _ eS _ (visInv_markVisible h _ _)
    refine ⟨?_, hcols⟩
    intro row sS eS m h
    rw [scanOctant_zero]; exact h
  | succ fuel ihf =>
    have hoct : ∀ row sS eS m, VisInv m →
        VisInv (scanOctant origin radius oct (fuel + 1) row sS eS m) := by
      intro row sS eS m h
      unfold scanOctant
      split
      · exact h
      · exact ihf.2 _ _ _ _ _ _ h
    have hcols : ∀ cols row pb sav eS m, VisInv m →
        VisInv (scanCols origin radius oct (fuel + 1) row cols pb sav eS m) := by
      intro cols
      induction cols with
      | nil =>
        intro row pb sav eS m h
        unfold scanCols
        split
        · exact h
        · exact hoct _ _ _ _ h
      | cons c rest ih =>
        intro row pb sav eS m h
        unfold scanCols
        split
        · split
          · exact ih row false _ eS _ (visInv_markVisible h _ _)
          · exact ih row true _ eS _ (visInv_markVisible h _ _)
        · split
          · exact ih row true _ eS _ (hoct _ _ _ _ (visInv_markVisible h _ _))
          · exact ih row false _ eS _ (visInv_markVisible h _ _)
    exact ⟨hoct, hcols⟩

theorem resetVisibility_visited (m : GMap) (x y : Int) :
    ((resetVisibility m).cell x y).visited = (m.cell x y).visited := by
  unfold resetVisibility
  simp only
  split <;> rfl

theorem visInv_computeFov {m : GMap} (h : VisInv m) (origin : Int × Int)
    (radius : ℕ) : VisInv (computeFov m origin radius) := by
  unfold computeFov
  simp only
  have base : VisInv (markVisible (resetVisibility m) origin.1 origin.2) :=
    visInv_markVisible (visInv_resetVisibility h) _ _
  have fold : ∀ (octs : List ℕ) (mm : GMap), VisInv mm →
      VisInv (octs.foldl
        (fun mm oct => scanOctant origin radius oct (radius + 1) 1 1 0 mm) mm) := by
    intro octs
    induction octs with
    | nil => intro mm hh; exact hh
    | cons o rest ih =>
      intro mm hh
      exact ih _ ((visInv_scan origin radius o (radius + 1)).1 _ _ _ _ hh)
  exact fold _ _ base

theorem visInv_applyFovOp {m : GMap} (h : VisInv m) (op : FovOp) :
    VisInv (applyFovOp m op) := by
  cases op with
  | fov origin radius => exact visInv_computeFov h origin radius
  | reset => exact visInv_resetVisibility h
  | reveal room => exact visInv_revealRoom h room

theorem visInv_runFovOps : ∀ (ops : List FovOp) (m : GMap), VisInv m →
    VisInv (runFovOps m ops) := by
  intro ops
  induction ops with
  | nil => intro m h; exact h
  | cons op rest ih =>
    intro m h
    exact ih _ (visInv_applyFovOp h op)

/-! ### Claim theorems for the FOV engine -/

/-- C6: the FOV opacity predicate isBlocking returns true exactly for the
Void and Wall tile types; every other type (Floor, Corridor, Door, StairsUp,
StairsDown) is transparent to sight, so in particular a Door tile is never a
sight obstruction. -/
theorem claim_C6_blocking_iff :
    (∀ t : Tile, isBlocking t = true ↔ (t = Tile.void ∨ t = Tile.wall)) ∧
    isBlocking Tile.door = false := by
  constructor
  · intro t
    cases t <;> simp [isBlocking]
  · rfl

/-- C7: starting from a map whose cells all have visible = false and
visited = false, after any sequence of computeFov, resetVisibility and
room-reveal operations every cell with visible = true also has
visited = true; moreover resetVisibility changes no cell's visited flag. -/
theorem claim_C7_visited_monotone (m0 : GMap)
    (h0 : ∀ x y, (m0.cell x y).visible = false ∧ (m0.cell x y).visited = false)
    (ops : List FovOp) :
    (∀ x y, ((runFovOps m0 ops).cell x y).visible = true →
      ((runFovOps m0 ops).cell x y).visited = true) ∧
    (∀ (m : GMap) x y,
      ((resetVisibility m).cell x y).visited = (m.cell x y).visited) := by
  refine ⟨?_, fun m x y => resetVisibility_visited m x y⟩
  have hinv : VisInv m0 := by
    intro x y hv
    exact absurd hv (by simp [(h0 x y).1])
  exact visInv_runFovOps ops m0 hinv

/-- Closed instance of C7: a concrete 4x3 all-floor map run through an FOV
recompute, a reveal and a reset. -/
def c7Map : GMap :=
  { width := 4, height := 3, cell := fun _ _ => makeCell Tile.floor }

theorem claim_C7_witness :
    (∀ x y, ((runFovOps c7Map
        [FovOp.fov (1, 1) 2, FovOp.reveal ⟨1, 1, 2, 1, true⟩, FovOp.reset]).cell x y).visible = true →
      ((runFovOps c7Map
        [FovOp.fov (1, 1) 2, FovOp.reveal ⟨1, 1, 2, 1, true⟩, FovOp.reset]).cell x y).visited = true) ∧
    (∀ (m : GMap) x y,
      ((resetVisibility m).cell x y).visited = (m.cell x y).visited) :=
  claim_C7_visited_monotone c7Map (fun _ _ => ⟨rfl, rfl⟩)
    [FovOp.fov (1, 1) 2, FovOp.reveal ⟨1, 1, 2, 1, true⟩, FovOp.reset]

/-- Concrete input refuting the alwaysVisible persistence property: a 3x1
all-floor strip whose rightmost cell is flagged alwaysVisible (and currently
visible). -/
def c5Map : GMap :=
  { width := 3, height := 1, cell := fun x y =>
      if x = 2 ∧ y = 0 then
        { type := Tile.floor, visible := true, visited := true, alwaysVisible := true }
      else makeCell Tile.floor }

/-- C5 (refuted, code bug): computeFov does not keep alwaysVisible cells
visible.  resetVisibility unconditionally clears the visible flag of every
in-bounds cell, so after computeFov from (0,0) with radius 0 the
alwaysVisible cell at (2,0) has visible = false, contradicting the
documented invariant that alwaysVisible cells stay visible across every FOV
recompute. -/
theorem claim_C5_alwaysVisible_lost :
    (c5Map.cell 2 0).alwaysVisible = true ∧
    ((computeFov c5Map (0, 0) 0).cell 2 0).visible = false := by
  constructor
  · rfl
  · have stop : ∀ (octs : List ℕ) (m : GMap),
        octs.foldl (fun mm oct => scanOctant (0, 0) 0 oct 1 1 1 0 mm) m = m := by
      intro octs
      induction octs with
      | nil => intro m; rfl
      | cons o rest ih =>
        intro m
        simp only [List.foldl_cons]
        rw [scanOctant_stop (Or.inl Nat.one_pos)]
        exact ih m
    show ((((List.range 8).foldl
        (fun mm oct => scanOctant (0, 0) 0 oct (0 + 1) 1 1 0 mm)
        (markVisible (resetVisibility c5Map) 0 0)).cell 2 0).visible) = false
    rw [show (0 + 1) = 1 from rfl, stop]
    decide

/-! ### Dungeon generation (src/dungeon/room.js, corridor.js, generator.js) -/

/-- A sector: one of the nine map sub-regions hosting a room. -/
structure Rect where
  x : Int
  y : Int
  width : Int
  height : Int
  deriving DecidableEq, Repr

/-- Fixed column widths COL_WIDTHS summing to the 80 map width. -/
def COL_WIDTHS : List Int := [26, 26, 28]

/-- Fixed row heights ROW_HEIGHTS summing to the 22 map height. -/
def ROW_HEIGHTS : List Int := [7, 7, 8]

/-- buildSectors: divide the map into a 3x3 grid of sectors in row-major
order.  The source builds x and y as running offsets over the fixed
column/row size tables; the map dimensions are accepted but unused. -/
def buildSectors (_mapWidth _mapHeight : Int) : List Rect :=
  (List.range 3).flatMap (fun row =>
    (List.range 3).map (fun col =>
      { x := ((COL_WIDTHS.take col).foldl (· + ·) 0),
        y := ((ROW_HEIGHTS.take row).foldl (· + ·) 0),
        width := COL_WIDTHS.getD col 0,
        height := ROW_HEIGHTS.getD row 0 }))

/-- generateRoom: random room interior placed in a sector with 2-tile
padding plus 1-tile wall.  Consumes four rng draws (interior width, interior
height, x, y) and returns the advanced cursor.  The room.js variant in the
repository ignores the dungeonLevel argument and sets no illuminated flag
(undefined, falsy), embedded as illuminated := false. -/
def generateRoom (sector : Rect) (rng : ℕ → ℚ) (k : ℕ) : Room × ℕ :=
  -- outerPad = pad (2) + wall thickness (1)
  let outerPad : Int := 3
  let maxInteriorW := sector.width - outerPad * 2
  let maxInteriorH := sector.height - outerPad * 2
  let minInterior : Int := 3
  let interiorW := minInterior + mfloor (rng k * ((maxInteriorW - minInterior + 1 : Int) : ℚ))
  let interiorH := minInterior + mfloor (rng (k + 1) * ((maxInteriorH - minInterior + 1 : Int) : ℚ))
  let safeW := max minInterior (min interiorW maxInteriorW)
  let safeH := max minInterior (min interiorH maxInteriorH)
  let maxOriginX := sector.x + sector.width - outerPad - safeW
  let maxOriginY := sector.y + sector.height - outerPad - safeH
  let minOriginX := sector.x + outerPad
  let minOriginY := sector.y + outerPad
  let rangeX := max 0 (maxOriginX - minOriginX)
  let rangeY := max 0 (maxOriginY - minOriginY)
  let x := minOriginX + mfloor (rng (k + 2) * ((rangeX + 1 : Int) : ℚ))
  let y := minOriginY + mfloor (rng (k + 3) * ((rangeY + 1 : Int) : ℚ))
  ({ x := x, y := y, width := safeW, height := safeH, illuminated := false }, k + 4)

/-- Cells written by carveRoom: the interior plus its 1-tile wall ring. -/
def roomCovers (r : Room) (a b : Int) : Prop :=
  r.x - 1 ≤ a ∧ a ≤ r.x + r.width ∧ r.y - 1 ≤ b ∧ b ≤ r.y + r.height

instance (r : Room) (a b : Int) : Decidable (roomCovers r a b) := by
  unfold roomCovers; infer_instance

/-- The perimeter ring of a room (the isPerimeter test of carveRoom). -/
def roomPerim (r : Room) (a b : Int) : Prop :=
  a = r.x - 1 ∨ a = r.x + r.width ∨ b = r.y - 1 ∨ b = r.y + r.height

instance (r : Room) (a b : Int) : Decidable (roomPerim r a b) := by
  unfold roomPerim; infer_instance

/-- The interior of a room (covered and not on the perimeter). -/
def roomInterior (r : Room) (a b : Int) : Prop :=
  r.x ≤ a ∧ a < r.x + r.width ∧ r.y ≤ b ∧ b < r.y + r.height

/-- carveRoom: WALL perimeter plus FLOOR interior; out-of-bounds cells are
skipped; cells outside the covered ring are untouched.  The JS double loop
writes each covered in-bounds cell exactly once, so it equals this pointwise
update. -/
def carveRoom (m : GMap) (room : Room) : GMap :=
  { m with cell := fun a b =>
      if roomCovers room a b ∧ m.inB a b then
        makeCell (if roomPerim room a b then Tile.wall else Tile.floor)
      else m.cell a b }

/-- roomCenter: center coordinate of a room's interior.  Int division by 2
matches Math.floor since width and height are nonnegative. -/
def roomCenter (room : Room) : Int × Int :=
  (room.x + room.width / 2, room.y + room.height / 2)

/-- buildCorridorPairs: the 12 adjacent sector index pairs of the 3x3 grid,
horizontal adjacencies first (row-major), then vertical (column-major). -/
def buildCorridorPairs (_sectors : List Rect) : List (ℕ × ℕ) :=
  (List.range 3).flatMap (fun row =>
    (List.range 2).map (fun col => (row * 3 + col, row * 3 + col + 1))) ++
  (List.range 3).flatMap (fun col =>
    (List.range 2).map (fun row => (row * 3 + col, (row + 1) * 3 + col)))

/-- carveStep: carve one corridor cell; VOID becomes CORRIDOR, WALL becomes
DOOR, anything else (and out-of-bounds cells) is left unchanged. -/
def carveStep (m : GMap) (x y : Int) : GMap :=
  if m.inB x y then
    match (m.cell x y).type with
    | Tile.void => m.set x y (makeCell Tile.corridor)
    | Tile.wall => m.set x y (makeCell Tile.door)
    | _ => m
  else m

/-- Ascending integer range a..b inclusive (empty when b < a), the index
sequence of the corridor carving for loops. -/
def intRange (a b : Int) : List Int :=
  (List.range (b + 1 - a).toNat).map (fun (i : ℕ) => a + (i : Int))

/-- A carved corridor record; the JS field names are from/to/bend. -/
structure Corridor where
  fromPos : Int × Int
  toPos : Int × Int
  bend : Int × Int
  deriving DecidableEq, Repr

/-- carveCorridor: carve an L-shaped corridor from src to dst, horizontal
leg first (row src.y, columns src.x..bend.x), then vertical leg (column
bend.x, rows src.y..dst.y), with bend = (dst.x, src.y).  The rng parameter
of the source is unused (reserved), so it is not threaded here. -/
def carveCorridor (m : GMap) (src dst : Int × Int) : Corridor × GMap :=
  let bend : Int × Int := (dst.1, src.2)
  let m1 := (intRange (min src.1 bend.1) (max src.1 bend.1)).foldl
    (fun mm x => carveStep mm x src.2) m
  let m2 := (intRange (min src.2 dst.2) (max src.2 dst.2)).foldl
    (fun mm y => carveStep mm bend.1 y) m1
  ({ fromPos := src, toPos := dst, bend := bend }, m2)

/-- createBlankMap: a width x height grid of VOID cells. -/
def createBlankMap (width height : Int) : GMap :=
  { width := width, height := height, cell := fun _ _ => makeCell Tile.void }

/-- List lookup at a JS numeric index: out-of-range indexing yields
undefined, modelled as none. -/
def listGetI (xs : List Room) (i : Int) : Option Room :=
  if 0 ≤ i ∧ i < (xs.length : Int) then xs[i.toNat]? else none

/-- The do-while loop of placeStairs drawing downIdx until it differs from
upIdx.  The source loop has no bound; the fuel argument bounds the embedded
search, and exhaustion (none) models divergence. -/
def findDownIdx (rng : ℕ → ℚ) (len : Int) (upIdx : Int) :
    ℕ → ℕ → Option (Int × ℕ)
  | 0, _ => none
  | fuel + 1, k =>
    let d := mfloor (rng k * (len : ℚ))
    if d = upIdx then findDownIdx rng len upIdx fuel (k + 1) else some (d, k + 1)

/-- Fuel bound for the placeStairs do-while loop. -/
def STAIRS_FUEL : ℕ := 1000

/-- placeStairs: choose two distinct room indices and stamp STAIRS_UP and
STAIRS_DOWN at those rooms' centers.  Returns none when the embedded
do-while search exhausts its fuel or an index lookup leaves the list
(the JS code would diverge or throw there). -/
def placeStairs (m : GMap) (rooms : List Room) (rng : ℕ → ℚ) (k : ℕ) :
    Option ((Int × Int) × (Int × Int) × GMap × ℕ) :=
  let upIdx := mfloor (rng k * ((rooms.length : Int) : ℚ))
  match findDownIdx rng (rooms.length : Int) upIdx STAIRS_FUEL (k + 1) with
  | none => none
  | some (downIdx, k2) =>
    match listGetI rooms upIdx, listGetI rooms downIdx with
    | some upRoom, some downRoom =>
      let stairsUp := roomCenter upRoom
      let stairsDown := roomCenter downRoom
      let m1 := m.set stairsUp.1 stairsUp.2 (makeCell Tile.stairsUp)
      let m2 := m1.set stairsDown.1 stairsDown.2 (makeCell Tile.stairsDown)
      some (stairsUp, stairsDown, m2, k2)
    | _, _ => none

/-- Generate one room per sector, threading the rng cursor; carving is
separated from generation (generateRoom reads only the sector and the rng,
carveRoom writes only the map, so the source's interleaved loop equals
generating all rooms first and carving them in order). -/
def genRooms (rng : ℕ → ℚ) : List Rect → ℕ → List Room × ℕ
  | [], k => ([], k)
  | s :: rest, k =>
    let r := generateRoom s rng k
    let rs := genRooms rng rest r.2
    (r.1 :: rs.1, rs.2)

/-- Carve a list of rooms into the map in order. -/
def carveRooms (m : GMap) (rooms : List Room) : GMap :=
  rooms.foldl carveRoom m

/-- Carve the corridor list: one carveCorridor per index pair, collecting
the corridor records.  A dangling pair index reads a default room, which
never happens for the 9-room list the generator builds. -/
def carveCorridors (m : GMap) (rooms : List Room) (pairs : List (ℕ × ℕ)) :
    List Corridor × GMap :=
  pairs.foldl (fun acc pr =>
    let src := roomCenter (rooms.getD pr.1 ⟨0, 0, 0, 0, false⟩)
    let dst := roomCenter (rooms.getD pr.2 ⟨0, 0, 0, 0, false⟩)
    let c := carveCorridor acc.2 src dst
    (acc.1 ++ [c.1], c.2)) ([], m)

/-- The generated dungeon aggregate. -/
structure Dungeon where
  width : Int
  height : Int
  map : GMap
  rooms : List Room
  corridors : List Corridor
  stairsUp : Int × Int
  stairsDown : Int × Int

/-- generate: blank map, sectors, one room per sector, the 12 fixed
corridors, then stair placement.  Partial (Option) only through
placeStairs. -/
def generate (rng : ℕ → ℚ) (width height _dungeonLevel : Int) :
    Option Dungeon :=
  let m0 := createBlankMap width height
  let sectors := buildSectors width height
  let rz := genRooms rng sectors 0
  let rooms := rz.1
  let m1 := carveRooms m0 rooms
  let pairs := buildCorridorPairs sectors
  let cz := carveCorridors m1 rooms pairs
  match placeStairs cz.2 rooms rng rz.2 with
  | none => none
  | some (up, down, m3, _) =>
    some { width := width, height := height, map := m3, rooms := rooms,
           corridors := cz.1, stairsUp := up, stairsDown := down }

/-! ### The seeded PRNG (createRng, mulberry32) -/

/-- One mulberry32 state update: s = s + 0x6d2b79f5 | 0 on the unsigned
32-bit pattern. -/
def mulberryNext (s : ℕ) : ℕ := (s + 0x6d2b79f5) % 4294967296

/-- The mulberry32 output mix for a given state: all operations act on
unsigned 32-bit patterns (Math.imul is multiplication mod 2^32, >>> is a
logical shift, the additions are reduced mod 2^32 by the int32 coercions of
the bitwise operators), and the final division by 2^32 is exact. -/
def mulberryOut (s : ℕ) : ℚ :=
  let t1 := ((s ^^^ (s >>> 15)) * (s ||| 1)) % 4294967296
  let t2 := ((t1 + ((t1 ^^^ (t1 >>> 7)) * (t1 ||| 61)) % 4294967296) % 4294967296) ^^^ t1
  ((t2 ^^^ (t2 >>> 14) : ℕ) : ℚ) / 4294967296

/-- The mulberry32 internal state after n updates from seed >>> 0. -/
def mulberryState (seed : ℕ) : ℕ → ℕ
  | 0 => seed % 4294967296
  | n + 1 => mulberryNext (mulberryState seed n)

/-- The stream of draws of createRng(seed): the n-th call first advances the
state and then mixes it into a rational in [0, 1). -/
def mulberryStream (seed : ℕ) (n : ℕ) : ℚ :=
  mulberryOut (mulberryState seed (n + 1))

/-- createRng: a defined seed yields the mulberry32 stream; an undefined
seed falls back to the ambient Math.random stream. -/
def createRng : Option ℕ → (ℕ → ℚ) → (ℕ → ℚ)
  | some seed, _ => mulberryStream seed
  | none, ambient => ambient

/-- generate as called through the options record: the rng is built by
createRng from the optional seed, with Math.random as the ambient
fallback. -/
def generateJS (seed : Option ℕ) (ambient : ℕ → ℚ) (width height lvl : Int) :
    Option Dungeon :=
  generate (createRng seed ambient) width height lvl

/-- C9: with a defined seed, generation is a function of the seed and the
dimensions alone: two calls with the same seed, width, height and
dungeonLevel agree even under different ambient Math.random streams, and in
particular their maps (cell for cell), rooms, corridors and stair positions
coincide.  This holds because createRng with a defined seed routes every
draw through the seed-determined mulberry32 stream. -/
theorem claim_C9_determinism (seed : ℕ) (amb1 amb2 : ℕ → ℚ)
    (w h lvl : Int) :
    generateJS (some seed) amb1 w h lvl = generateJS (some seed) amb2 w h lvl ∧
    (generateJS (some seed) amb1 w h lvl).map
        (fun d => fun x y => (d.map.cell x y).type) =
      (generateJS (some seed) amb2 w h lvl).map
        (fun d => fun x y => (d.map.cell x y).type) ∧
    (generateJS (some seed) amb1 w h lvl).map Dungeon.rooms =
      (generateJS (some seed) amb2 w h lvl).map Dungeon.rooms ∧
    (generateJS (some seed) amb1 w h lvl).map Dungeon.corridors =
      (generateJS (some seed) amb2 w h lvl).map Dungeon.corridors ∧
    (generateJS (some seed) amb1 w h lvl).map Dungeon.stairsUp =
      (generateJS (some seed) amb2 w h lvl).map Dungeon.stairsUp ∧
    (generateJS (some seed) amb1 w h lvl).map Dungeon.stairsDown =
      (generateJS (some seed) amb2 w h lvl).map Dungeon.stairsDown :=
  ⟨rfl, rfl, rfl, rfl, rfl, rfl⟩

/-! ### Connectivity of the generated dungeon (C1) -/

/-- A valid rng stream: every draw lies in [0, 1), as Math.random and
mulberry32 guarantee. -/
def ValidRng (rng : ℕ → ℚ) : Prop :=
  ∀ n, 0 ≤ rng n ∧ rng n < 1

/-- Bounds for the Math.floor(rng() * n) idiom with n >= 1. -/
theorem floorDraw_bounds {q : ℚ} (h0 : 0 ≤ q) (h1 : q < 1) {n : Int}
    (hn : 1 ≤ n) : 0 ≤ ⌊q * (n : ℚ)⌋ ∧ ⌊q * (n : ℚ)⌋ ≤ n - 1 := by
  have hn0 : (0 : ℚ) < (n : ℚ) := by exact_mod_cast hn
  constructor
  · exact Int.floor_nonneg.mpr (mul_nonneg h0 (le_of_lt hn0))
  · have : q * (n : ℚ) < (n : ℚ) := by
      calc q * (n : ℚ) < 1 * (n : ℚ) := by
            exact mul_lt_mul_of_pos_right h1 hn0
        _ = (n : ℚ) := one_mul _
    have : ⌊q * (n : ℚ)⌋ < n := Int.floor_lt.mpr (by exact_mod_cast this)
    omega

/-- Structural bounds of the room generated inside a sector that is at least
9 wide and at most 9 tall (both hold for all nine 80x22 sectors): the
interior is exactly 3 rows starting at sector.y + 3, at least 3 columns
wide, and the interior plus wall ring stays 2 tiles inside the sector
horizontally. -/
theorem generateRoom_ok (s : Rect) (rng : ℕ → ℚ) (k : ℕ)
    (hv : ValidRng rng) (h9 : 9 ≤ s.width) (hh : s.height ≤ 9) :
    ((generateRoom s rng k).1.height = 3) ∧
    (3 ≤ (generateRoom s rng k).1.width) ∧
    ((generateRoom s rng k).1.y = s.y + 3) ∧
    (s.x + 3 ≤ (generateRoom s rng k).1.x) ∧
    ((generateRoom s rng k).1.x + (generateRoom s rng k).1.width ≤
      s.x + s.width - 3) := by
  obtain ⟨hq30, hq31⟩ := hv (k + 2)
  obtain ⟨hq40, hq41⟩ := hv (k + 3)
  simp only [generateRoom]
  simp only [mfloor_eq]
  set iW := 3 + ⌊rng k * ((s.width - 3 * 2 - 3 + 1 : Int) : ℚ)⌋ with hiW
  set iH := 3 + ⌊rng (k + 1) * ((s.height - 3 * 2 - 3 + 1 : Int) : ℚ)⌋ with hiH
  have hsafeW_lo : (3 : Int) ≤ max 3 (min iW (s.width - 3 * 2)) := le_max_left _ _
  have hsafeW_hi : max 3 (min iW (s.width - 3 * 2)) ≤ s.width - 6 := by
    apply max_le
    · omega
    · have := min_le_right iW (s.width - 3 * 2)
      omega
  have hsafeH : max 3 (min iH (s.height - 3 * 2)) = 3 := by
    apply max_eq_left
    have := min_le_right iH (s.height - 3 * 2)
    omega
  set safeW := max 3 (min iW (s.width - 3 * 2)) with hsW
  set safeH := max 3 (min iH (s.height - 3 * 2)) with hsH
  have hrangeX : max 0 (s.x + s.width - 3 - safeW - (s.x + 3)) =
      s.width - 6 - safeW := by omega
  have hrangeY : max 0 (s.y + s.height - 3 - safeH - (s.y + 3)) = 0 := by omega
  rw [hrangeX, hrangeY]
  have hx := floorDraw_bounds hq30 hq31 (n := s.width - 6 - safeW + 1) (by omega)
  have hy4 : ⌊rng (k + 3) * ((0 + 1 : Int) : ℚ)⌋ = 0 := by
    norm_num
    exact ⟨hq40, hq41⟩
  rw [hy4]
  refine ⟨hsafeH, hsafeW_lo, by omega, by omega, by omega⟩

/-- The nine sectors of the default 80x22 grid, row-major. -/
theorem sectors80 :
    buildSectors 80 22 =
      [⟨0, 0, 26, 7⟩, ⟨26, 0, 26, 7⟩, ⟨52, 0, 28, 7⟩,
       ⟨0, 7, 26, 7⟩, ⟨26, 7, 26, 7⟩, ⟨52, 7, 28, 7⟩,
       ⟨0, 14, 26, 8⟩, ⟨26, 14, 26, 8⟩, ⟨52, 14, 28, 8⟩] := by
  rfl

/-- The 12 corridor index pairs: 6 horizontal then 6 vertical. -/
theorem pairs12 :
    buildCorridorPairs (buildSectors 80 22) =
      [(0, 1), (1, 2), (3, 4), (4, 5), (6, 7), (7, 8),
       (0, 3), (3, 6), (1, 4), (4, 7), (2, 5), (5, 8)] := by
  rfl

/-- Leftmost interior column available to the room of sector i. -/
def bandXlo (i : ℕ) : Int :=
  match i % 3 with
  | 0 => 3
  | 1 => 29
  | _ => 55

/-- Rightmost column of the room plus wall ring of sector i. -/
def bandXhi (i : ℕ) : Int :=
  match i % 3 with
  | 0 => 23
  | 1 => 49
  | _ => 77

/-- The fixed interior top row of the room of sector i. -/
def bandY (i : ℕ) : Int :=
  match i / 3 with
  | 0 => 3
  | 1 => 10
  | _ => 17

/-- The structural facts of the room generated for sector i of the 80x22
grid: a 3-row interior at the fixed band row, at least 3 wide, horizontally
confined (with its wall ring) to the sector's column band. -/
def RoomFacts (i : ℕ) (r : Room) : Prop :=
  r.height = 3 ∧ 3 ≤ r.width ∧ r.y = bandY i ∧
  bandXlo i ≤ r.x ∧ r.x + r.width ≤ bandXhi i

/-- The room list the generator builds for the 80x22 grid. -/
def rooms80 (rng : ℕ → ℚ) : List Room :=
  (genRooms rng (buildSectors 80 22) 0).1

/-- Default room used for out-of-range list reads. -/
def dRoom : Room := ⟨0, 0, 0, 0, false⟩

theorem rooms80_eq (rng : ℕ → ℚ) :
    rooms80 rng =
      [(generateRoom ⟨0, 0, 26, 7⟩ rng 0).1,
       (generateRoom ⟨26, 0, 26, 7⟩ rng 4).1,
       (generateRoom ⟨52, 0, 28, 7⟩ rng 8).1,
       (generateRoom ⟨0, 7, 26, 7⟩ rng 12).1,
       (generateRoom ⟨26, 7, 26, 7⟩ rng 16).1,
       (generateRoom ⟨52, 7, 28, 7⟩ rng 20).1,
       (generateRoom ⟨0, 14, 26, 8⟩ rng 24).1,
       (generateRoom ⟨26, 14, 26, 8⟩ rng 28).1,
       (generateRoom ⟨52, 14, 28, 8⟩ rng 32).1] := by
  rfl

theorem roomFacts_of_ok (i : ℕ) (s : Rect) (r : Room)
    (h : (r.height = 3) ∧ (3 ≤ r.width) ∧ (r.y = s.y + 3) ∧
      (s.x + 3 ≤ r.x) ∧ (r.x + r.width ≤ s.x + s.width - 3))
    (e1 : s.y + 3 = bandY i) (e2 : bandXlo i = s.x + 3)
    (e3 : s.x + s.width - 3 = bandXhi i) : RoomFacts i r := by
  obtain ⟨h1, h2, h3, h4, h5⟩ := h
  exact ⟨h1, h2, by omega, by omega, by omega⟩

/-- Every generated room of the 80x22 grid satisfies its band facts. -/
theorem rooms80_facts (rng : ℕ → ℚ) (hv : ValidRng rng) :
    ∀ i, i < 9 → RoomFacts i ((rooms80 rng).getD i dRoom) := by
  intro i hi
  interval_cases i
  · exact roomFacts_of_ok 0 ⟨0, 0, 26, 7⟩ _
      (generateRoom_ok ⟨0, 0, 26, 7⟩ rng 0 hv (by norm_num) (by norm_num))
      (by decide) (by decide) (by decide)
  · exact roomFacts_of_ok 1 ⟨26, 0, 26, 7⟩ _
      (generateRoom_ok ⟨26, 0, 26, 7⟩ rng 4 hv (by norm_num) (by norm_num))
      (by decide) (by decide) (by decide)
  · exact roomFacts_of_ok 2 ⟨52, 0, 28, 7⟩ _
      (generateRoom_ok ⟨52, 0, 28, 7⟩ rng 8 hv (by norm_num) (by norm_num))
      (by decide) (by decide) (by decide)
  · exact roomFacts_of_ok 3 ⟨0, 7, 26, 7⟩ _
      (generateRoom_ok ⟨0, 7, 26, 7⟩ rng 12 hv (by norm_num) (by norm_num))
      (by decide) (by decide) (by decide)
  · exact roomFacts_of_ok 4 ⟨26, 7, 26, 7⟩ _
      (generateRoom_ok ⟨26, 7, 26, 7⟩ rng 16 hv (by norm_num) (by norm_num))
      (by decide) (by decide) (by decide)
  · exact roomFacts_of_ok 5 ⟨52, 7, 28, 7⟩ _
      (generateRoom_ok ⟨52, 7, 28, 7⟩ rng 20 hv (by norm_num) (by norm_num))
      (by decide) (by decide) (by decide)
  · exact roomFacts_of_ok 6 ⟨0, 14, 26, 8⟩ _
      (generateRoom_ok ⟨0, 14, 26, 8⟩ rng 24 hv (by norm_num) (by norm_num))
      (by decide) (by decide) (by decide)
  · exact roomFacts_of_ok 7 ⟨26, 14, 26, 8⟩ _
      (generateRoom_ok ⟨26, 14, 26, 8⟩ rng 28 hv (by norm_num) (by norm_num))
      (by decide) (by decide) (by decide)
  · exact roomFacts_of_ok 8 ⟨52, 14, 28, 8⟩ _
      (generateRoom_ok ⟨52, 14, 28, 8⟩ rng 32 hv (by norm_num) (by norm_num))
      (by decide) (by decide) (by decide)

/-! ### Cell-level lemmas about the carving operations -/

/-- A cell that is neither Void nor Wall (the flood-fill passability of the
connectivity invariant). -/
def notVW (c : Cell) : Prop :=
  c.type ≠ Tile.void ∧ c.type ≠ Tile.wall

theorem set_cell_self (m : GMap) (x y : Int) (c : Cell) :
    ((m.set x y c).cell x y) = c := by
  simp [GMap.set]

theorem set_cell_other {a b x y : Int} (m : GMap) (c : Cell)
    (h : ¬(a = x ∧ b = y)) : ((m.set x y c).cell a b) = m.cell a b := by
  simp [GMap.set, h]

theorem set_width (m : GMap) (x y : Int) (c : Cell) :
    (m.set x y c).width = m.width := rfl

theorem set_height (m : GMap) (x y : Int) (c : Cell) :
    (m.set x y c).height = m.height := rfl

theorem carveStep_width (m : GMap) (x y : Int) :
    (carveStep m x y).width = m.width := by
  unfold carveStep
  repeat' split
  all_goals rfl

theorem carveStep_height (m : GMap) (x y : Int) :
    (carveStep m x y).height = m.height := by
  unfold carveStep
  repeat' split
  all_goals rfl

theorem carveStep_inB (m : GMap) (x y a b : Int) :
    (carveStep m x y).inB a b ↔ m.inB a b := by
  unfold GMap.inB
  rw [carveStep_width, carveStep_height]

theorem carveStep_cell_other {a b x y : Int} (m : GMap)
    (h : ¬(a = x ∧ b = y)) :
    (carveStep m x y).cell a b = m.cell a b := by
  unfold carveStep
  repeat' split
  all_goals (first | rw [set_cell_other m _ h] | rfl)

theorem carveStep_cell_self (m : GMap) {x y : Int} (h : m.inB x y) :
    notVW ((carveStep m x y).cell x y) := by
  unfold carveStep
  rw [if_pos h]
  rcases hty : (m.cell x y).type <;>
    simp only [hty, set_cell_self, notVW, makeCell] <;> simp [hty]

theorem carveStep_mono {a b : Int} {m : GMap} (x y : Int)
    (h : notVW (m.cell a b)) : notVW ((carveStep m x y).cell a b) := by
  by_cases hab : a = x ∧ b = y
  · obtain ⟨rfl, rfl⟩ := hab
    by_cases hib : m.inB a b
    · exact carveStep_cell_self m hib
    · unfold carveStep
      rw [if_neg hib]
      exact h
  · rw [carveStep_cell_other m hab]
    exact h

/-- membership in the corridor index range. -/
theorem intRange_mem {a b x : Int} : x ∈ intRange a b ↔ a ≤ x ∧ x ≤ b := by
  unfold intRange
  constructor
  · intro hx
    obtain ⟨i, hi, he⟩ := List.mem_map.mp hx
    rw [List.mem_range] at hi
    omega
  · intro hab
    refine List.mem_map.mpr ⟨(x - a).toNat, ?_, ?_⟩
    · rw [List.mem_range]; omega
    · omega

/-! Lemmas about one horizontal or vertical corridor leg, phrased over the
foldl of carveStep that carveCorridor performs. -/

theorem legH_width (y : Int) : ∀ (xs : List Int) (m : GMap),
    (xs.foldl (fun mm x => carveStep mm x y) m).width = m.width := by
  intro xs
  induction xs with
  | nil => intro m; rfl
  | cons c rest ih => intro m; rw [List.foldl_cons, ih, carveStep_width]

theorem legH_height (y : Int) : ∀ (xs : List Int) (m : GMap),
    (xs.foldl (fun mm x => carveStep mm x y) m).height = m.height := by
  intro xs
  induction xs with
  | nil => intro m; rfl
  | cons c rest ih => intro m; rw [List.foldl_cons, ih, carveStep_height]

theorem legV_width (x : Int) : ∀ (ys : List Int) (m : GMap),
    (ys.foldl (fun mm y => carveStep mm x y) m).width = m.width := by
  intro ys
  induction ys with
  | nil => intro m; rfl
  | cons c rest ih => intro m; rw [List.foldl_cons, ih, carveStep_width]

theorem legV_height (x : Int) : ∀ (ys : List Int) (m : GMap),
    (ys.foldl (fun mm y => carveStep mm x y) m).height = m.height := by
  intro ys
  induction ys with
  | nil => intro m; rfl
  | cons c rest ih => intro m; rw [List.foldl_cons, ih, carveStep_height]

theorem legH_inB (y a b : Int) (xs : List Int) (m : GMap) :
    (xs.foldl (fun mm x => carveStep mm x y) m).inB a b ↔ m.inB a b := by
  unfold GMap.inB
  rw [legH_width, legH_height]

theorem legV_inB (x a b : Int) (ys : List Int) (m : GMap) :
    (ys.foldl (fun mm y => carveStep mm x y) m).inB a b ↔ m.inB a b := by
  unfold GMap.inB
  rw [legV_width, legV_height]

theorem legH_cell_other {a b y : Int} : ∀ (xs : List Int) (m : GMap),
    (∀ x ∈ xs, ¬(a = x ∧ b = y)) →
    (xs.foldl (fun mm x => carveStep mm x y) m).cell a b = m.cell a b := by
  intro xs
  induction xs with
  | nil => intro m _; rfl
  | cons c rest ih =>
    intro m h
    rw [List.foldl_cons, ih _ (fun x hx => h x (List.mem_cons_of_mem c hx)),
      carveStep_cell_other m (h c (List.mem_cons_self c rest))]

theorem legV_cell_other {a b x : Int} : ∀ (ys : List Int) (m : GMap),
    (∀ y ∈ ys, ¬(a = x ∧ b = y)) →
    (ys.foldl (fun mm y => carveStep mm x y) m).cell a b = m.cell a b := by
  intro ys
  induction ys with
  | nil => intro m _; rfl
  | cons c rest ih =>
    intro m h
    rw [List.foldl_cons, ih _ (fun y hy => h y (List.mem_cons_of_mem c hy)),
      carveStep_cell_other m (h c (List.mem_cons_self c rest))]

theorem legH_mono {a b y : Int} : ∀ (xs : List Int) (m : GMap),
    notVW (m.cell a b) →
    notVW ((xs.foldl (fun mm x => carveStep mm x y) m).cell a b) := by
  intro xs
  induction xs with
  | nil => intro m h; exact h
  | cons c rest ih =>
    intro m h
    rw [List.foldl_cons]
    exact ih _ (carveStep_mono _ _ h)

theorem legV_mono {a b x : Int} : ∀ (ys : List Int) (m : GMap),
    notVW (m.cell a b) →
    notVW ((ys.foldl (fun mm y => carveStep mm x y) m).cell a b) := by
  intro ys
  induction ys with
  | nil => intro m h; exact h
  | cons c rest ih =>
    intro m h
    rw [List.foldl_cons]
    exact ih _ (carveStep_mono _ _ h)

theorem legH_carved {a y : Int} : ∀ (xs : List Int) (m : GMap),
    a ∈ xs → m.inB a y →
    notVW ((xs.foldl (fun mm x => carveStep mm x y) m).cell a y) := by
  intro xs
  induction xs with
  | nil => intro m h; simp at h
  | cons c rest ih =>
    intro m hmem hib
    rw [List.foldl_cons]
    rcases List.mem_cons.mp hmem with rfl | hmem2
    · exact legH_mono rest _ (carveStep_cell_self m hib)
    · exact ih _ hmem2 ((carveStep_inB m c y a y).mpr hib)

theorem legV_carved {x b : Int} : ∀ (ys : List Int) (m : GMap),
    b ∈ ys → m.inB x b →
    notVW ((ys.foldl (fun mm y => carveStep mm x y) m).cell x b) := by
  intro ys
  induction ys with
  | nil => intro m h; simp at h
  | cons c rest ih =>
    intro m hmem hib
    rw [List.foldl_cons]
    rcases List.mem_cons.mp hmem with rfl | hmem2
    · exact legV_mono rest _ (carveStep_cell_self m hib)
    · exact ih _ hmem2 ((carveStep_inB m x c x b).mpr hib)

/-! ### Corridor-level lemmas -/

/-- Cells of the horizontal leg of the corridor from src to dst. -/
def onLegH (src dst p : Int × Int) : Prop :=
  p.2 = src.2 ∧ min src.1 dst.1 ≤ p.1 ∧ p.1 ≤ max src.1 dst.1

/-- Cells of the vertical leg of the corridor from src to dst. -/
def onLegV (src dst p : Int × Int) : Prop :=
  p.1 = dst.1 ∧ min src.2 dst.2 ≤ p.2 ∧ p.2 ≤ max src.2 dst.2

/-- Cells of the L-shaped corridor from src to dst. -/
def onCorr (src dst p : Int × Int) : Prop :=
  onLegH src dst p ∨ onLegV src dst p

theorem carveCorridor_width (m : GMap) (src dst : Int × Int) :
    ((carveCorridor m src dst).2).width = m.width := by
  unfold carveCorridor
  simp only
  rw [legV_width, legH_width]

theorem carveCorridor_height (m : GMap) (src dst : Int × Int) :
    ((carveCorridor m src dst).2).height = m.height := by
  unfold carveCorridor
  simp only
  rw [legV_height, legH_height]

theorem carveCorridor_cell_other {p : Int × Int} (m : GMap)
    {src dst : Int × Int} (h : ¬ onCorr src dst p) :
    ((carveCorridor m src dst).2).cell p.1 p.2 = m.cell p.1 p.2 := by
  unfold carveCorridor
  simp only
  rw [legV_cell_other, legH_cell_other]
  · intro x hx hax
    exact h (Or.inl ⟨hax.2, by
      rcases intRange_mem.mp hx with ⟨h1, h2⟩
      constructor <;> omega⟩)
  · intro y hy hay
    exact h (Or.inr ⟨hay.1, by
      rcases intRange_mem.mp hy with ⟨h1, h2⟩
      constructor <;> omega⟩)

theorem carveCorridor_mono {p : Int × Int} (m : GMap) (src dst : Int × Int)
    (h : notVW (m.cell p.1 p.2)) :
    notVW (((carveCorridor m src dst).2).cell p.1 p.2) := by
  unfold carveCorridor
  simp only
  exact legV_mono _ _ (legH_mono _ _ h)

theorem carveCorridor_carved {p : Int × Int} (m : GMap)
    {src dst : Int × Int} (hc : onCorr src dst p) (hib : m.inB p.1 p.2) :
    notVW (((carveCorridor m src dst).2).cell p.1 p.2) := by
  unfold carveCorridor
  simp only
  rcases hc with hH | hV
  · obtain ⟨hy, h1, h2⟩ := hH
    rw [hy] at hib ⊢
    exact legV_mono _ _ (legH_carved _ m (intRange_mem.mpr ⟨h1, h2⟩) hib)
  · obtain ⟨hx, h1, h2⟩ := hV
    rw [hx] at hib ⊢
    exact legV_carved _ _ (intRange_mem.mpr ⟨h1, h2⟩)
      ((legH_inB _ _ _ _ _).mpr hib)

/-! ### The fold over the 12 corridor pairs -/

/-- The map component of carveCorridors: one carveCorridor per pair. -/
def corrFold (rooms : List Room) (pairs : List (ℕ × ℕ)) (m : GMap) : GMap :=
  pairs.foldl (fun mm pr =>
    (carveCorridor mm (roomCenter (rooms.getD pr.1 dRoom))
      (roomCenter (rooms.getD pr.2 dRoom))).2) m

theorem carveCorridors_map (rooms : List Room) :
    ∀ (pairs : List (ℕ × ℕ)) (acc : List Corridor × GMap),
    (pairs.foldl (fun acc pr =>
      let src := roomCenter (rooms.getD pr.1 ⟨0, 0, 0, 0, false⟩)
      let dst := roomCenter (rooms.getD pr.2 ⟨0, 0, 0, 0, false⟩)
      let c := carveCorridor acc.2 src dst
      (acc.1 ++ [c.1], c.2)) acc).2 = corrFold rooms pairs acc.2 := by
  intro pairs
  induction pairs with
  | nil => intro acc; rfl
  | cons pr rest ih =>
    intro acc
    rw [List.foldl_cons, ih]
    rfl

theorem carveCorridors_eq (m : GMap) (rooms : List Room)
    (pairs : List (ℕ × ℕ)) :
    (carveCorridors m rooms pairs).2 = corrFold rooms pairs m := by
  unfold carveCorridors
  exact carveCorridors_map rooms pairs ([], m)

theorem corrFold_width (rooms : List Room) :
    ∀ (pairs : List (ℕ × ℕ)) (m : GMap),
    (corrFold rooms pairs m).width = m.width := by
  intro pairs
  induction pairs with
  | nil => intro m; rfl
  | cons pr rest ih =>
    intro m
    unfold corrFold at ih ⊢
    rw [List.foldl_cons, ih, carveCorridor_width]

theorem corrFold_height (rooms : List Room) :
    ∀ (pairs : List (ℕ × ℕ)) (m : GMap),
    (corrFold rooms pairs m).height = m.height := by
  intro pairs
  induction pairs with
  | nil => intro m; rfl
  | cons pr rest ih =>
    intro m
    unfold corrFold at ih ⊢
    rw [List.foldl_cons, ih, carveCorridor_height]

theorem corrFold_inB (rooms : List Room) (pairs : List (ℕ × ℕ)) (m : GMap)
    (a b : Int) : (corrFold rooms pairs m).inB a b ↔ m.inB a b := by
  unfold GMap.inB
  rw [corrFold_width, corrFold_height]

theorem corrFold_cell_other {p : Int × Int} (rooms : List Room) :
    ∀ (pairs : List (ℕ × ℕ)) (m : GMap),
    (∀ pr ∈ pairs, ¬ onCorr (roomCenter (rooms.getD pr.1 dRoom))
      (roomCenter (rooms.getD pr.2 dRoom)) p) →
    (corrFold rooms pairs m).cell p.1 p.2 = m.cell p.1 p.2 := by
  intro pairs
  induction pairs with
  | nil => intro m _; rfl
  | cons pr rest ih =>
    intro m h
    unfold corrFold at ih ⊢
    rw [List.foldl_cons, ih _ (fun q hq => h q (List.mem_cons_of_mem pr hq)),
      carveCorridor_cell_other m (h pr (List.mem_cons_self pr rest))]

theorem corrFold_mono {p : Int × Int} (rooms : List Room) :
    ∀ (pairs : List (ℕ × ℕ)) (m : GMap),
    notVW (m.cell p.1 p.2) →
    notVW ((corrFold rooms pairs m).cell p.1 p.2) := by
  intro pairs
  induction pairs with
  | nil => intro m h; exact h
  | cons pr rest ih =>
    intro m h
    unfold corrFold at ih ⊢
    rw [List.foldl_cons]
    exact ih _ (carveCorridor_mono _ _ _ h)

theorem corrFold_carved {p : Int × Int} (rooms : List Room) :
    ∀ (pairs : List (ℕ × ℕ)) (m : GMap) (pr : ℕ × ℕ), pr ∈ pairs →
    onCorr (roomCenter (rooms.getD pr.1 dRoom))
      (roomCenter (rooms.getD pr.2 dRoom)) p →
    m.inB p.1 p.2 →
    notVW ((corrFold rooms pairs m).cell p.1 p.2) := by
  intro pairs
  induction pairs with
  | nil => intro m pr h; simp at h
  | cons q rest ih =>
    intro m pr hmem hc hib
    unfold corrFold at ih ⊢
    rw [List.foldl_cons]
    rcases List.mem_cons.mp hmem with rfl | hmem2
    · exact corrFold_mono rooms rest _ (carveCorridor_carved m hc hib)
    · refine ih _ pr hmem2 hc ?_
      unfold GMap.inB
      rw [carveCorridor_width, carveCorridor_height]
      exact hib

/-! ### Characterization of the map after room carving -/

theorem carveRoom_width (m : GMap) (r : Room) :
    (carveRoom m r).width = m.width := rfl

theorem carveRoom_height (m : GMap) (r : Room) :
    (carveRoom m r).height = m.height := rfl

theorem carveRooms_width (m : GMap) (rooms : List Room) :
    (carveRooms m rooms).width = m.width := by
  unfold carveRooms
  induction rooms generalizing m with
  | nil => rfl
  | cons r rest ih => rw [List.foldl_cons, ih, carveRoom_width]

theorem carveRooms_height (m : GMap) (rooms : List Room) :
    (carveRooms m rooms).height = m.height := by
  unfold carveRooms
  induction rooms generalizing m with
  | nil => rfl
  | cons r rest ih => rw [List.foldl_cons, ih, carveRoom_height]

theorem carveRoom_cell_other {a b : Int} (m : GMap) {r : Room}
    (h : ¬ roomCovers r a b) :
    (carveRoom m r).cell a b = m.cell a b := by
  unfold carveRoom
  simp only
  rw [if_neg]
  intro hcon
  exact h hcon.1

/-- covered, not on the perimeter, ergo interior (pure interval
arithmetic). -/
theorem covers_not_perim {r : Room} {a b : Int}
    (hc : roomCovers r a b) (hp : ¬ roomPerim r a b) :
    roomInterior r a b := by
  unfold roomCovers at hc
  unfold roomPerim at hp
  unfold roomInterior
  push_neg at hp
  omega

theorem interior_covers {r : Room} {a b : Int} (h : roomInterior r a b) :
    roomCovers r a b := by
  unfold roomInterior at h
  unfold roomCovers
  omega

theorem interior_not_perim {r : Room} {a b : Int} (h : roomInterior r a b) :
    ¬ roomPerim r a b := by
  unfold roomInterior at h
  unfold roomPerim
  push_neg
  omega

theorem carveRoom_cell_interior {a b : Int} (m : GMap) {r : Room}
    (h : roomInterior r a b) (hib : m.inB a b) :
    (carveRoom m r).cell a b = makeCell Tile.floor := by
  unfold carveRoom
  simp only
  rw [if_pos ⟨interior_covers h, hib⟩, if_neg (interior_not_perim h)]

theorem carveRoom_cell_perim {a b : Int} (m : GMap) {r : Room}
    (hc : roomCovers r a b) (hp : roomPerim r a b) (hib : m.inB a b) :
    (carveRoom m r).cell a b = makeCell Tile.wall := by
  unfold carveRoom
  simp only
  rw [if_pos ⟨hc, hib⟩, if_pos hp]

theorem carveRooms_cell_other {a b : Int} :
    ∀ (rooms : List Room) (m : GMap),
    (∀ r ∈ rooms, ¬ roomCovers r a b) →
    (carveRooms m rooms).cell a b = m.cell a b := by
  intro rooms
  induction rooms with
  | nil => intro m _; rfl
  | cons r rest ih =>
    intro m h
    unfold carveRooms at ih ⊢
    rw [List.foldl_cons, ih _ (fun q hq => h q (List.mem_cons_of_mem r hq)),
      carveRoom_cell_other m (h r (List.mem_cons_self r rest))]

theorem carveRooms_cell_at {a b : Int} :
    ∀ (rooms : List Room) (i : ℕ) (m : GMap), i < rooms.length →
    roomCovers (rooms.getD i dRoom) a b → m.inB a b →
    (∀ j, j < rooms.length → j ≠ i → ¬ roomCovers (rooms.getD j dRoom) a b) →
    (carveRooms m rooms).cell a b =
      makeCell (if roomPerim (rooms.getD i dRoom) a b then Tile.wall
                else Tile.floor) := by
  intro rooms
  induction rooms with
  | nil => intro i m hi; simp at hi
  | cons r rest ih =>
    intro i m hi hc hib hothers
    unfold carveRooms at ih ⊢
    rw [List.foldl_cons]
    match i with
    | 0 =>
      have hrest : ∀ q ∈ rest, ¬ roomCovers q a b := by
        intro q hq
        obtain ⟨j, hj, rfl⟩ := List.mem_iff_getElem.mp hq
        have h2 := hothers (j + 1) (by simp; omega) (by omega)
        rw [List.getD_cons_succ, List.getD_eq_getElem rest dRoom hj] at h2
        exact h2
      have hoth := carveRooms_cell_other (a := a) (b := b) rest
        (carveRoom m r) hrest
      unfold carveRooms at hoth
      rw [hoth]
      rw [List.getD_cons_zero] at hc ⊢
      by_cases hp : roomPerim r a b
      · rw [if_pos hp]
        exact carveRoom_cell_perim m hc hp hib
      · rw [if_neg hp]
        exact carveRoom_cell_interior m (covers_not_perim hc hp) hib
    | j + 1 =>
      rw [List.getD_cons_succ] at hc
      have hstep := ih j (carveRoom m r) (by simp at hi; omega) hc
        (by unfold GMap.inB; rw [carveRoom_width, carveRoom_height]; exact hib)
        (by
          intro n hn hne
          have h2 := hothers (n + 1) (by simp; omega) (by omega)
          rw [List.getD_cons_succ] at h2
          exact h2)
      rw [hstep, List.getD_cons_succ]

/-! ### 4-directional flood-fill reachability -/

/-- Passability of the connectivity invariant: in bounds and neither Void
nor Wall. -/
def passable (m : GMap) (p : Int × Int) : Prop :=
  m.inB p.1 p.2 ∧ (m.cell p.1 p.2).type ≠ Tile.void ∧
    (m.cell p.1 p.2).type ≠ Tile.wall

/-- One 4-directional flood-fill move onto a passable cell. -/
def floodStep (m : GMap) (p q : Int × Int) : Prop :=
  ((q.1 = p.1 + 1 ∧ q.2 = p.2) ∨ (q.1 = p.1 - 1 ∧ q.2 = p.2) ∨
   (q.1 = p.1 ∧ q.2 = p.2 + 1) ∨ (q.1 = p.1 ∧ q.2 = p.2 - 1)) ∧
  passable m q

/-- Reachability by 4-directional flood fill over passable cells. -/
def Reaches (m : GMap) (s p : Int × Int) : Prop :=
  Relation.ReflTransGen (floodStep m) s p

theorem reaches_trans {m : GMap} {a b c : Int × Int}
    (h1 : Reaches m a b) (h2 : Reaches m b c) : Reaches m a c :=
  Relation.ReflTransGen.trans h1 h2

theorem reachH_right {m : GMap} (y : Int) :
    ∀ (n : ℕ) (x : Int), (∀ i : ℕ, i ≤ n → passable m (x + (i : Int), y)) →
    Reaches m (x, y) (x + (n : Int), y) := by
  intro n
  induction n with
  | zero =>
    intro x _
    simp only [Nat.cast_zero, add_zero]
    exact Relation.ReflTransGen.refl
  | succ n ih =>
    intro x h
    refine Relation.ReflTransGen.tail (ih x (fun i hi => h i (by omega))) ?_
    refine ⟨Or.inl ⟨by push_cast; ring, rfl⟩, ?_⟩
    exact h (n + 1) (le_refl _)

theorem reachH_left {m : GMap} (y : Int) :
    ∀ (n : ℕ) (x : Int), (∀ i : ℕ, i ≤ n → passable m (x - (i : Int), y)) →
    Reaches m (x, y) (x - (n : Int), y) := by
  intro n
  induction n with
  | zero =>
    intro x _
    simp only [Nat.cast_zero, sub_zero]
    exact Relation.ReflTransGen.refl
  | succ n ih =>
    intro x h
    refine Relation.ReflTransGen.tail (ih x (fun i hi => h i (by omega))) ?_
    refine ⟨Or.inr (Or.inl ⟨by push_cast; ring, rfl⟩), ?_⟩
    exact h (n + 1) (le_refl _)

/-- Horizontal segment walk: if every cell of the row-y segment between a
and b is passable, the flood fill reaches (b, y) from (a, y). -/
theorem reachH_seg {m : GMap} {y a b : Int}
    (h : ∀ t, min a b ≤ t → t ≤ max a b → passable m (t, y)) :
    Reaches m (a, y) (b, y) := by
  rcases le_total a b with hab | hab
  · have hb : b = a + ((b - a).toNat : Int) := by omega
    rw [hb]
    exact reachH_right y _ a (fun i hi => h _ (by omega) (by omega))
  · have hb : b = a - ((a - b).toNat : Int) := by omega
    rw [hb]
    exact reachH_left y _ a (fun i hi => h _ (by omega) (by omega))

theorem reachV_down {m : GMap} (x : Int) :
    ∀ (n : ℕ) (y : Int), (∀ i : ℕ, i ≤ n → passable m (x, y + (i : Int))) →
    Reaches m (x, y) (x, y + (n : Int)) := by
  intro n
  induction n with
  | zero =>
    intro y _
    simp only [Nat.cast_zero, add_zero]
    exact Relation.ReflTransGen.refl
  | succ n ih =>
    intro y h
    refine Relation.ReflTransGen.tail (ih y (fun i hi => h i (by omega))) ?_
    refine ⟨Or.inr (Or.inr (Or.inl ⟨rfl, by push_cast; ring⟩)), ?_⟩
    exact h (n + 1) (le_refl _)

theorem reachV_up {m : GMap} (x : Int) :
    ∀ (n : ℕ) (y : Int), (∀ i : ℕ, i ≤ n → passable m (x, y - (i : Int))) →
    Reaches m (x, y) (x, y - (n : Int)) := by
  intro n
  induction n with
  | zero =>
    intro y _
    simp only [Nat.cast_zero, sub_zero]
    exact Relation.ReflTransGen.refl
  | succ n ih =>
    intro y h
    refine Relation.ReflTransGen.tail (ih y (fun i hi => h i (by omega))) ?_
    refine ⟨Or.inr (Or.inr (Or.inr ⟨rfl, by push_cast; ring⟩)), ?_⟩
    exact h (n + 1) (le_refl _)

/-- Vertical segment walk. -/
theorem reachV_seg {m : GMap} {x a b : Int}
    (h : ∀ t, min a b ≤ t → t ≤ max a b → passable m (x, t)) :
    Reaches m (x, a) (x, b) := by
  rcases le_total a b with hab | hab
  · have hb : b = a + ((b - a).toNat : Int) := by omega
    rw [hb]
    exact reachV_down x _ a (fun i hi => h _ (by omega) (by omega))
  · have hb : b = a - ((a - b).toNat : Int) := by omega
    rw [hb]
    exact reachV_up x _ a (fun i hi => h _ (by omega) (by omega))

/-! ### Connectivity master lemma infrastructure -/

/-- The 12 corridor pairs of the 3x3 sector grid as a literal list. -/
def PAIRS : List (ℕ × ℕ) :=
  [(0, 1), (1, 2), (3, 4), (4, 5), (6, 7), (7, 8),
   (0, 3), (3, 6), (1, 4), (4, 7), (2, 5), (5, 8)]

theorem buildCorridorPairs_eq :
    buildCorridorPairs (buildSectors 80 22) = PAIRS := rfl

/-- The final generated map, as assembled by generate for room list rooms
and stair room indices ui and di: rooms carved into a blank 80x22 grid,
then the 12 corridors, then the two stair stamps. -/
def genMap (rooms : List Room) (ui di : ℕ) : GMap :=
  ((corrFold rooms PAIRS (carveRooms (createBlankMap 80 22) rooms)).set
      (roomCenter (rooms.getD ui dRoom)).1
      (roomCenter (rooms.getD ui dRoom)).2 (makeCell Tile.stairsUp)).set
    (roomCenter (rooms.getD di dRoom)).1
    (roomCenter (rooms.getD di dRoom)).2 (makeCell Tile.stairsDown)

theorem center_facts {i : ℕ} {r : Room} (h : RoomFacts i r) :
    roomInterior r (roomCenter r).1 (roomCenter r).2 ∧
    (roomCenter r).2 = bandY i + 1 ∧
    bandXlo i + 1 ≤ (roomCenter r).1 ∧ (roomCenter r).1 ≤ bandXhi i - 2 := by
  obtain ⟨h1, h2, h3, h4, h5⟩ := h
  unfold roomCenter roomInterior
  simp only
  refine ⟨⟨?_, ?_, ?_, ?_⟩, ?_, ?_, ?_⟩ <;> omega

/-- Numeric range of the per-sector bands of the 80x22 grid. -/
theorem band_bounds (i : ℕ) (hi : i < 9) :
    3 ≤ bandXlo i ∧ bandXlo i + 3 ≤ bandXhi i ∧ bandXhi i ≤ 77 ∧
    3 ≤ bandY i ∧ bandY i ≤ 17 := by
  interval_cases i <;> decide

/-- Rooms of different sectors cover disjoint cell sets (their bands are
disjoint). -/
theorem covers_disjoint {i j : ℕ} (hi : i < 9) (hj : j < 9) (hne : i ≠ j)
    {ri rj : Room} (hfi : RoomFacts i ri) (hfj : RoomFacts j rj)
    {a b : Int} (hci : roomCovers ri a b) : ¬ roomCovers rj a b := by
  intro hcj
  obtain ⟨hi1, hi2, hi3, hi4, hi5⟩ := hfi
  obtain ⟨hj1, hj2, hj3, hj4, hj5⟩ := hfj
  unfold roomCovers at hci hcj
  interval_cases i <;> interval_cases j <;>
    simp only [bandXlo, bandXhi, bandY] at hi3 hi4 hi5 hj3 hj4 hj5 <;> omega

theorem covers_not_interior_perim {r : Room} {a b : Int}
    (hc : roomCovers r a b) (hni : ¬ roomInterior r a b) :
    roomPerim r a b := by
  unfold roomCovers at hc
  unfold roomInterior at hni
  unfold roomPerim
  push_neg at hni
  omega

/-- The two stair stamps preserve non-Void-non-Wall cells (the stamped
cells become stair tiles, which are themselves neither Void nor Wall). -/
theorem setStairs_mono {m : GMap} {a b : Int} (u v : Int × Int)
    (h : notVW (m.cell a b)) :
    notVW (((m.set u.1 u.2 (makeCell Tile.stairsUp)).set v.1 v.2
      (makeCell Tile.stairsDown)).cell a b) := by
  by_cases hv : a = v.1 ∧ b = v.2
  · obtain ⟨rfl, rfl⟩ := hv
    rw [set_cell_self]
    exact ⟨by simp [makeCell], by simp [makeCell]⟩
  · rw [set_cell_other _ _ hv]
    by_cases hu : a = u.1 ∧ b = u.2
    · obtain ⟨rfl, rfl⟩ := hu
      rw [set_cell_self]
      exact ⟨by simp [makeCell], by simp [makeCell]⟩
    · rw [set_cell_other _ _ hu]
      exact h

theorem genMap_width (rooms : List Room) (ui di : ℕ) :
    (genMap rooms ui di).width = 80 := by
  unfold genMap
  rw [set_width, set_width, corrFold_width, carveRooms_width]
  rfl

theorem genMap_height (rooms : List Room) (ui di : ℕ) :
    (genMap rooms ui di).height = 22 := by
  unfold genMap
  rw [set_height, set_height, corrFold_height, carveRooms_height]
  rfl

theorem genMap_inB (rooms : List Room) (ui di : ℕ) (a b : Int) :
    (genMap rooms ui di).inB a b ↔ 0 ≤ a ∧ a < 80 ∧ 0 ≤ b ∧ b < 22 := by
  unfold GMap.inB
  rw [genMap_width, genMap_height]

theorem blank_inB (a b : Int) :
    (createBlankMap 80 22).inB a b ↔ 0 ≤ a ∧ a < 80 ∧ 0 ≤ b ∧ b < 22 := by
  unfold GMap.inB createBlankMap
  simp

theorem genMap_interior_passable (rooms : List Room)
    (hlen : rooms.length = 9)
    (hf : ∀ i, i < 9 → RoomFacts i (rooms.getD i dRoom)) (ui di : ℕ)
    (i : ℕ) (hi : i < 9) (a b : Int)
    (hint : roomInterior (rooms.getD i dRoom) a b) :
    passable (genMap rooms ui di) (a, b) := by
  obtain ⟨h1, h2, h3, h4, h5⟩ := hf i hi
  obtain ⟨b1, b2, b3, b4, b5⟩ := band_bounds i hi
  have hPB : 0 ≤ a ∧ a < 80 ∧ 0 ≤ b ∧ b < 22 := by
    obtain ⟨q1, q2, q3, q4⟩ := hint
    omega
  have hcell : (carveRooms (createBlankMap 80 22) rooms).cell a b =
      makeCell Tile.floor := by
    have := carveRooms_cell_at rooms i (createBlankMap 80 22)
      (by omega) (interior_covers hint) ((blank_inB a b).mpr hPB)
      (fun j hj hne =>
        covers_disjoint hi (by omega) (fun he => hne he.symm)
          (hf i hi) (hf j (by omega)) (interior_covers hint))
    rw [this, if_neg (interior_not_perim hint)]
  have hnv : notVW ((genMap rooms ui di).cell a b) := by
    unfold genMap
    apply setStairs_mono
    exact corrFold_mono (p := (a, b)) rooms PAIRS _ (by
      rw [hcell]
      exact ⟨by simp [makeCell], by simp [makeCell]⟩)
  exact ⟨(genMap_inB rooms ui di a b).mpr hPB, hnv.1, hnv.2⟩

theorem genMap_leg_passable (rooms : List Room) (ui di : ℕ)
    (pr : ℕ × ℕ) (hmem : pr ∈ PAIRS) (p : Int × Int)
    (honc : onCorr (roomCenter (rooms.getD pr.1 dRoom))
      (roomCenter (rooms.getD pr.2 dRoom)) p)
    (hPB : 0 ≤ p.1 ∧ p.1 < 80 ∧ 0 ≤ p.2 ∧ p.2 < 22) :
    passable (genMap rooms ui di) p := by
  have hnv : notVW ((genMap rooms ui di).cell p.1 p.2) := by
    unfold genMap
    apply setStairs_mono
    exact corrFold_carved rooms PAIRS _ pr hmem honc (by
      unfold GMap.inB
      rw [carveRooms_width, carveRooms_height]
      exact (blank_inB p.1 p.2).mpr hPB)
  exact ⟨(genMap_inB rooms ui di p.1 p.2).mpr hPB, hnv.1, hnv.2⟩

theorem genMap_edge (rooms : List Room) (_hlen : rooms.length = 9)
    (hf : ∀ i, i < 9 → RoomFacts i (rooms.getD i dRoom)) (ui di : ℕ)
    (i j : ℕ) (hi : i < 9) (hj : j < 9) (hmem : (i, j) ∈ PAIRS) :
    Reaches (genMap rooms ui di) (roomCenter (rooms.getD i dRoom))
      (roomCenter (rooms.getD j dRoom)) ∧
    Reaches (genMap rooms ui di) (roomCenter (rooms.getD j dRoom))
      (roomCenter (rooms.getD i dRoom)) := by
  obtain ⟨hinti, hcy_i, hcxi1, hcxi2⟩ := center_facts (hf i hi)
  obtain ⟨hintj, hcy_j, hcxj1, hcxj2⟩ := center_facts (hf j hj)
  obtain ⟨bi1, bi2, bi3, bi4, bi5⟩ := band_bounds i hi
  obtain ⟨bj1, bj2, bj3, bj4, bj5⟩ := band_bounds j hj
  set ci := roomCenter (rooms.getD i dRoom) with hci
  set cj := roomCenter (rooms.getD j dRoom) with hcj
  have hH : ∀ t, min ci.1 cj.1 ≤ t → t ≤ max ci.1 cj.1 →
      passable (genMap rooms ui di) (t, ci.2) := by
    intro t h1 h2
    refine genMap_leg_passable rooms ui di (i, j) hmem (t, ci.2)
      (Or.inl ⟨rfl, h1, h2⟩) ?_
    simp only
    omega
  have hV : ∀ t, min ci.2 cj.2 ≤ t → t ≤ max ci.2 cj.2 →
      passable (genMap rooms ui di) (cj.1, t) := by
    intro t h1 h2
    refine genMap_leg_passable rooms ui di (i, j) hmem (cj.1, t)
      (Or.inr ⟨rfl, h1, h2⟩) ?_
    simp only
    omega
  constructor
  · exact reaches_trans (reachH_seg hH) (reachV_seg hV)
  · refine reaches_trans (reachV_seg (a := cj.2) (b := ci.2) ?_)
      (reachH_seg (a := cj.1) (b := ci.1) ?_)
    · intro t h1 h2
      exact hV t (by omega) (by omega)
    · intro t h1 h2
      exact hH t (by omega) (by omega)

theorem genMap_hub (rooms : List Room) (hlen : rooms.length = 9)
    (hf : ∀ i, i < 9 → RoomFacts i (rooms.getD i dRoom)) (ui di : ℕ)
    (i : ℕ) (hi : i < 9) :
    Reaches (genMap rooms ui di) (roomCenter (rooms.getD 0 dRoom))
      (roomCenter (rooms.getD i dRoom)) ∧
    Reaches (genMap rooms ui di) (roomCenter (rooms.getD i dRoom))
      (roomCenter (rooms.getD 0 dRoom)) := by
  have e01 := genMap_edge rooms hlen hf ui di 0 1 (by norm_num) (by norm_num) (by decide)
  have e12 := genMap_edge rooms hlen hf ui di 1 2 (by norm_num) (by norm_num) (by decide)
  have e34 := genMap_edge rooms hlen hf ui di 3 4 (by norm_num) (by norm_num) (by decide)
  have e45 := genMap_edge rooms hlen hf ui di 4 5 (by norm_num) (by norm_num) (by decide)
  have e67 := genMap_edge rooms hlen hf ui di 6 7 (by norm_num) (by norm_num) (by decide)
  have e78 := genMap_edge rooms hlen hf ui di 7 8 (by norm_num) (by norm_num) (by decide)
  have e03 := genMap_edge rooms hlen hf ui di 0 3 (by norm_num) (by norm_num) (by decide)
  have e36 := genMap_edge rooms hlen hf ui di 3 6 (by norm_num) (by norm_num) (by decide)
  interval_cases i
  · exact ⟨Relation.ReflTransGen.refl, Relation.ReflTransGen.refl⟩
  · exact e01
  · exact ⟨reaches_trans e01.1 e12.1, reaches_trans e12.2 e01.2⟩
  · exact e03
  · exact ⟨reaches_trans e03.1 e34.1, reaches_trans e34.2 e03.2⟩
  · exact ⟨reaches_trans (reaches_trans e03.1 e34.1) e45.1,
      reaches_trans e45.2 (reaches_trans e34.2 e03.2)⟩
  · exact ⟨reaches_trans e03.1 e36.1, reaches_trans e36.2 e03.2⟩
  · exact ⟨reaches_trans (reaches_trans e03.1 e36.1) e67.1,
      reaches_trans e67.2 (reaches_trans e36.2 e03.2)⟩
  · exact ⟨reaches_trans (reaches_trans (reaches_trans e03.1 e36.1) e67.1) e78.1,
      reaches_trans e78.2 (reaches_trans e67.2 (reaches_trans e36.2 e03.2))⟩

theorem genMap_reach_between (rooms : List Room) (hlen : rooms.length = 9)
    (hf : ∀ i, i < 9 → RoomFacts i (rooms.getD i dRoom)) (ui di : ℕ)
    (i j : ℕ) (hi : i < 9) (hj : j < 9) :
    Reaches (genMap rooms ui di) (roomCenter (rooms.getD i dRoom))
      (roomCenter (rooms.getD j dRoom)) :=
  reaches_trans (genMap_hub rooms hlen hf ui di i hi).2
    (genMap_hub rooms hlen hf ui di j hj).1

theorem genMap_int_reach (rooms : List Room) (hlen : rooms.length = 9)
    (hf : ∀ i, i < 9 → RoomFacts i (rooms.getD i dRoom)) (ui di : ℕ)
    (i : ℕ) (hi : i < 9) (a b : Int)
    (hint : roomInterior (rooms.getD i dRoom) a b) :
    Reaches (genMap rooms ui di) (roomCenter (rooms.getD i dRoom)) (a, b) := by
  obtain ⟨hinti, hcy, hcx1, hcx2⟩ := center_facts (hf i hi)
  obtain ⟨h1, h2, h3, h4, h5⟩ := hf i hi
  set ci := roomCenter (rooms.getD i dRoom) with hcid
  refine reaches_trans (reachH_seg (a := ci.1) (b := a) (y := ci.2) ?_)
    (reachV_seg (x := a) (a := ci.2) (b := b) ?_)
  · intro t ht1 ht2
    refine genMap_interior_passable rooms hlen hf ui di i hi t ci.2 ?_
    obtain ⟨q1, q2, q3, q4⟩ := hint
    obtain ⟨w1, w2, w3, w4⟩ := hinti
    exact ⟨by omega, by omega, w3, w4⟩
  · intro t ht1 ht2
    refine genMap_interior_passable rooms hlen hf ui di i hi a t ?_
    obtain ⟨q1, q2, q3, q4⟩ := hint
    obtain ⟨w1, w2, w3, w4⟩ := hinti
    exact ⟨q1, q2, by omega, by omega⟩

theorem genMap_leg_reach (rooms : List Room) (_hlen : rooms.length = 9)
    (hf : ∀ i, i < 9 → RoomFacts i (rooms.getD i dRoom)) (ui di : ℕ)
    (i j : ℕ) (hi : i < 9) (hj : j < 9) (hmem : (i, j) ∈ PAIRS)
    (p1 p2 : Int)
    (honc : onCorr (roomCenter (rooms.getD i dRoom))
      (roomCenter (rooms.getD j dRoom)) (p1, p2)) :
    Reaches (genMap rooms ui di) (roomCenter (rooms.getD i dRoom))
      (p1, p2) := by
  obtain ⟨hinti, hcy_i, hcxi1, hcxi2⟩ := center_facts (hf i hi)
  obtain ⟨hintj, hcy_j, hcxj1, hcxj2⟩ := center_facts (hf j hj)
  obtain ⟨bi1, bi2, bi3, bi4, bi5⟩ := band_bounds i hi
  obtain ⟨bj1, bj2, bj3, bj4, bj5⟩ := band_bounds j hj
  set ci := roomCenter (rooms.getD i dRoom) with hci
  set cj := roomCenter (rooms.getD j dRoom) with hcj
  have hH : ∀ t, min ci.1 cj.1 ≤ t → t ≤ max ci.1 cj.1 →
      passable (genMap rooms ui di) (t, ci.2) := by
    intro t ht1 ht2
    refine genMap_leg_passable rooms ui di (i, j) hmem (t, ci.2)
      (Or.inl ⟨rfl, ht1, ht2⟩) ?_
    simp only
    omega
  have hV : ∀ t, min ci.2 cj.2 ≤ t → t ≤ max ci.2 cj.2 →
      passable (genMap rooms ui di) (cj.1, t) := by
    intro t ht1 ht2
    refine genMap_leg_passable rooms ui di (i, j) hmem (cj.1, t)
      (Or.inr ⟨rfl, ht1, ht2⟩) ?_
    simp only
    omega
  rcases honc with ⟨hy, hr1, hr2⟩ | ⟨hx, hr1, hr2⟩
  · simp only at hy hr1 hr2
    rw [hy]
    apply reachH_seg
    intro t ht1 ht2
    apply hH t
    · exact le_trans (le_min (min_le_left _ _) hr1) ht1
    · exact le_trans ht2 (max_le (le_max_left _ _) hr2)
  · simp only at hx hr1 hr2
    rw [hx]
    refine reaches_trans (reachH_seg hH)
      (reachV_seg (x := cj.1) (a := ci.2) (b := p2) ?_)
    intro t ht1 ht2
    apply hV t
    · exact le_trans (le_min (min_le_left _ _) hr1) ht1
    · exact le_trans ht2 (max_le (le_max_left _ _) hr2)

theorem genMap_char (rooms : List Room) (hlen : rooms.length = 9)
    (hf : ∀ i, i < 9 → RoomFacts i (rooms.getD i dRoom)) (ui di : ℕ)
    (hui : ui < 9) (hdi : di < 9) (p : Int × Int)
    (hp : passable (genMap rooms ui di) p) :
    (∃ i, i < 9 ∧ roomInterior (rooms.getD i dRoom) p.1 p.2) ∨
    (∃ pr, pr ∈ PAIRS ∧ onCorr (roomCenter (rooms.getD pr.1 dRoom))
      (roomCenter (rooms.getD pr.2 dRoom)) p) := by
  by_contra hcon
  push_neg at hcon
  obtain ⟨hnoint, hnoleg⟩ := hcon
  have hupint := (center_facts (hf ui hui)).1
  have hdnint := (center_facts (hf di hdi)).1
  have hne_up : ¬(p.1 = (roomCenter (rooms.getD ui dRoom)).1 ∧
      p.2 = (roomCenter (rooms.getD ui dRoom)).2) := by
    rintro ⟨e1, e2⟩
    exact (hnoint ui hui) (by rw [e1, e2]; exact hupint)
  have hne_dn : ¬(p.1 = (roomCenter (rooms.getD di dRoom)).1 ∧
      p.2 = (roomCenter (rooms.getD di dRoom)).2) := by
    rintro ⟨e1, e2⟩
    exact (hnoint di hdi) (by rw [e1, e2]; exact hdnint)
  obtain ⟨hib, ht1, ht2⟩ := hp
  have hcell : (genMap rooms ui di).cell p.1 p.2 =
      (carveRooms (createBlankMap 80 22) rooms).cell p.1 p.2 := by
    unfold genMap
    rw [set_cell_other _ _ hne_dn, set_cell_other _ _ hne_up]
    exact corrFold_cell_other rooms PAIRS _ (fun pr hpr => hnoleg pr hpr)
  rw [hcell] at ht1 ht2
  by_cases hcov : ∃ i, i < 9 ∧ roomCovers (rooms.getD i dRoom) p.1 p.2
  · obtain ⟨i, hi, hci⟩ := hcov
    have hperim := covers_not_interior_perim hci (hnoint i hi)
    have hcw := carveRooms_cell_at rooms i (createBlankMap 80 22) (by omega)
      hci
      ((blank_inB p.1 p.2).mpr ((genMap_inB rooms ui di p.1 p.2).mp hib))
      (fun j hj hne =>
        covers_disjoint hi (by omega) (fun he => hne he.symm)
          (hf i hi) (hf j (by omega)) hci)
    rw [hcw, if_pos hperim] at ht2
    exact ht2 rfl
  · push_neg at hcov
    have hno : ∀ r ∈ rooms, ¬ roomCovers r p.1 p.2 := by
      intro r hr
      obtain ⟨idx, hidx, rfl⟩ := List.mem_iff_getElem.mp hr
      have := hcov idx (by omega)
      rw [List.getD_eq_getElem rooms dRoom hidx] at this
      exact this
    rw [carveRooms_cell_other rooms _ hno] at ht1
    exact ht1 rfl

/-- The master connectivity lemma: on the carved 80x22 map, flood fill from
the up-stair room center reaches exactly the passable (non-Void, non-Wall,
in-bounds) cells. -/
theorem connectivity_master (rooms : List Room) (hlen : rooms.length = 9)
    (hf : ∀ i, i < 9 → RoomFacts i (rooms.getD i dRoom)) (ui di : ℕ)
    (hui : ui < 9) (hdi : di < 9) (p : Int × Int) :
    Reaches (genMap rooms ui di) (roomCenter (rooms.getD ui dRoom)) p ↔
    passable (genMap rooms ui di) p := by
  constructor
  · intro h
    induction h with
    | refl =>
      have hupint := (center_facts (hf ui hui)).1
      exact genMap_interior_passable rooms hlen hf ui di ui hui _ _ hupint
    | tail _ hstep _ => exact hstep.2
  · intro hp
    rcases genMap_char rooms hlen hf ui di hui hdi p hp with
      ⟨i, hi, hint⟩ | ⟨pr, hmem, honc⟩
    · have h2 := genMap_int_reach rooms hlen hf ui di i hi p.1 p.2 hint
      exact reaches_trans
        (genMap_reach_between rooms hlen hf ui di ui i hui hi) h2
    · have hpr : pr.1 < 9 ∧ pr.2 < 9 := by
        have hall : ∀ q ∈ PAIRS, q.1 < 9 ∧ q.2 < 9 := by decide
        exact hall pr hmem
      have h2 := genMap_leg_reach rooms hlen hf ui di pr.1 pr.2 hpr.1 hpr.2
        (by exact hmem) p.1 p.2 honc
      exact reaches_trans
        (genMap_reach_between rooms hlen hf ui di ui pr.1 hui hpr.1) h2

/-- C1: for every valid rng stream (hence every seed) and every dungeon the
generator returns at the default 80x22 size, the set of cells reachable by
4-directional flood fill from stairsUp over non-Void, non-Wall tiles equals
the full set of in-bounds non-Void, non-Wall tiles: the dungeon is fully
connected, with no islands. -/
theorem claim_C1_connectivity (rng : ℕ → ℚ) (hv : ValidRng rng) (lvl : Int)
    (d : Dungeon) (hd : generate rng 80 22 lvl = some d) (p : Int × Int) :
    Reaches d.map d.stairsUp p ↔ passable d.map p := by
  unfold generate at hd
  simp only at hd
  split at hd
  · exact absurd hd (by simp)
  · rename_i up down m3 k2 heq
    rw [Option.some.injEq] at hd
    subst hd
    simp only
    unfold placeStairs at heq
    simp only at heq
    split at heq
    · exact absurd heq (by simp)
    · rename_i downIdx k3 hfd
      split at heq
      · rename_i upRoom downRoom hup hdn
        rw [Option.some.injEq, Prod.mk.injEq, Prod.mk.injEq, Prod.mk.injEq]
          at heq
        obtain ⟨h_up, h_down, h_m3, h_k⟩ := heq
        unfold listGetI at hup hdn
        split at hup
        · rename_i hcondu
          split at hdn
          · rename_i hcondd
            have hlen9 : ((genRooms rng (buildSectors 80 22) 0).1).length = 9 := by
              rw [show (genRooms rng (buildSectors 80 22) 0).1 = rooms80 rng from rfl,
                rooms80_eq]
              rfl
            have huiB : (mfloor (rng (genRooms rng (buildSectors 80 22) 0).2 *
                (((genRooms rng (buildSectors 80 22) 0).1.length : Int) : ℚ))).toNat < 9 := by
              omega
            have hfacts := rooms80_facts rng hv
            have hupRoom : upRoom =
                ((genRooms rng (buildSectors 80 22) 0).1).getD
                  (mfloor (rng (genRooms rng (buildSectors 80 22) 0).2 *
                    (((genRooms rng (buildSectors 80 22) 0).1.length : Int) : ℚ))).toNat
                  dRoom := by
              obtain ⟨hlt, hge⟩ := List.getElem?_eq_some.mp hup
              rw [List.getD_eq_getElem _ _ hlt, hge]
            have hdnRoom : downRoom =
                ((genRooms rng (buildSectors 80 22) 0).1).getD downIdx.toNat
                  dRoom := by
              obtain ⟨hlt, hge⟩ := List.getElem?_eq_some.mp hdn
              rw [List.getD_eq_getElem _ _ hlt, hge]
            have hdiB : downIdx.toNat < 9 := by omega
            have h_upP : roomCenter upRoom = up := Prod.ext h_up.1 h_up.2
            have hmaster := connectivity_master
              ((genRooms rng (buildSectors 80 22) 0).1) hlen9
              hfacts _ downIdx.toNat huiB hdiB p
            unfold genMap at hmaster
            rw [← hupRoom, ← hdnRoom] at hmaster
            rw [← buildCorridorPairs_eq, ← carveCorridors_eq] at hmaster
            rw [← h_upP]
            exact hmaster
          · exact absurd hdn (by simp)
        · exact absurd hup (by simp)
      · rename_i hopt
        exact absurd heq (by simp)

/-- A concrete valid rng stream: the stair draw at cursor 36 picks room 0
and the retry draw picks room 4. -/
def rngC1 : ℕ → ℚ := fun n => if n = 36 then 0 else 1/2

theorem rngC1_valid : ValidRng rngC1 := by
  intro n
  unfold rngC1
  split <;> norm_num

unseal Rat.mul Rat.add Rat.sub Rat.inv Rat.ofScientific in
/-- Closed instance of C1 at the stream rngC1: generation succeeds and the
connectivity theorem applies (its forward direction at stairsUp). -/
theorem claim_C1_witness :
    ∃ d, generate rngC1 80 22 1 = some d ∧ passable d.map d.stairsUp := by
  cases hgen : generate rngC1 80 22 1 with
  | none =>
    have hs : (generate rngC1 80 22 1).isSome = true := by decide
    rw [hgen] at hs
    simp at hs
  | some d =>
    exact ⟨d, rfl, (claim_C1_connectivity rngC1 rngC1_valid 1 d hgen
      d.stairsUp).mp Relation.ReflTransGen.refl⟩

/-- A start cell with no flood step out of it reaches only itself. -/
theorem reaches_stuck {m : GMap} {s0 p : Int × Int}
    (h : ∀ q, ¬ floodStep m s0 q) (hr : Reaches m s0 p) : p = s0 := by
  rcases Relation.ReflTransGen.cases_head hr with h0 | ⟨c, hstep, _⟩
  · exact h0.symm
  · exact absurd hstep (h c)

/-- Placeholder dungeon for Option.getD in the C1 counterexample. -/
def dDungeon : Dungeon :=
  { width := 0, height := 0, map := createBlankMap 0 0, rooms := [],
    corridors := [], stairsUp := (0, 0), stairsDown := (0, 0) }

/-- rng stream for the C1 counterexample at width 28: all generation draws
are 1/2 and the stair draw at cursor 36 picks room index 1, whose sector
(the middle column, x offset 26) lies entirely beyond width 28. -/
def rngC1b : ℕ → ℚ := fun n => if n = 36 then 1/8 else 1/2

instance (m : GMap) (p : Int × Int) : Decidable (passable m p) := by
  unfold passable
  infer_instance

set_option maxRecDepth 100000 in
unseal Rat.mul Rat.add Rat.sub Rat.inv Rat.ofScientific in
/-- C1 counterexample for the unrestricted claim: at width 28 (height 22)
generation still succeeds — buildSectors ignores its dimensions, the
bounds guards of carveRoom and carveStep silently skip the out-of-range
middle and right sector columns, and the unguarded stair stamp of
placeStairs puts stairsUp at the out-of-bounds center (39, 4) of room 1 —
yet the in-bounds floor tile (7, 3) of room 0 is a non-Void, non-Wall
tile that flood fill from stairsUp can never reach, because every
4-neighbour of (39, 4) is out of bounds.  So the flood-fill-equals-all
invariant fails for this generated dungeon. -/
theorem claim_C1_counterexample :
    ∃ d, generate rngC1b 28 22 1 = some d ∧ d.stairsUp = (39, 4) ∧
      passable d.map (7, 3) ∧ ¬ Reaches d.map d.stairsUp (7, 3) := by
  cases hgen : generate rngC1b 28 22 1 with
  | none =>
    have hs : (generate rngC1b 28 22 1).isSome = true := by decide
    rw [hgen] at hs
    simp at hs
  | some d =>
    have hsu : d.stairsUp = ((39 : Int), (4 : Int)) := by
      have h0 : ((generate rngC1b 28 22 1).getD dDungeon).stairsUp =
          ((39 : Int), (4 : Int)) := by decide
      rw [hgen] at h0
      exact h0
    have key : passable d.map (7, 3) ∧ ¬ Reaches d.map d.stairsUp (7, 3) := by
      unfold generate at hgen
      simp only at hgen
      split at hgen
      · exact absurd hgen (by simp)
      · rename_i up down m3 k2 heq
        rw [Option.some.injEq] at hgen
        subst hgen
        dsimp only at hsu ⊢
        subst hsu
        unfold placeStairs at heq
        simp only at heq
        split at heq
        · exact absurd heq (by simp)
        · rename_i downIdx k3 hfd
          split at heq
          · rename_i upRoom downRoom hup hdn
            have ht := Option.some.inj heq
            have h_m3 : m3 =
                (((carveCorridors (carveRooms (createBlankMap 28 22)
                    (genRooms rngC1b (buildSectors 28 22) 0).1)
                    (genRooms rngC1b (buildSectors 28 22) 0).1
                    (buildCorridorPairs (buildSectors 28 22))).2.set
                  (roomCenter upRoom).1 (roomCenter upRoom).2
                  (makeCell Tile.stairsUp)).set
                  (roomCenter downRoom).1 (roomCenter downRoom).2
                  (makeCell Tile.stairsDown)) :=
              (congrArg (fun t => t.2.2.1) ht).symm
            subst h_m3
            generalize hR : (genRooms rngC1b (buildSectors 28 22) 0).1 = R
            generalize hP : buildCorridorPairs (buildSectors 28 22) = P
            have hlen9 : R.length = 9 := by rw [← hR]; decide
            have hcell : (carveRooms (createBlankMap 28 22) R).cell 7 3 =
                makeCell Tile.floor := by
              have h := carveRooms_cell_at (a := 7) (b := 3) R 0
                (createBlankMap 28 22) (by omega)
                (by rw [← hR]; decide)
                (by unfold GMap.inB createBlankMap; decide)
                ?_
              · rw [h, if_neg (by rw [← hR]; decide)]
              · intro j hj hne
                rw [hlen9] at hj
                interval_cases j
                · exact absurd rfl hne
                all_goals rw [← hR]
                all_goals decide
            have hnv : notVW
                ((((carveCorridors (carveRooms (createBlankMap 28 22) R) R
                    P).2.set
                  (roomCenter upRoom).1 (roomCenter upRoom).2
                  (makeCell Tile.stairsUp)).set
                  (roomCenter downRoom).1 (roomCenter downRoom).2
                  (makeCell Tile.stairsDown)).cell 7 3) := by
              rw [carveCorridors_eq]
              apply setStairs_mono
              exact corrFold_mono (p := ((7 : Int), (3 : Int))) R P _
                (by rw [hcell]
                    exact ⟨by simp [makeCell], by simp [makeCell]⟩)
            have hw : ∀ (u1 u2 v1 v2 : Int) (c1 c2 : Cell),
                ((((carveCorridors (carveRooms (createBlankMap 28 22) R) R
                    P).2.set u1 u2 c1).set v1 v2 c2).width) = 28 := by
              intro u1 u2 v1 v2 c1 c2
              rw [set_width, set_width, carveCorridors_eq, corrFold_width,
                carveRooms_width]
              rfl
            have hh : ∀ (u1 u2 v1 v2 : Int) (c1 c2 : Cell),
                ((((carveCorridors (carveRooms (createBlankMap 28 22) R) R
                    P).2.set u1 u2 c1).set v1 v2 c2).height) = 22 := by
              intro u1 u2 v1 v2 c1 c2
              rw [set_height, set_height, carveCorridors_eq, corrFold_height,
                carveRooms_height]
              rfl
            refine ⟨⟨?_, hnv.1, hnv.2⟩, ?_⟩
            · unfold GMap.inB
              rw [hw, hh]
              decide
            · intro hr
              have hnostep : ∀ q, ¬ floodStep
                  (((carveCorridors (carveRooms (createBlankMap 28 22) R) R
                      P).2.set
                    (roomCenter upRoom).1 (roomCenter upRoom).2
                    (makeCell Tile.stairsUp)).set
                    (roomCenter downRoom).1 (roomCenter downRoom).2
                    (makeCell Tile.stairsDown))
                  ((39 : Int), (4 : Int)) q := by
                intro q hq
                obtain ⟨qx, qy⟩ := q
                obtain ⟨hadj, hp⟩ := hq
                have hin := hp.1
                unfold GMap.inB at hin
                rw [hw] at hin
                rcases hadj with ⟨ha, hb⟩ | ⟨ha, hb⟩ | ⟨ha, hb⟩ | ⟨ha, hb⟩ <;>
                  dsimp only at ha hb hin <;> omega
              have hstuck := reaches_stuck hnostep hr
              exact absurd hstuck (by decide)
          · exact absurd heq (by simp)
    exact ⟨d, rfl, hsu, key.1, key.2⟩

/-! ### Status effects (JS objects with numeric counters, keyed by name) -/

/-- A statusEffects record: an association list keyed by effect name, as a
JS object.  A missing key reads as undefined (none). -/
def Effects : Type := List (String × Int)

instance : DecidableEq Effects := by
  unfold Effects; infer_instance

/-- Read a counter; missing keys yield none (undefined). -/
def effGet (se : Effects) (k : String) : Option Int :=
  (se.find? (fun e => e.1 == k)).map (fun e => e.2)

/-- Read a counter the way the JS comparisons do: undefined compares like 0
for every strict comparison the code performs. -/
def effGetD (se : Effects) (k : String) : Int :=
  (effGet se k).getD 0

/-- Write a counter (JS property assignment: overwrite or add the key). -/
def effSet : Effects → String → Int → Effects
  | [], k, v => [(k, v)]
  | e :: rest, k, v =>
    if e.1 == k then (e.1, v) :: rest else e :: effSet rest k v

/-- applyEffect: set the effect counter to max(current ?? 0, duration), so a
longer active effect is never shortened. -/
def applyEffect (se : Effects) (effect : String) (duration : Int) : Effects :=
  effSet se effect (max (effGetD se effect) duration)

theorem effGet_effSet (se : Effects) (k : String) (v : Int) :
    effGet (effSet se k v) k = some v := by
  induction se with
  | nil => simp [effSet, effGet]
  | cons e rest ih =>
    by_cases h : (e.1 == k) = true
    · simp [effSet, effGet, h]
    · simp only [effSet, h, if_false]
      simp only [Bool.not_eq_true] at h
      simp only [effGet, List.find?] at ih ⊢
      rw [h]
      exact ih

theorem effSet_effSet (se : Effects) (k : String) (v w : Int) :
    effSet (effSet se k v) k w = effSet se k w := by
  induction se with
  | nil => simp [effSet]
  | cons e rest ih =>
    by_cases h : (e.1 == k) = true
    · simp [effSet, h]
    · simp only [effSet, h, Bool.false_eq_true, if_false]
      rw [ih]

/-- C10: applyEffect sets the counter to max(current, duration), treating a
missing counter as 0; it never shortens an active effect, and applying the
same effect with the same duration twice leaves the record identical to
applying it once (idempotence). -/
theorem claim_C10_applyEffect (se : Effects) (effect : String)
    (duration : Int) :
    effGet (applyEffect se effect duration) effect =
      some (max (effGetD se effect) duration) ∧
    effGetD se effect ≤ effGetD (applyEffect se effect duration) effect ∧
    duration ≤ effGetD (applyEffect se effect duration) effect ∧
    applyEffect (applyEffect se effect duration) effect duration =
      applyEffect se effect duration := by
  have hget : effGet (applyEffect se effect duration) effect =
      some (max (effGetD se effect) duration) :=
    effGet_effSet se effect _
  have hgetD : effGetD (applyEffect se effect duration) effect =
      max (effGetD se effect) duration := by
    unfold effGetD
    rw [hget]
    rfl
  refine ⟨hget, ?_, ?_, ?_⟩
  · rw [hgetD]; exact le_max_left _ _
  · rw [hgetD]; exact le_max_right _ _
  · calc applyEffect (applyEffect se effect duration) effect duration
        = effSet (applyEffect se effect duration) effect
            (max (effGetD (applyEffect se effect duration) effect) duration) := rfl
      _ = effSet (applyEffect se effect duration) effect
            (max (effGetD se effect) duration) := by
            rw [hgetD, max_assoc, max_self]
      _ = effSet se effect (max (effGetD se effect) duration) :=
            effSet_effSet se effect _ _
      _ = applyEffect se effect duration := rfl

/-! ### Combat (src/game/combat.js, the variant with hit and damage
bonuses) -/

/-- Probability that an attack misses (0.25, exact in binary floating
point and as a rational). -/
def MISS_CHANCE : ℚ := mkRat 1 4

/-- Result record of resolveCombat.  The JS miss result carries no tier
field; it is embedded as tier 0. -/
structure CombatResult where
  hit : Bool
  damage : Int
  tier : Int
  deriving DecidableEq, Repr

/-- resolveCombat: one hit/miss roll, then on a hit one damage roll.  The
attacker passes its attack plus optional hit/damage bonuses (absent for
monsters, JS ?? 0); the defender passes hp and defense.  Returns the
result, the defender's new hp (the JS code mutates defender.hp on a hit),
and the advanced rng cursor.  0.05 is embedded as the exact rational
1/20. -/
def resolveCombat (attack : Int) (hitBonus damageBonus : Option Int)
    (defHp defDefense : Int) (rng : ℕ → ℚ) (k : ℕ) :
    CombatResult × Int × ℕ :=
  let hb := hitBonus.getD 0
  let db := damageBonus.getD 0
  if rng k < max 0 (MISS_CHANCE - (hb : ℚ) * mkRat 1 20) then
    ({ hit := false, damage := 0, tier := 0 }, defHp, k + 1)
  else
    let maxRaw := attack * 4
    let baseRaw := 1 + mfloor (rng (k + 1) * (maxRaw : ℚ))
    let damage := max 1 (baseRaw - defDefense + db)
    let tier := min 3 (mfloor (((baseRaw - 1 : Int) : ℚ) / ((attack : Int) : ℚ)))
    ({ hit := true, damage := damage, tier := tier }, defHp - damage, k + 2)

/-- C2: resolveCombat misses exactly when the first draw is below
max(0, 0.25 - hitBonus * 0.05) (bonuses defaulting to 0 when absent),
returning hit:false, damage:0 and leaving the defender's hp unchanged;
on a hit it draws a second value, computes
rawDamage = 1 + floor(rng * attack * 4),
damage = max(1, rawDamage - defense + damageBonus),
tier = min(3, floor((rawDamage - 1) / attack)), and decrements the
defender's hp by exactly damage.  Stated for attack >= 1 (every monster and
player attack value); at attack = 0 the JS tier expression divides by zero
(NaN), which the rational embedding does not model. -/
theorem claim_C2_resolveCombat (attack : Int)
    (hitBonus damageBonus : Option Int) (defHp defDefense : Int)
    (rng : ℕ → ℚ) (k : ℕ) (_hatk : 1 ≤ attack) :
    (rng k < max 0 ((1 / 4 : ℚ) - (hitBonus.getD 0 : ℚ) * (1 / 20)) →
      resolveCombat attack hitBonus damageBonus defHp defDefense rng k =
        ({ hit := false, damage := 0, tier := 0 }, defHp, k + 1)) ∧
    (¬ rng k < max 0 ((1 / 4 : ℚ) - (hitBonus.getD 0 : ℚ) * (1 / 20)) →
      resolveCombat attack hitBonus damageBonus defHp defDefense rng k =
        (let rawDamage := 1 + ⌊rng (k + 1) * ((attack : ℚ) * 4)⌋
         let damage := max 1 (rawDamage - defDefense + damageBonus.getD 0)
         ({ hit := true, damage := damage,
            tier := min 3 ⌊(((rawDamage - 1 : Int) : ℚ)) / ((attack : Int) : ℚ)⌋ },
          defHp - damage, k + 2))) := by
  have hm : max (0 : ℚ) (MISS_CHANCE - ((hitBonus.getD 0 : Int) : ℚ) * mkRat 1 20) =
      max 0 ((1 / 4 : ℚ) - (hitBonus.getD 0 : ℚ) * (1 / 20)) := by
    norm_num [MISS_CHANCE]
  constructor
  · intro h
    unfold resolveCombat
    rw [if_pos (by rw [hm]; exact h)]
  · intro h
    unfold resolveCombat
    rw [if_neg (by rw [hm]; exact h)]
    simp only [mfloor_eq]
    have harg : (((attack * 4 : Int)) : ℚ) = (attack : ℚ) * 4 := by push_cast; ring
    rw [harg]

/-- Ambient rng stream for the C2 witness: first draw 1/2, later draws
1/3. -/
def c2rng : ℕ → ℚ := fun n => if n = 0 then 1 / 2 else 1 / 3

/-- Closed instance of C2 at attack 3, bonuses +1/+1, defender hp 10 and
defense 2: the first draw 1/2 clears the reduced miss chance 1/5, so the
hit formulas apply. -/
theorem claim_C2_witness :
    resolveCombat 3 (some 1) (some 1) 10 2 c2rng 0 =
      (let rawDamage := 1 + ⌊c2rng 1 * ((3 : ℚ) * 4)⌋
       let damage := max 1 (rawDamage - 2 + (some 1 : Option Int).getD 0)
       ({ hit := true, damage := damage,
          tier := min 3 ⌊(((rawDamage - 1 : Int) : ℚ)) / ((3 : Int) : ℚ)⌋ },
        10 - damage, 0 + 2)) :=
  (claim_C2_resolveCombat 3 (some 1) (some 1) 10 2 c2rng 0
    (by norm_num)).2 (by norm_num [c2rng])

/-! ### Game entities (src/game/player.js, src/game/monster.js,
src/game/item.js, src/game/state.js).  JS objects become records; fields a
given item kind never carries (undefined in JS, only ever read through
?? 0 or arithmetic on present kinds) default to 0. -/

/-- An inventory item.  One record covers all JS item shapes; the numeric
fields default to 0 for kinds that lack them. -/
structure Item where
  type : String
  name : String
  hitBonus : Int := 0
  damageBonus : Int := 0
  ac : Int := 0
  charges : Int := 0
  deriving DecidableEq

/-- Placeholder item for list getD defaults (never selected by in-range
indices). -/
def dItem : Item := { type := "", name := "" }

/-- The player record, with the fields the state/ai layer reads and
writes. -/
structure Player where
  x : Int
  y : Int
  hp : Int
  maxHp : Int
  attack : Int
  strength : Int
  baseDefense : Int
  defense : Int
  hitBonus : Int
  damageBonus : Int
  equippedWeapon : Option Item
  equippedArmor : Option Item
  equippedRings : List (Option Item)
  ringDefenseBonus : Int
  ringDamageBonus : Int
  ringHitBonus : Int
  ringStrengthBonus : Int
  gold : Int
  xp : Int
  xpLevel : Int
  rank : String
  food : Int
  inventory : List Item
  statusEffects : Effects
  deriving DecidableEq

/-- A monster instance (createMonster's shape). -/
structure Monster where
  x : Int
  y : Int
  hp : Int
  maxHp : Int
  attack : Int
  defense : Int
  xp : Int
  name : String
  char : String
  aggression : Int
  provoked : Bool
  statusEffects : Effects
  deriving DecidableEq

/-- Placeholder monster for list getD defaults. -/
def dMonster : Monster :=
  { x := 0, y := 0, hp := 0, maxHp := 0, attack := 0, defense := 0, xp := 0,
    name := "", char := "", aggression := 0, provoked := false,
    statusEffects := [] }

/-- A gold pile on the floor. -/
structure GoldItem where
  x : Int
  y : Int
  amount : Int
  deriving DecidableEq

/-- An item on the floor. -/
structure DungeonItem where
  x : Int
  y : Int
  item : Item
  deriving DecidableEq

/-- The GameState aggregate of state.js. -/
structure GameState where
  dungeon : Dungeon
  player : Player
  playerName : String
  dungeonLevel : Int
  turn : Int
  monsters : List Monster
  goldItems : List GoldItem
  dungeonItems : List DungeonItem
  messages : List String
  dead : Bool
  causeOfDeath : Option String

/-- A monster template row of MONSTER_TABLE. -/
structure MonsterTemplate where
  name : String
  char : String
  level : Int
  hp : Int
  attack : Int
  defense : Int
  xp : Int
  aggression : Int
  deriving DecidableEq

/-- All 26 monster types (monster.js). -/
def MONSTER_TABLE : List MonsterTemplate :=
  [⟨"Aquator", "A", 3, 23, 0, 3, 20, 1⟩,
   ⟨"Bat", "B", 1, 5, 1, 3, 1, 0⟩,
   ⟨"Centaur", "C", 3, 18, 2, 2, 17, 1⟩,
   ⟨"Dragon", "D", 5, 45, 8, 5, 5000, 1⟩,
   ⟨"Emu", "E", 1, 5, 1, 1, 2, 1⟩,
   ⟨"Venus Flytrap", "F", 4, 36, 2, 3, 80, 0⟩,
   ⟨"Griffin", "G", 5, 59, 4, 3, 2000, 1⟩,
   ⟨"Hobgoblin", "H", 1, 5, 2, 2, 3, 1⟩,
   ⟨"Ice monster", "I", 2, 5, 0, 0, 5, 1⟩,
   ⟨"Jabberwock", "J", 5, 68, 6, 1, 3000, 1⟩,
   ⟨"Kestrel", "K", 1, 5, 1, 1, 1, 1⟩,
   ⟨"Leprechaun", "L", 2, 14, 1, 0, 10, 0⟩,
   ⟨"Medusa", "M", 5, 36, 3, 3, 200, 1⟩,
   ⟨"Nymph", "N", 3, 14, 0, 0, 37, 0⟩,
   ⟨"Orc", "O", 2, 5, 2, 1, 5, 1⟩,
   ⟨"Phantom", "P", 4, 36, 4, 3, 120, 1⟩,
   ⟨"Quagga", "Q", 3, 14, 2, 3, 15, 1⟩,
   ⟨"Rattlesnake", "R", 2, 9, 2, 3, 9, 1⟩,
   ⟨"Snake", "S", 1, 5, 1, 2, 2, 1⟩,
   ⟨"Troll", "T", 4, 27, 3, 2, 120, 1⟩,
   ⟨"Ur-vile", "U", 4, 32, 5, 5, 190, 1⟩,
   ⟨"Vampire", "V", 5, 36, 3, 4, 350, 1⟩,
   ⟨"Wraith", "W", 4, 23, 2, 2, 55, 1⟩,
   ⟨"Xeroc", "X", 4, 32, 4, 1, 100, 1⟩,
   ⟨"Yeti", "Y", 3, 18, 2, 1, 50, 1⟩,
   ⟨"Zombie", "Z", 2, 9, 2, 0, 6, 1⟩]

/-- Placeholder template for list getD defaults. -/
def dTemplate : MonsterTemplate := ⟨"", "", 0, 0, 0, 0, 0, 0⟩

/-- createMonster: instantiate a template at a position; the name is
lower-cased, status counters start at zero. -/
def createMonster (t : MonsterTemplate) (x y : Int) : Monster :=
  { x := x, y := y, hp := t.hp, maxHp := t.hp, attack := t.attack,
    defense := t.defense, xp := t.xp, name := t.name.toLower,
    char := t.char, aggression := t.aggression, provoked := false,
    statusEffects := [("paralysis", 0), ("confusion", 0), ("scared", 0)] }

/-- Rank title for each xpLevel index (player.js). -/
def RANKS : List String :=
  ["", "Guild Novice", "Apprentice", "Journeyman", "Adventurer",
   "Fighter", "Warrior", "Rogue", "Champion", "Master Rogue",
   "Warlord", "Hero", "Guild Master", "DragonLord", "Wizard"]

/-- Minimum XP required for each rank level. -/
def XP_THRESHOLDS : List Int :=
  [0, 5, 20, 80, 200,
   500, 1000, 2000, 4000, 8000,
   15000, 30000, 60000, 120000, 250000]

/-- HP regen period (turns) for each xpLevel. -/
def REGEN_RATES : List Int :=
  [40, 38, 35, 32, 29,
   26, 23, 20, 18, 16,
   14, 12, 10, 8, 5]

/-- Max HP increase granted when reaching each rank. -/
def HP_PER_RANK : List Int :=
  [0, 3, 4, 5, 6,
   7, 8, 9, 10, 12,
   14, 16, 18, 20, 25]

/-- xpToLevel: the highest level (1..14) whose threshold is met, scanning
upward exactly like the JS loop (index 0 is skipped). -/
def xpToLevel (xp : Int) : Int :=
  (List.range XP_THRESHOLDS.length).foldl
    (fun level i =>
      if 1 ≤ i ∧ XP_THRESHOLDS.getD i 0 ≤ xp then (i : Int) else level) 0

/-! ### Small state helpers -/

/-- Maximum sight range in tiles (state.js). -/
def SIGHT_RADIUS : ℕ := 1

/-- Hunger thresholds in descending order (state.js). -/
def HUNGER_THRESHOLDS : List (Int × String) :=
  [(900, "You are getting hungry"), (400, "You are very hungry"),
   (150, "You are famished"), (20, "You are starving")]

/-- article: indefinite article via the leading-vowel test
/^[aeiou]/i. -/
def article (noun : String) : String :=
  match noun.data with
  | [] => "a"
  | c :: _ =>
    if c = 'a' ∨ c = 'e' ∨ c = 'i' ∨ c = 'o' ∨ c = 'u' ∨
       c = 'A' ∨ c = 'E' ∨ c = 'I' ∨ c = 'O' ∨ c = 'U' then "an" else "a"

/-- isWalkable: the five WALKABLE tile types of state.js (ai.js carries the
same set for monsters). -/
def isWalkable (t : Tile) : Bool :=
  t = Tile.floor || t = Tile.corridor || t = Tile.door ||
  t = Tile.stairsUp || t = Tile.stairsDown

/-- The JS pattern WALKABLE.has(map[ty]?.[tx]?.type): out-of-bounds reads
undefined, which is never in the set. -/
def walkableAt (m : GMap) (x y : Int) : Bool :=
  decide (m.inB x y) && isWalkable (m.cell x y).type

/-- fovRadius: blindness reduces sight to 0, otherwise SIGHT_RADIUS. -/
def fovRadius (p : Player) : ℕ :=
  if 0 < effGetD p.statusEffects "blindness" then 0 else SIGHT_RADIUS

/-- player.equippedRings.some(r => r?.name === n). -/
def hasRing (p : Player) (n : String) : Bool :=
  p.equippedRings.any (fun r =>
    match r with
    | some ring => ring.name == n
    | none => false)

/-- Strip a literal prefix from a string (the JS replace(/^pre/, '')
idiom), on the character lists to keep kernel evaluation simple. -/
def dropPre : List Char → List Char → Option (List Char)
  | [], rest => some rest
  | _ :: _, [] => none
  | p :: ps, c :: cs => if c = p then dropPre ps cs else none

/-- name.replace(/^pre/, ''): strips pre when it is a prefix, else returns
the string unchanged. -/
def stripPre (pre s : String) : String :=
  match dropPre pre.data s.data with
  | some rest => String.mk rest
  | none => s

/-- findIndex: index of the first element satisfying p. -/
def findIdxA {α : Type} (p : α → Bool) : List α → Option ℕ
  | [] => none
  | a :: l => if p a then some 0 else (findIdxA p l).map (fun i => i + 1)

/-- splice(idx, 1) after a findIndex on the same predicate: remove the
first element satisfying p. -/
def eraseFirst {α : Type} (p : α → Bool) : List α → List α
  | [] => []
  | a :: l => if p a then l else a :: eraseFirst p l

/-- Replace the first occurrence of old with nw (JS object mutation seen
through the containing list). -/
def replaceFirst : List Item → Item → Item → List Item
  | [], _, _ => []
  | a :: l, old, nw => if a = old then nw :: l else a :: replaceFirst l old nw

/-- Math.round for the non-negative ratios promotePlayer uses:
round(x) = floor(x + 1/2). -/
def mround (q : ℚ) : Int := mfloor (q + mkRat 1 2)

/-- recomputeRings: fold the three recognised ring effects into the bonus
fields. -/
def recomputeRings (p : Player) : Player :=
  let acc := p.equippedRings.foldl
    (fun (acc : Int × Int × Int) r =>
      match r with
      | none => acc
      | some ring =>
        let effect := stripPre "ring of " ring.name
        if effect = "protection" then (acc.1 + 1, acc.2.1, acc.2.2)
        else if effect = "increase damage" then (acc.1, acc.2.1 + 1, acc.2.2)
        else if effect = "dexterity" then (acc.1, acc.2.1, acc.2.2 + 1)
        else acc) (0, 0, 0)
  { p with ringDefenseBonus := acc.1, ringDamageBonus := acc.2.1,
           ringHitBonus := acc.2.2 }

/-- recomputeDefense: baseDefense + armor ac (?? 0) + ring bonus. -/
def recomputeDefense (p : Player) : Player :=
  { p with defense := p.baseDefense +
      ((p.equippedArmor.map (fun a => a.ac)).getD 0) + p.ringDefenseBonus }

/-- recomputeWeapon: weapon bonuses (?? 0) + ring bonuses. -/
def recomputeWeapon (p : Player) : Player :=
  { p with
    hitBonus := ((p.equippedWeapon.map (fun w => w.hitBonus)).getD 0) +
      p.ringHitBonus,
    damageBonus := ((p.equippedWeapon.map (fun w => w.damageBonus)).getD 0) +
      p.ringDamageBonus }

/-- promotePlayer: add HP_PER_RANK for each rank gained, rescale hp to the
same health fraction (rounded, minimum 1), update level and rank. -/
def promotePlayer (p : Player) (prevLevel newLevel : Int) : Player :=
  let healthFrac : ℚ := (p.hp : ℚ) / (p.maxHp : ℚ)
  let maxHp2 := (intRange (prevLevel + 1) newLevel).foldl
    (fun acc lv => acc + HP_PER_RANK.getD lv.toNat 0) p.maxHp
  { p with maxHp := maxHp2,
           hp := max 1 (mround (healthFrac * (maxHp2 : ℚ))),
           xpLevel := newLevel,
           rank := RANKS.getD newLevel.toNat "" }

/-- handleDeath: record death once when hp has dropped to 0 or below. -/
def handleDeath (s : GameState) : GameState :=
  if 0 < s.player.hp ∨ s.dead = true then s
  else { s with dead := true, messages := s.messages ++ ["You have died"] }

/-- One `if (e.x > 0 && --e.x === 0) push(msg)` step of
tickPlayerEffects. -/
def tickOneEffect (se : Effects) (msgs : List String) (name msg : String) :
    Effects × List String :=
  if 0 < effGetD se name then
    let v := effGetD se name - 1
    (effSet se name v, if v = 0 then msgs ++ [msg] else msgs)
  else (se, msgs)

/-- tickPlayerEffects: decrement paralysis, confusion and blindness,
pushing the expiry message when a counter reaches zero. -/
def tickPlayerEffects (s : GameState) : GameState :=
  let r1 := tickOneEffect s.player.statusEffects s.messages "paralysis"
    "You can move again"
  let r2 := tickOneEffect r1.1 r1.2 "confusion" "You feel less confused"
  let r3 := tickOneEffect r2.1 r2.2 "blindness" "Your vision returns"
  { s with player := { s.player with statusEffects := r3.1 },
           messages := r3.2 }

/-- PLAYER_HIT_MSGS indexed by tier; resolveCombat clamps tier to at most
3, and for the rng range [0,1) the tier is 0..3, so the last entry stands
for index 3. -/
def PLAYER_HIT_MSGS (tier : Int) (name : String) : String :=
  if tier = 0 then "You hit the " ++ name
  else if tier = 1 then "You have injured the " ++ name
  else if tier = 2 then "You scored an excellent hit on the " ++ name
  else "You clobbered the " ++ name

/-- regenHp: +1 hp on regen-rate turns, +1 more with a ring of
regeneration, only while alive and below max.  xpLevel always indexes
within REGEN_RATES in game states (0..14). -/
def regenHp (s : GameState) : GameState :=
  if s.dead = true ∨ s.player.maxHp ≤ s.player.hp then s
  else
    let rate := REGEN_RATES.getD s.player.xpLevel.toNat 0
    let p1 := if s.turn % rate = 0 then { s.player with hp := s.player.hp + 1 }
      else s.player
    let p2 := if p1.hp < p1.maxHp ∧ hasRing p1 "ring of regeneration" = true
      then { p1 with hp := p1.hp + 1 } else p1
    { s with player := p2 }

/-- tickHunger: decrement food once per turn (half rate with a slow
digestion ring), push threshold messages, deal 1 starvation damage at
0 food and re-check death. -/
def tickHunger (s : GameState) : GameState :=
  if s.dead = true then s
  else
    let slowDigestion := hasRing s.player "ring of slow digestion"
    if slowDigestion = true ∧ s.turn % 2 ≠ 0 then s
    else
      let p1 : Player := if 0 < s.player.food then
          { s.player with food := s.player.food - 1 }
        else s.player
      let msgs := HUNGER_THRESHOLDS.foldl
        (fun acc t => if p1.food = t.1 then acc ++ [t.2] else acc) s.messages
      let s1 := { s with player := p1, messages := msgs }
      if p1.food = 0 then
        let p2 : Player := { p1 with hp := p1.hp - 1 }
        let cod : Option String :=
          if p2.hp ≤ 0 then some "starvation" else s1.causeOfDeath
        handleDeath { s1 with player := p2, causeOfDeath := cod }
      else s1

/-- pickupGold: first pile at (x, y) is added to player.gold and removed,
with a pickup message. -/
def pickupGold (s : GameState) (x y : Int) : GameState :=
  match s.goldItems.find? (fun g => decide (g.x = x) && decide (g.y = y)) with
  | none => s
  | some g =>
    { s with
      player := { s.player with gold := s.player.gold + g.amount },
      goldItems := eraseFirst
        (fun g2 => decide (g2.x = x) && decide (g2.y = y)) s.goldItems,
      messages := s.messages ++
        ["You pick up " ++ toString g.amount ++ " gold pieces"] }

/-- pickupDungeonItem: first floor item at (x, y) moves to the inventory,
with a pickup message. -/
def pickupDungeonItem (s : GameState) (x y : Int) : GameState :=
  match s.dungeonItems.find?
      (fun d => decide (d.x = x) && decide (d.y = y)) with
  | none => s
  | some d =>
    { s with
      player := { s.player with inventory := s.player.inventory ++ [d.item] },
      dungeonItems := eraseFirst
        (fun d2 => decide (d2.x = x) && decide (d2.y = y)) s.dungeonItems,
      messages := s.messages ++
        ["You pick up " ++ article d.item.name ++ " " ++ d.item.name] }

/-- Modelled from the spec: findRoomContaining is imported by state.js from
room.js but the function itself is absent from the sources; the spec
describes illuminateRoomAt as acting when "(x, y) lies inside an
illuminated room", so this returns the first room whose interior contains
the point. -/
def findRoomContaining (rooms : List Room) (x y : Int) : Option Room :=
  rooms.find? (fun r =>
    decide (r.x ≤ x ∧ x < r.x + r.width ∧ r.y ≤ y ∧ y < r.y + r.height))

/-- illuminateRoomAt: permanently reveal the containing room when it is
illuminated. -/
def illuminateRoomAt (m : GMap) (rooms : List Room) (x y : Int) : GMap :=
  match findRoomContaining rooms x y with
  | some room => if room.illuminated then revealRoom m room else m
  | none => m

/-! ### Monster AI (src/game/ai.js).  The in-place mutation of the
monsters array, the player and the message log is threaded through an
explicit context; the JS identity test o !== m over the iterated array is
the index test j ≠ mi. -/

/-- Chebyshev distance (Math.max of the coordinate distances). -/
def cheb (ax ay bx byy : Int) : Int := max |ax - bx| |ay - byy|

/-- Chebyshev distance at which aggression-1 monsters pursue. -/
def MONSTER_SIGHT : Int := 8

/-- Close-pursuit range for aggression-2 monsters. -/
def PURSUIT_SIGHT : Int := 4

/-- Monster names whose attacks are purely special. -/
def SPECIAL_ONLY : List String := ["aquator", "nymph"]

/-- The mutable state the ai functions touch, plus the ambient rng
cursor. -/
structure AiCtx where
  monsters : List Monster
  player : Player
  messages : List String
  causeOfDeath : Option String
  k : ℕ

/-- monsters.some(o => o !== m && o.hp > 0 && o.x === tx && o.y === ty),
with object identity as the position index. -/
def occupiedByOther (monsters : List Monster) (mi : ℕ) (tx ty : Int) :
    Bool :=
  monsters.enum.any (fun jo =>
    decide (jo.1 ≠ mi) && decide (0 < jo.2.hp) &&
    decide (jo.2.x = tx) && decide (jo.2.y = ty))

/-- applySpecialAttack: the per-name on-hit special effects.  The nymph's
inline ring-bonus loop recomputes exactly what recomputeRings,
recomputeDefense and recomputeWeapon compute, and is embedded as that
composition. -/
def applySpecialAttack (m : Monster) (p : Player) (msgs : List String)
    (rng : ℕ → ℚ) (k : ℕ) : Monster × Player × List String × ℕ :=
  if m.name = "aquator" then
    match p.equippedArmor with
    | some armor =>
      let armor2 := { armor with ac := max 0 (armor.ac - 1) }
      let p2 := { p with equippedArmor := some armor2,
                         defense := p.baseDefense + armor2.ac + p.ringDefenseBonus }
      (m, p2, msgs ++ ["Your armor corrodes!"], k)
    | none => (m, p, msgs ++ ["The aquator splashes you harmlessly"], k)
  else if m.name = "ice monster" then
    if 0 < effGetD p.statusEffects "paralysis" then (m, p, msgs, k)
    else if rng k < mkRat 3 10 then
      (m, { p with statusEffects := effSet p.statusEffects "paralysis" 2 },
       msgs ++ ["You are frozen solid!"], k + 1)
    else (m, p, msgs, k + 1)
  else if m.name = "nymph" then
    if 0 < p.inventory.length then
      let idx := (mfloor (rng k * (p.inventory.length : ℚ))).toNat
      let stolen := p.inventory.getD idx dItem
      let p1 := { p with inventory := p.inventory.eraseIdx idx }
      let p2 := if p1.equippedWeapon = some stolen then
          { p1 with equippedWeapon := none, hitBonus := p1.ringHitBonus,
                    damageBonus := p1.ringDamageBonus }
        else p1
      let p3 := if p2.equippedArmor = some stolen then
          { p2 with equippedArmor := none,
                    defense := p2.baseDefense + p2.ringDefenseBonus }
        else p2
      let p4 := match findIdxA (fun r => decide (r = some stolen))
          p3.equippedRings with
        | some ri =>
          recomputeWeapon (recomputeDefense (recomputeRings
            { p3 with equippedRings := p3.equippedRings.set ri none }))
        | none => p3
      ({ m with hp := 0 }, p4,
       msgs ++ ["The nymph steals your " ++ stolen.name ++ " and vanishes!"],
       k + 1)
    else
      ({ m with hp := 0 }, p,
       msgs ++ ["The nymph finds nothing to steal and vanishes!"], k)
  else if m.name = "rattlesnake" then
    if rng k < mkRat 1 2 then (m, p, msgs, k + 1)
    else if hasRing p "ring of sustain strength" then
      (m, p,
       msgs ++ ["The rattlesnake\x27s venom is neutralized by your ring!"],
       k + 1)
    else
      let str2 := max 1 (p.strength - 1)
      (m, { p with strength := str2,
                   attack := max 1 (str2 + p.ringStrengthBonus - 13) },
       msgs ++ ["You are envenom\x27d and feel weaker!"], k + 1)
  else if m.name = "vampire" then
    if 1 < p.maxHp then
      let mh := p.maxHp - 1
      (m, { p with maxHp := mh, hp := min p.hp mh },
       msgs ++ ["The vampire drains your life force!"], k)
    else (m, p, msgs, k)
  else if m.name = "wraith" then
    if 0 < p.xpLevel then
      let drained := p.xpLevel
      let lvl2 := p.xpLevel - 1
      let mh := max 1 (p.maxHp - HP_PER_RANK.getD drained.toNat 0)
      (m, { p with xpLevel := lvl2, rank := RANKS.getD lvl2.toNat "",
                   xp := XP_THRESHOLDS.getD lvl2.toNat 0,
                   maxHp := mh, hp := min p.hp mh },
       msgs ++ ["The wraith drains your experience!"], k)
    else (m, p, msgs, k)
  else (m, p, msgs, k)

/-- The attack branch of pursuePlayer: a monster acting at the player's
tile.  Leprechauns roll their own 25% miss and steal gold; SPECIAL_ONLY
monsters roll 25% then apply only their special; everyone else goes
through resolveCombat, applies any special on a hit, and records the cause
of death when the player drops to 0 hp. -/
def monsterAttack (mi : ℕ) (rng : ℕ → ℚ) (ctx : AiCtx) : AiCtx :=
  let m := ctx.monsters.getD mi dMonster
  if m.name = "leprechaun" then
    if rng ctx.k < mkRat 1 4 then
      { ctx with messages := ctx.messages ++ ["The leprechaun misses"],
                 k := ctx.k + 1 }
    else
      let stolen := min (mfloor ((ctx.player.gold : ℚ) *
        (mkRat 1 10 + rng (ctx.k + 1) * mkRat 1 5))) 640
      let msg := if 0 < stolen then
          "The leprechaun steals " ++ toString stolen ++ " gold and vanishes!"
        else "The leprechaun finds nothing to steal and vanishes!"
      { ctx with
        player := { ctx.player with gold := ctx.player.gold - stolen },
        messages := ctx.messages ++ [msg],
        monsters := ctx.monsters.set mi { m with hp := 0 },
        k := ctx.k + 2 }
  else if SPECIAL_ONLY.contains m.name then
    if mkRat 1 4 ≤ rng ctx.k then
      let r := applySpecialAttack m ctx.player ctx.messages rng (ctx.k + 1)
      { ctx with monsters := ctx.monsters.set mi r.1, player := r.2.1,
                 messages := r.2.2.1, k := r.2.2.2 }
    else
      { ctx with messages := ctx.messages ++ ["The " ++ m.name ++ " misses"],
                 k := ctx.k + 1 }
  else
    let rc := resolveCombat m.attack none none ctx.player.hp
      ctx.player.defense rng ctx.k
    let msg := if rc.1.hit then "The " ++ m.name ++ " hits you"
      else "The " ++ m.name ++ " misses"
    let ctx1 := { ctx with player := { ctx.player with hp := rc.2.1 },
                           messages := ctx.messages ++ [msg], k := rc.2.2 }
    if rc.1.hit then
      let r := applySpecialAttack m ctx1.player ctx1.messages rng ctx1.k
      let ctx2 := { ctx1 with monsters := ctx1.monsters.set mi r.1,
                              player := r.2.1, messages := r.2.2.1,
                              k := r.2.2.2 }
      if ctx2.player.hp ≤ 0 then
        { ctx2 with causeOfDeath := some (article m.name ++ " " ++ m.name) }
      else ctx2
    else ctx1

/-- The for-of loop over the candidate steps of pursuePlayer: attack when
the step reaches the player, move into the first walkable unoccupied step,
otherwise fall through. -/
def pursueSteps (map : GMap) (mi : ℕ) (rng : ℕ → ℚ) (ctx : AiCtx) :
    List (Int × Int) → AiCtx
  | [] => ctx
  | st :: rest =>
    let m := ctx.monsters.getD mi dMonster
    let tx := m.x + st.1
    let ty := m.y + st.2
    if tx = ctx.player.x ∧ ty = ctx.player.y then monsterAttack mi rng ctx
    else if walkableAt map tx ty = false then pursueSteps map mi rng ctx rest
    else if occupiedByOther ctx.monsters mi tx ty = true then
      pursueSteps map mi rng ctx rest
    else { ctx with monsters := ctx.monsters.set mi { m with x := tx, y := ty } }

/-- pursuePlayer: try the x-axis step then the y-axis step toward the
player. -/
def pursuePlayer (map : GMap) (mi : ℕ) (rng : ℕ → ℚ) (ctx : AiCtx) :
    AiCtx :=
  let m := ctx.monsters.getD mi dMonster
  let dx := Int.sign (ctx.player.x - m.x)
  let dy := Int.sign (ctx.player.y - m.y)
  let steps := ([(dx, 0), (0, dy)] : List (Int × Int)).filter
    (fun st => decide (st.1 ≠ 0) || decide (st.2 ≠ 0))
  pursueSteps map mi rng ctx steps

/-- fleePlayer: move one step in the direction that strictly maximizes the
Chebyshev distance from the player. -/
def fleePlayer (map : GMap) (mi : ℕ) (ctx : AiCtx) : AiCtx :=
  let m := ctx.monsters.getD mi dMonster
  let dirs : List (Int × Int) :=
    [(-1, 0), (1, 0), (0, -1), (0, 1), (-1, -1), (-1, 1), (1, -1), (1, 1)]
  let best := dirs.foldl
    (fun (acc : Int × Int × Int) d =>
      let tx := m.x + d.1
      let ty := m.y + d.2
      if walkableAt map tx ty = false then acc
      else if occupiedByOther ctx.monsters mi tx ty = true then acc
      else
        let dd := cheb ctx.player.x ctx.player.y tx ty
        if acc.1 < dd then (dd, d.1, d.2) else acc)
    (cheb ctx.player.x ctx.player.y m.x m.y, 0, 0)
  if best.2.1 = 0 ∧ best.2.2 = 0 then ctx
  else
    let m2 := { m with x := m.x + best.2.1, y := m.y + best.2.2 }
    { ctx with monsters := ctx.monsters.set mi m2 }

/-- One destructuring swap [dirs[i], dirs[j]] = [dirs[j], dirs[i]]. -/
def swapL (l : List (Int × Int)) (i j : ℕ) : List (Int × Int) :=
  let a := l.getD i (0, 0)
  let b := l.getD j (0, 0)
  (l.set i b).set j a

/-- The three Fisher-Yates draws of wanderStep (i = 3, 2, 1). -/
def wanderDirs (rng : ℕ → ℚ) (k : ℕ) : List (Int × Int) × ℕ :=
  let dirs : List (Int × Int) := [(-1, 0), (1, 0), (0, -1), (0, 1)]
  let d1 := swapL dirs 3 (mfloor (rng k * 4)).toNat
  let d2 := swapL d1 2 (mfloor (rng (k + 1) * 3)).toNat
  let d3 := swapL d2 1 (mfloor (rng (k + 2) * 2)).toNat
  (d3, k + 3)

/-- The movement loop of wanderStep: first walkable unoccupied direction
wins. -/
def wanderMove (map : GMap) (mi : ℕ) (ctx : AiCtx) :
    List (Int × Int) → AiCtx
  | [] => ctx
  | d :: rest =>
    let m := ctx.monsters.getD mi dMonster
    let tx := m.x + d.1
    let ty := m.y + d.2
    if walkableAt map tx ty = false then wanderMove map mi ctx rest
    else if occupiedByOther ctx.monsters mi tx ty = true then
      wanderMove map mi ctx rest
    else { ctx with monsters := ctx.monsters.set mi { m with x := tx, y := ty } }

/-- wanderStep: shuffle the four cardinal directions, then walk the first
available one. -/
def wanderStep (map : GMap) (mi : ℕ) (rng : ℕ → ℚ) (ctx : AiCtx) : AiCtx :=
  let dz := wanderDirs rng ctx.k
  wanderMove map mi { ctx with k := dz.2 } dz.1

/-- The loop body of stepMonsters for the monster at index mi. -/
def stepOne (map : GMap) (rng : ℕ → ℚ) (ctx : AiCtx) (mi : ℕ) : AiCtx :=
  let m := ctx.monsters.getD mi dMonster
  if m.hp ≤ 0 then ctx
  else
    let se := m.statusEffects
    if 0 < effGetD se "paralysis" then
      let m2 := { m with statusEffects := effSet se "paralysis" (effGetD se "paralysis" - 1) }
      { ctx with monsters := ctx.monsters.set mi m2 }
    else if 0 < effGetD se "scared" then
      let m2 := { m with statusEffects := effSet se "scared" (effGetD se "scared" - 1) }
      fleePlayer map mi { ctx with monsters := ctx.monsters.set mi m2 }
    else if 0 < effGetD se "confusion" then
      let m2 := { m with statusEffects := effSet se "confusion" (effGetD se "confusion" - 1) }
      let ctx1 := { ctx with monsters := ctx.monsters.set mi m2 }
      if mkRat 1 2 ≤ rng ctx1.k then
        wanderStep map mi rng { ctx1 with k := ctx1.k + 1 }
      else { ctx1 with k := ctx1.k + 1 }
    else if m.aggression = 0 ∧ m.provoked = false then ctx
    else if hasRing ctx.player "ring of stealth" = true ∧
        m.provoked = false ∧ m.aggression = 1 then ctx
    else
      let chebDist := cheb ctx.player.x ctx.player.y m.x m.y
      if m.aggression ≠ 3 ∧ MONSTER_SIGHT < chebDist then ctx
      else if m.aggression = 2 ∧ PURSUIT_SIGHT < chebDist then
        wanderStep map mi rng ctx
      else pursuePlayer map mi rng ctx

/-- stepMonsters: skip entirely on odd haste turns; provoke everyone under
an aggravate ring; run each living monster's AI in index order; drop dead
monsters at the end. -/
def stepMonsters (s : GameState) (rng : ℕ → ℚ) (k : ℕ) :
    GameState × ℕ :=
  if 0 < effGetD s.player.statusEffects "haste" ∧ s.turn % 2 = 1 then (s, k)
  else
    let provoke : Monster → Monster := fun m =>
      if 0 < m.hp then { m with provoked := true } else m
    let monsters0 := if hasRing s.player "ring of aggravate monsters" = true
      then s.monsters.map provoke else s.monsters
    let ctx0 : AiCtx :=
      { monsters := monsters0, player := s.player, messages := s.messages,
        causeOfDeath := s.causeOfDeath, k := k }
    let ctx := (List.range monsters0.length).foldl
      (stepOne s.dungeon.map rng) ctx0
    ({ s with monsters := ctx.monsters.filter (fun m => decide (0 < m.hp)),
              player := ctx.player, messages := ctx.messages,
              causeOfDeath := ctx.causeOfDeath }, ctx.k)

/-! ### Turn drivers (state.js): movePlayer, zapWand, resolveThrow.
The six-step tail `state.turn += 1; tickPlayerEffects; computeFov;
stepMonsters; handleDeath; regenHp` is repeated verbatim by every
turn-consuming branch of state.js and is named advanceTurn here; the
branches that additionally tick hunger (normal move, zap, throw) use
advanceTurnHunger.  The attack-by-bump, paralysis and confused-blocked
branches end at advanceTurn: they do not tick hunger. -/

/-- The computeFov call of the tail: only the dungeon map changes. -/
def fovApply (s : GameState) : GameState :=
  { s with dungeon := { s.dungeon with
      map := computeFov s.dungeon.map (s.player.x, s.player.y)
        (fovRadius s.player) } }

/-- The repeated turn tail without tickHunger. -/
def advanceTurn (s : GameState) (rng : ℕ → ℚ) (k : ℕ) : GameState × ℕ :=
  let s3 := fovApply (tickPlayerEffects { s with turn := s.turn + 1 })
  let r := stepMonsters s3 rng k
  (regenHp (handleDeath r.1), r.2)

/-- The repeated turn tail with tickHunger appended. -/
def advanceTurnHunger (s : GameState) (rng : ℕ → ℚ) (k : ℕ) :
    GameState × ℕ :=
  let r := advanceTurn s rng k
  (tickHunger r.1, r.2)

/-- The kill bookkeeping movePlayer and resolveThrow share verbatim:
xp award, defeat message, leprechaun gold drop (one rng draw), and
promotion.  ti indexes the (already damaged) target in s.monsters. -/
def killReward (s : GameState) (ti : ℕ) (rng : ℕ → ℚ) (k : ℕ) :
    GameState × ℕ :=
  let target := s.monsters.getD ti dMonster
  if target.hp ≤ 0 then
    let prevLevel := s.player.xpLevel
    let p1 := { s.player with xp := s.player.xp + target.xp }
    let newLevel := xpToLevel p1.xp
    let s1 := { s with player := p1,
                       messages := s.messages ++ ["You have defeated the " ++ target.name] }
    let gz : GameState × ℕ :=
      if target.name = "leprechaun" then
        ({ s1 with goldItems := s1.goldItems ++
            [⟨target.x, target.y, 100 + mfloor (rng k * 150)⟩] }, k + 1)
      else (s1, k)
    if prevLevel < newLevel then
      let p2 := promotePlayer gz.1.player prevLevel newLevel
      ({ gz.1 with player := p2,
                   messages := gz.1.messages ++ ["You have earned the rank of " ++ p2.rank] },
       gz.2)
    else gz
  else (s, k)

/-- The kill bookkeeping of applyWandEffect (no leprechaun gold drop). -/
def wandKill (s : GameState) (ti : ℕ) (k : ℕ) : GameState × ℕ :=
  let target := s.monsters.getD ti dMonster
  if target.hp ≤ 0 then
    let prevLevel := s.player.xpLevel
    let p1 := { s.player with xp := s.player.xp + target.xp }
    let newLevel := xpToLevel p1.xp
    let s1 := { s with player := p1,
                       messages := s.messages ++ ["You have defeated the " ++ target.name] }
    if prevLevel < newLevel then
      let p2 := promotePlayer s1.player prevLevel newLevel
      ({ s1 with player := p2,
                 messages := s1.messages ++ ["You have earned the rank of " ++ p2.rank] },
       k)
    else (s1, k)
  else (s, k)

/-- The nine candidate directions a confused player moves in. -/
def dirs9 : List (Int × Int) :=
  [(-1, -1), (-1, 0), (-1, 1), (0, -1), (0, 0), (0, 1), (1, -1), (1, 0), (1, 1)]

/-- movePlayer: paralysis wastes the turn; confusion redirects the move;
a blocked destination is a bare return for sober players and a wasted
turn for confused ones; a living monster at the destination is attacked
in place (bump); otherwise the player steps, doors illuminate the room
behind them, floor gold and items are picked up, and the turn tail runs
with tickHunger.  The bump and paralysis branches run the tail without
tickHunger, exactly as in the source. -/
def movePlayer (s : GameState) (dx dy : Int) (rng : ℕ → ℚ) (k : ℕ) :
    GameState × ℕ :=
  if 0 < effGetD s.player.statusEffects "paralysis" then
    advanceTurn { s with messages := ["You are paralyzed!"] } rng k
  else
    let confused := decide (0 < effGetD s.player.statusEffects "confusion")
    let dir : (Int × Int) × ℕ :=
      if confused then
        (dirs9.getD (mfloor (rng k * 9)).toNat (0, 0), k + 1)
      else ((dx, dy), k)
    let dx1 := dir.1.1
    let dy1 := dir.1.2
    let k1 := dir.2
    let nx := s.player.x + dx1
    let ny := s.player.y + dy1
    if ny < 0 ∨ s.dungeon.map.height ≤ ny ∨ nx < 0 ∨
        s.dungeon.map.width ≤ nx ∨
        isWalkable ((s.dungeon.map.cell nx ny).type) = false then
      if confused = false then (s, k1)
      else advanceTurn { s with messages := [] } rng k1
    else
      let s0 := { s with messages := [] }
      match findIdxA (fun (mo : Monster) =>
          decide (0 < mo.hp) && decide (mo.x = nx) && decide (mo.y = ny))
          s0.monsters with
      | some ti =>
        let target := { s0.monsters.getD ti dMonster with provoked := true }
        let rc := resolveCombat s0.player.attack (some s0.player.hitBonus)
          (some s0.player.damageBonus) target.hp target.defense rng k1
        let target2 := { target with hp := rc.2.1 }
        let msg := if rc.1.hit then PLAYER_HIT_MSGS rc.1.tier target2.name
          else "You miss the " ++ target2.name
        let s1 := { s0 with monsters := s0.monsters.set ti target2,
                            messages := s0.messages ++ [msg] }
        let kz : GameState × ℕ :=
          if rc.1.hit then killReward s1 ti rng rc.2.2 else (s1, rc.2.2)
        let alive := kz.1.monsters.filter (fun mo => decide (0 < mo.hp))
        advanceTurn { kz.1 with monsters := alive } rng kz.2
      | none =>
        let s1 := { s0 with player := { s0.player with x := nx, y := ny } }
        let s2 := if (s1.dungeon.map.cell nx ny).type = Tile.door then
            { s1 with dungeon := { s1.dungeon with
                map := illuminateRoomAt s1.dungeon.map s1.dungeon.rooms (nx + dx1) (ny + dy1) } }
          else s1
        let s3 := pickupDungeonItem (pickupGold s2 nx ny) nx ny
        advanceTurnHunger s3 rng k1

/-- findMonsterInLine: walk from the player in direction (dx, dy) until a
wall or the map edge, returning the index of the first living monster on
the path.  The JS while loop takes at most width + height steps for any
direction the game can pass; the fuel is far above that. -/
def findMonsterInLineAux (s : GameState) (dx dy : Int) :
    ℕ → Int → Int → Option ℕ
  | 0, _, _ => none
  | fuel + 1, x, y =>
    if 0 ≤ y ∧ y < s.dungeon.map.height ∧ 0 ≤ x ∧ x < s.dungeon.map.width then
      if isWalkable ((s.dungeon.map.cell x y).type) = false then none
      else
        match findIdxA (fun mo =>
            decide (0 < mo.hp) && decide (mo.x = x) && decide (mo.y = y))
            s.monsters with
        | some i => some i
        | none => findMonsterInLineAux s dx dy fuel (x + dx) (y + dy)
    else none

/-- The beam fuel: ample for any reachable map size. -/
def LINE_FUEL : ℕ := 10000

/-- findMonsterInLine from the player's tile plus one step. -/
def findMonsterInLine (s : GameState) (dx dy : Int) : Option ℕ :=
  findMonsterInLineAux s dx dy LINE_FUEL (s.player.x + dx) (s.player.y + dy)

/-- randomWalkablePos: uniform draw over all walkable cells in row-major
order, or none when no cell is walkable (consuming a draw only when one
exists). -/
def randomWalkablePos (s : GameState) (rng : ℕ → ℚ) (k : ℕ) :
    Option (Int × Int) × ℕ :=
  let candidates := (intRange 0 (s.dungeon.map.height - 1)).foldl
    (fun acc y => acc ++
      ((intRange 0 (s.dungeon.map.width - 1)).filter
        (fun x => isWalkable ((s.dungeon.map.cell x y).type))).map
        (fun x => (x, y)))
    ([] : List (Int × Int))
  if candidates.length = 0 then (none, k)
  else
    (some (candidates.getD
      (mfloor (rng k * (candidates.length : ℚ))).toNat (0, 0)), k + 1)

/-- applyWandEffect: one wand effect applied to the monster at index ti,
then the kill bookkeeping — except polymorph, which returns before the
kill check.  The draws each damage branch makes mirror the JS
Math.random() calls. -/
def applyWandEffect (s : GameState) (ti : ℕ) (effect : String)
    (rng : ℕ → ℚ) (k : ℕ) : GameState × ℕ :=
  let target := s.monsters.getD ti dMonster
  if effect = "magic missile" then
    let dmg := 6 + mfloor (rng k * 6)
    wandKill { s with monsters := s.monsters.set ti { target with hp := target.hp - dmg },
                      messages := s.messages ++ ["The missile strikes the " ++ target.name ++ "!"] }
      ti (k + 1)
  else if effect = "fire" then
    let dmg := 8 + mfloor (rng k * 8)
    wandKill { s with monsters := s.monsters.set ti { target with hp := target.hp - dmg },
                      messages := s.messages ++ ["A bolt of fire engulfs the " ++ target.name ++ "!"] }
      ti (k + 1)
  else if effect = "cold" then
    let dmg := 6 + mfloor (rng k * 8)
    wandKill { s with monsters := s.monsters.set ti { target with hp := target.hp - dmg },
                      messages := s.messages ++ ["A blast of cold hits the " ++ target.name ++ "!"] }
      ti (k + 1)
  else if effect = "lightning" then
    let dmg := 12 + mfloor (rng k * 8)
    wandKill { s with monsters := s.monsters.set ti { target with hp := target.hp - dmg },
                      messages := s.messages ++ ["A bolt of lightning strikes the " ++ target.name ++ "!"] }
      ti (k + 1)
  else if effect = "drain life" then
    wandKill { s with monsters := s.monsters.set ti { target with hp := max 1 (mfloor ((target.hp : ℚ) / 2)) },
                      messages := s.messages ++ ["The " ++ target.name ++ " looks weaker"] }
      ti k
  else if effect = "teleport away" then
    let pz := randomWalkablePos s rng k
    match pz.1 with
    | some pos =>
      wandKill { s with monsters := s.monsters.set ti { target with x := pos.1, y := pos.2 },
                        messages := s.messages ++ ["The " ++ target.name ++ " vanishes!"] }
        ti pz.2
    | none =>
      wandKill { s with messages := s.messages ++ ["The " ++ target.name ++ " vanishes!"] }
        ti pz.2
  else if effect = "slow monster" then
    wandKill { s with monsters := s.monsters.set ti { target with statusEffects := applyEffect target.statusEffects "confusion" 20 },
                      messages := s.messages ++ ["The " ++ target.name ++ " slows down"] }
      ti k
  else if effect = "polymorph" then
    let template := MONSTER_TABLE.getD
      (mfloor (rng k * (MONSTER_TABLE.length : ℚ))).toNat dTemplate
    ({ s with monsters := s.monsters.set ti (createMonster template target.x target.y),
              messages := s.messages ++ ["The " ++ target.name ++ " transforms!"] },
     k + 1)
  else if effect = "cancellation" then
    wandKill { s with monsters := s.monsters.set ti { target with statusEffects := [("paralysis", 0), ("confusion", 0)], aggression := 0, provoked := false },
                      messages := s.messages ++ ["The " ++ target.name ++ " looks subdued"] }
      ti k
  else
    wandKill { s with messages := s.messages ++ ["Nothing happens"] } ti k

/-- zapWand: no-op unless the wand is carried and charged; consume a
charge (the shared item object, embedded as the first inventory match),
fire light or a beam, then the full turn tail including tickHunger. -/
def zapWand (s : GameState) (wand : Item) (dx dy : Int) (rng : ℕ → ℚ)
    (k : ℕ) : GameState × ℕ :=
  if s.player.inventory.any (fun it => decide (it = wand)) = false then (s, k)
  else if wand.charges ≤ 0 then ({ s with messages := ["The wand is empty"] }, k)
  else
    let wand2 := { wand with charges := wand.charges - 1 }
    let s0 := { s with player := { s.player with inventory := replaceFirst s.player.inventory wand wand2 },
                       messages := [] }
    let effect := stripPre "wand of " wand.name
    let bz : GameState × ℕ :=
      if effect = "light" then
        ({ s0 with dungeon := { s0.dungeon with map := illuminateRoomAt s0.dungeon.map s0.dungeon.rooms s0.player.x s0.player.y },
                   messages := s0.messages ++ ["The room floods with light"] },
         k)
      else
        match findMonsterInLine s0 dx dy with
        | some ti => applyWandEffect s0 ti effect rng k
        | none =>
          ({ s0 with messages := s0.messages ++ ["The wand zaps harmlessly into the darkness"] }, k)
    let alive := bz.1.monsters.filter (fun mo => decide (0 < mo.hp))
    advanceTurnHunger { bz.1 with monsters := alive } rng bz.2

/-- applyPotionToMonster: thrown-potion effects on the monster at index
ti. -/
def applyPotionToMonster (s : GameState) (ti : ℕ) (effect : String)
    (rng : ℕ → ℚ) (k : ℕ) : GameState × ℕ :=
  let target := s.monsters.getD ti dMonster
  if effect = "healing" then
    ({ s with monsters := s.monsters.set ti { target with hp := min target.maxHp (target.hp + 8) },
              messages := s.messages ++ ["The " ++ target.name ++ " looks healthier"] },
     k)
  else if effect = "extra healing" then
    ({ s with monsters := s.monsters.set ti { target with hp := target.maxHp },
              messages := s.messages ++ ["The " ++ target.name ++ " looks much healthier"] },
     k)
  else if effect = "poison" then
    let dmg := 8 + mfloor (rng k * 8)
    ({ s with monsters := s.monsters.set ti { target with hp := target.hp - dmg },
              messages := s.messages ++ ["The " ++ target.name ++ " looks very sick"] },
     k + 1)
  else if effect = "confusion" then
    ({ s with monsters := s.monsters.set ti { target with statusEffects := applyEffect target.statusEffects "confusion" 15 },
              messages := s.messages ++ ["The " ++ target.name ++ " looks confused"] },
     k)
  else if effect = "paralysis" then
    ({ s with monsters := s.monsters.set ti { target with statusEffects := applyEffect target.statusEffects "paralysis" 15 },
              messages := s.messages ++ ["The " ++ target.name ++ " freezes!"] },
     k)
  else if effect = "blindness" then
    ({ s with monsters := s.monsters.set ti { target with statusEffects := applyEffect target.statusEffects "confusion" 25 },
              messages := s.messages ++ ["The " ++ target.name ++ " stumbles about"] },
     k)
  else
    ({ s with messages := s.messages ++ ["The potion shatters harmlessly"] }, k)

/-- resolveThrow: consume the item (clearing any equipment slot it
occupied), damage or affect the hit monster (weapons roll one damage
draw with the tier divisor clamped by max(1, attack)), or drop the item
at landPos; then the kill bookkeeping and the full turn tail with
tickHunger.  The hit monster is passed as its index in s.monsters. -/
def resolveThrow (s : GameState) (item : Item) (hitMonster : Option ℕ)
    (landPos : Option (Int × Int)) (rng : ℕ → ℚ) (k : ℕ) :
    GameState × ℕ :=
  let p0 := { s.player with inventory := eraseFirst (fun it => decide (it = item)) s.player.inventory }
  let p1 := if p0.equippedWeapon = some item then
      recomputeWeapon { p0 with equippedWeapon := none } else p0
  let p2 := if p1.equippedArmor = some item then
      recomputeDefense { p1 with equippedArmor := none } else p1
  let p3 := match findIdxA (fun r => decide (r = some item))
      p2.equippedRings with
    | some ri =>
      recomputeWeapon (recomputeDefense (recomputeRings
        { p2 with equippedRings := p2.equippedRings.set ri none }))
    | none => p2
  let s0 := { s with player := p3, messages := [] }
  let bz : GameState × ℕ :=
    match hitMonster with
    | some ti =>
      let target := { s0.monsters.getD ti dMonster with provoked := true }
      let sP := { s0 with monsters := s0.monsters.set ti target }
      if item.type = "weapon" then
        let maxRaw : Int := sP.player.attack * 4
        let baseRaw := 1 + mfloor (rng k * (maxRaw : ℚ))
        let damage := max 1 (baseRaw - target.defense + item.damageBonus)
        let tier := min 3 (mfloor (((baseRaw - 1 : Int) : ℚ) /
          ((max 1 sP.player.attack : Int) : ℚ)))
        killReward { sP with monsters := sP.monsters.set ti { target with hp := target.hp - damage },
                             messages := sP.messages ++ [PLAYER_HIT_MSGS tier target.name] }
          ti rng (k + 1)
      else if item.type = "potion" then
        let az := applyPotionToMonster sP ti (stripPre "potion of " item.name)
          rng k
        killReward az.1 ti rng az.2
      else
        killReward { sP with messages := sP.messages ++ ["The " ++ item.name ++ " bounces off the " ++ target.name] }
          ti rng k
    | none =>
      let s1 := match landPos with
        | some lp => { s0 with dungeonItems := s0.dungeonItems ++ [DungeonItem.mk lp.1 lp.2 item] }
        | none => s0
      ({ s1 with messages := s1.messages ++ ["The " ++ item.name ++ " hits the floor"] }, k)
  let alive := bz.1.monsters.filter (fun mo => decide (0 < mo.hp))
  advanceTurnHunger { bz.1 with monsters := alive } rng bz.2

/-- C8: when a leprechaun's pursuit step reaches the player's tile (here:
the player adjacent in +x, so the first candidate step lands on the
player), it rolls its own 25% miss chance instead of resolveCombat: on a
miss (draw < 1/4) it only pushes 'The leprechaun misses', surviving with
the player's gold unchanged; otherwise it steals
min(floor(gold * (0.1 + rng * 0.2)), 640) gold (0.1 = 1/10 and 0.2 = 1/5
exactly), decrements player.gold by exactly that amount, sets its own hp
to 0 whether or not the stolen amount is zero, and pushes the distinct
stolen-N versus nothing-to-steal message. -/
theorem claim_C8_leprechaun (map : GMap) (mi : ℕ) (rng : ℕ → ℚ)
    (ctx : AiCtx)
    (hm : (ctx.monsters.getD mi dMonster).name = "leprechaun")
    (hy : ctx.player.y = (ctx.monsters.getD mi dMonster).y)
    (hx : ctx.player.x = (ctx.monsters.getD mi dMonster).x + 1) :
    (rng ctx.k < mkRat 1 4 →
      pursuePlayer map mi rng ctx =
        { ctx with messages := ctx.messages ++ ["The leprechaun misses"],
                   k := ctx.k + 1 }) ∧
    (¬ rng ctx.k < mkRat 1 4 →
      pursuePlayer map mi rng ctx =
        (let m := ctx.monsters.getD mi dMonster
         let stolen := min (mfloor ((ctx.player.gold : ℚ) *
           (mkRat 1 10 + rng (ctx.k + 1) * mkRat 1 5))) 640
         let msg := if 0 < stolen then
             "The leprechaun steals " ++ toString stolen ++ " gold and vanishes!"
           else "The leprechaun finds nothing to steal and vanishes!"
         { ctx with
           player := { ctx.player with gold := ctx.player.gold - stolen },
           messages := ctx.messages ++ [msg],
           monsters := ctx.monsters.set mi { m with hp := 0 },
           k := ctx.k + 2 })) := by
  have hdx : (ctx.player.x - (ctx.monsters.getD mi dMonster).x).sign = 1 := by
    rw [hx, add_sub_cancel_left]
    rfl
  have hdy : (ctx.player.y - (ctx.monsters.getD mi dMonster).y).sign = 0 := by
    rw [hy, sub_self]
    rfl
  have hatk : pursuePlayer map mi rng ctx = monsterAttack mi rng ctx := by
    simp only [pursuePlayer, hdx, hdy]
    norm_num [List.filter]
    simp only [pursueSteps]
    rw [if_pos ⟨hx.symm, by rw [add_zero, hy]⟩]
  rw [hatk]
  constructor
  · intro h
    simp only [monsterAttack]
    rw [hm, if_pos rfl, if_pos h]
  · intro h
    simp only [monsterAttack]
    rw [hm, if_pos rfl, if_neg h]

/-- Leprechaun context for the C8 witness: the monster one tile left of
the player, player gold 1000, first draw 1/2 (a hit), second draw 1/4,
so it steals min(floor(1000 * (1/10 + 1/20)), 640) = 150 gold. -/
def c8player : Player where
  x := 4
  y := 2
  hp := 5
  maxHp := 5
  attack := 3
  strength := 16
  baseDefense := 1
  defense := 1
  hitBonus := 0
  damageBonus := 0
  equippedWeapon := none
  equippedArmor := none
  equippedRings := [none, none]
  ringDefenseBonus := 0
  ringDamageBonus := 0
  ringHitBonus := 0
  ringStrengthBonus := 0
  gold := 1000
  xp := 0
  xpLevel := 0
  rank := ""
  food := 500
  inventory := []
  statusEffects := []

def c8ctx : AiCtx where
  monsters := [{ dMonster with name := "leprechaun", x := 3, y := 2, hp := 14, maxHp := 14 }]
  player := c8player
  messages := []
  causeOfDeath := none
  k := 0

/-- rng stream for the C8 witness. -/
def c8rng : ℕ → ℚ := fun n => if n = 0 then 1 / 2 else 1 / 4

unseal Rat.mul Rat.add Rat.sub Rat.inv Rat.ofScientific in
/-- Closed instance of C8: the hit case at gold 1000 with draws 1/2 and
1/4. -/
theorem claim_C8_witness :
    pursuePlayer c7Map 0 c8rng c8ctx =
      (let m := c8ctx.monsters.getD 0 dMonster
       let stolen := min (mfloor ((c8ctx.player.gold : ℚ) *
         (mkRat 1 10 + c8rng (c8ctx.k + 1) * mkRat 1 5))) 640
       let msg := if 0 < stolen then
           "The leprechaun steals " ++ toString stolen ++ " gold and vanishes!"
         else "The leprechaun finds nothing to steal and vanishes!"
       { c8ctx with
         player := { c8ctx.player with gold := c8ctx.player.gold - stolen },
         messages := c8ctx.messages ++ [msg],
         monsters := c8ctx.monsters.set 0 { m with hp := 0 },
         k := c8ctx.k + 2 }) :=
  (claim_C8_leprechaun c7Map 0 c8rng c8ctx rfl rfl rfl).2 (by decide)

/-! ### Projection lemmas for the turn tail -/

theorem tickPlayerEffects_turn (s : GameState) :
    (tickPlayerEffects s).turn = s.turn := rfl

theorem stepMonsters_turn (s : GameState) (rng : ℕ → ℚ) (k : ℕ) :
    ((stepMonsters s rng k).1).turn = s.turn := by
  unfold stepMonsters
  split
  · rfl
  · rfl

theorem handleDeath_turn (s : GameState) : (handleDeath s).turn = s.turn := by
  unfold handleDeath
  split <;> rfl

theorem regenHp_turn (s : GameState) : (regenHp s).turn = s.turn := by
  unfold regenHp
  split <;> rfl

theorem fovApply_turn (s : GameState) : (fovApply s).turn = s.turn := rfl

theorem advanceTurn_turn (s : GameState) (rng : ℕ → ℚ) (k : ℕ) :
    ((advanceTurn s rng k).1).turn = s.turn + 1 := by
  simp only [advanceTurn, regenHp_turn, handleDeath_turn, stepMonsters_turn,
    fovApply_turn, tickPlayerEffects_turn]

/-- C3: with the player neither paralyzed nor confused, movePlayer toward
an out-of-bounds or non-walkable destination is a complete no-op — the
returned state (and rng cursor) is the input itself, so the turn counter,
messages and every other field are untouched; a confused player whose
randomized direction is blocked still consumes the turn (turn + 1). -/
theorem claim_C3_blocked_noop (s : GameState) (dx dy : Int)
    (rng : ℕ → ℚ) (k : ℕ) :
    (effGetD s.player.statusEffects "paralysis" ≤ 0 →
     effGetD s.player.statusEffects "confusion" ≤ 0 →
     (s.player.y + dy < 0 ∨ s.dungeon.map.height ≤ s.player.y + dy ∨
      s.player.x + dx < 0 ∨ s.dungeon.map.width ≤ s.player.x + dx ∨
      isWalkable ((s.dungeon.map.cell (s.player.x + dx) (s.player.y + dy)).type) = false) →
     movePlayer s dx dy rng k = (s, k)) ∧
    (effGetD s.player.statusEffects "paralysis" ≤ 0 →
     0 < effGetD s.player.statusEffects "confusion" →
     (s.player.y + (dirs9.getD (mfloor (rng k * 9)).toNat (0, 0)).2 < 0 ∨
      s.dungeon.map.height ≤ s.player.y + (dirs9.getD (mfloor (rng k * 9)).toNat (0, 0)).2 ∨
      s.player.x + (dirs9.getD (mfloor (rng k * 9)).toNat (0, 0)).1 < 0 ∨
      s.dungeon.map.width ≤ s.player.x + (dirs9.getD (mfloor (rng k * 9)).toNat (0, 0)).1 ∨
      isWalkable ((s.dungeon.map.cell (s.player.x + (dirs9.getD (mfloor (rng k * 9)).toNat (0, 0)).1) (s.player.y + (dirs9.getD (mfloor (rng k * 9)).toNat (0, 0)).2)).type) = false) →
     ((movePlayer s dx dy rng k).1).turn = s.turn + 1) := by
  constructor
  · intro hpar hconf hblocked
    unfold movePlayer
    rw [if_neg (Int.not_lt.mpr hpar)]
    simp only [decide_eq_false (Int.not_lt.mpr hconf), Bool.false_eq_true,
      if_false]
    rw [if_pos hblocked]
    rfl
  · intro hpar hconf hblocked
    unfold movePlayer
    rw [if_neg (Int.not_lt.mpr hpar)]
    simp only [decide_eq_true hconf, if_true]
    rw [if_pos hblocked]
    simp only [Bool.true_eq_false, if_false]
    exact advanceTurn_turn _ rng _

/-- All-floor 5 x 4 map for the state-layer witnesses. -/
def stMap : GMap where
  width := 5
  height := 4
  cell := fun _ _ => makeCell Tile.floor

/-- Dungeon wrapper around stMap. -/
def stDungeon : Dungeon where
  width := 5
  height := 4
  map := stMap
  rooms := []
  corridors := []
  stairsUp := (0, 0)
  stairsDown := (1, 0)

/-- State for the C3 witness: sober player at the top-left corner. -/
def c3S : GameState where
  dungeon := stDungeon
  player := { c8player with x := 0, y := 0, gold := 0 }
  playerName := "t"
  dungeonLevel := 1
  turn := 7
  monsters := []
  goldItems := []
  dungeonItems := []
  messages := ["old message"]
  dead := false
  causeOfDeath := none

/-- Same state but confused. -/
def c3cS : GameState :=
  { c3S with player := { c3S.player with statusEffects := [("confusion", 3)] } }

/-- rng stream for the C3 witness: constant 0, so the confused direction is
dirs9[0] = (-1, -1). -/
def c3rng : ℕ → ℚ := fun _ => 0

unseal Rat.mul Rat.add Rat.sub Rat.inv Rat.ofScientific in
/-- Closed instance of C3: moving up from the top edge is byte-identical
for the sober player, while the confused player at the corner (random
direction (-1, -1), blocked) still gets turn 8. -/
theorem claim_C3_witness :
    movePlayer c3S 0 (-1) c3rng 0 = (c3S, 0) ∧
    ((movePlayer c3cS 0 0 c3rng 0).1).turn = c3cS.turn + 1 :=
  ⟨(claim_C3_blocked_noop c3S 0 (-1) c3rng 0).1 (by decide) (by decide)
      (by decide),
   (claim_C3_blocked_noop c3cS 0 0 c3rng 0).2 (by decide) (by decide)
      (by decide)⟩

/-! ### Invariance lemmas feeding the C4 hunger contract -/

theorem handleDeath_player (s : GameState) :
    (handleDeath s).player = s.player := by
  unfold handleDeath
  split <;> rfl

theorem handleDeath_id {s : GameState} (hhp : 0 < s.player.hp) :
    handleDeath s = s := by
  unfold handleDeath
  rw [if_pos (Or.inl hhp)]

theorem handleDeath_mem {s : GameState} {x : String}
    (h : x ∈ s.messages) : x ∈ (handleDeath s).messages := by
  unfold handleDeath
  split
  · exact h
  · exact List.mem_append_left _ h

theorem regenHp_inv (s : GameState) :
    (regenHp s).player.food = s.player.food ∧
    (regenHp s).player.equippedRings = s.player.equippedRings ∧
    (regenHp s).dead = s.dead ∧
    (regenHp s).monsters = s.monsters ∧
    (regenHp s).messages = s.messages := by
  unfold regenHp
  split
  · exact ⟨rfl, rfl, rfl, rfl, rfl⟩
  · dsimp only
    split <;> split <;> exact ⟨rfl, rfl, rfl, rfl, rfl⟩

theorem regenHp_full {s : GameState}
    (h : s.player.maxHp ≤ s.player.hp) : regenHp s = s := by
  unfold regenHp
  rw [if_pos (Or.inr h)]

theorem pickupGold_inv (s : GameState) (x y : Int) :
    (pickupGold s x y).monsters = s.monsters ∧
    (pickupGold s x y).dead = s.dead ∧
    (pickupGold s x y).player.hp = s.player.hp ∧
    (pickupGold s x y).player.maxHp = s.player.maxHp ∧
    (pickupGold s x y).player.food = s.player.food ∧
    (pickupGold s x y).player.equippedRings = s.player.equippedRings ∧
    (pickupGold s x y).turn = s.turn ∧
    (pickupGold s x y).player.statusEffects = s.player.statusEffects := by
  unfold pickupGold
  split <;> exact ⟨rfl, rfl, rfl, rfl, rfl, rfl, rfl, rfl⟩

theorem pickupDungeonItem_inv (s : GameState) (x y : Int) :
    (pickupDungeonItem s x y).monsters = s.monsters ∧
    (pickupDungeonItem s x y).dead = s.dead ∧
    (pickupDungeonItem s x y).player.hp = s.player.hp ∧
    (pickupDungeonItem s x y).player.maxHp = s.player.maxHp ∧
    (pickupDungeonItem s x y).player.food = s.player.food ∧
    (pickupDungeonItem s x y).player.equippedRings = s.player.equippedRings ∧
    (pickupDungeonItem s x y).turn = s.turn ∧
    (pickupDungeonItem s x y).player.statusEffects = s.player.statusEffects := by
  unfold pickupDungeonItem
  split <;> exact ⟨rfl, rfl, rfl, rfl, rfl, rfl, rfl, rfl⟩

theorem hasRing_eqRings {p q : Player}
    (h : p.equippedRings = q.equippedRings) (n : String) :
    hasRing p n = hasRing q n := by
  unfold hasRing
  rw [h]

/-! ### tickHunger behaviour -/

theorem tickHunger_food {s : GameState} (hdead : s.dead = false)
    (hslow : ¬(hasRing s.player "ring of slow digestion" = true ∧
      s.turn % 2 ≠ 0))
    (hfood : 0 < s.player.food) :
    (tickHunger s).player.food = s.player.food - 1 := by
  unfold tickHunger
  rw [if_neg (by simp [hdead]), if_neg hslow]
  dsimp only
  rw [if_pos hfood]
  split
  · rw [handleDeath_player]
  · rfl

theorem tickHunger_noop {s : GameState} (hdead : s.dead = false)
    (hslow : hasRing s.player "ring of slow digestion" = true)
    (hodd : s.turn % 2 ≠ 0) : tickHunger s = s := by
  unfold tickHunger
  rw [if_neg (by simp [hdead])]
  dsimp only
  rw [if_pos ⟨hslow, hodd⟩]

theorem tickHunger_starve {s : GameState} (hdead : s.dead = false)
    (hslow : ¬(hasRing s.player "ring of slow digestion" = true ∧
      s.turn % 2 ≠ 0))
    (hfood : s.player.food = 1) :
    (tickHunger s).player.food = 0 ∧
    (tickHunger s).player.hp = s.player.hp - 1 := by
  unfold tickHunger
  rw [if_neg (by simp [hdead]), if_neg hslow]
  dsimp only
  rw [if_pos (by omega : (0 : Int) < s.player.food)]
  rw [if_pos (by dsimp only; omega : ({ s.player with food := s.player.food - 1 } : Player).food = 0)]
  rw [handleDeath_player]
  constructor
  · dsimp only
    omega
  · rfl

theorem thresholdFold_mem_acc (food : Int) (x : String) :
    ∀ (l : List (Int × String)) (acc : List String), x ∈ acc →
      x ∈ l.foldl (fun a e => if food = e.1 then a ++ [e.2] else a) acc := by
  intro l
  induction l with
  | nil => intro acc h; exact h
  | cons e rest ih =>
    intro acc h
    rw [List.foldl_cons]
    split
    · exact ih _ (List.mem_append_left _ h)
    · exact ih _ h

theorem thresholdFold_mem (food : Int) (t : Int × String) :
    ∀ (l : List (Int × String)) (acc : List String), t ∈ l → food = t.1 →
      t.2 ∈ l.foldl (fun a e => if food = e.1 then a ++ [e.2] else a) acc := by
  intro l
  induction l with
  | nil => intro acc h; cases h
  | cons e rest ih =>
    intro acc ht he
    rcases List.mem_cons.mp ht with h | h
    · subst h
      rw [List.foldl_cons, if_pos he]
      exact thresholdFold_mem_acc _ _ rest _ (by simp)
    · rw [List.foldl_cons]
      split
      · exact ih _ h he
      · exact ih _ h he

theorem tickHunger_msg {s : GameState} (hdead : s.dead = false)
    (hslow : ¬(hasRing s.player "ring of slow digestion" = true ∧
      s.turn % 2 ≠ 0))
    (hfood : 0 < s.player.food) (t : Int × String)
    (ht : t ∈ HUNGER_THRESHOLDS) (he : s.player.food - 1 = t.1) :
    t.2 ∈ (tickHunger s).messages := by
  unfold tickHunger
  rw [if_neg (by simp [hdead]), if_neg hslow]
  dsimp only
  rw [if_pos hfood]
  have hmem : t.2 ∈ HUNGER_THRESHOLDS.foldl
      (fun a e => if ({ s.player with food := s.player.food - 1 } : Player).food = e.1 then a ++ [e.2] else a)
      s.messages := by
    refine thresholdFold_mem _ t HUNGER_THRESHOLDS s.messages ht ?_
    dsimp only
    omega
  split
  · exact handleDeath_mem hmem
  · exact hmem

/-! ### stepMonsters never touches the food counter -/

theorem recomputeRings_food (p : Player) :
    (recomputeRings p).food = p.food := rfl

theorem applySpecialAttack_food (m : Monster) (p : Player)
    (msgs : List String) (rng : ℕ → ℚ) (k : ℕ) :
    (applySpecialAttack m p msgs rng k).2.1.food = p.food := by
  unfold applySpecialAttack
  dsimp only
  repeat' split
  all_goals rfl

theorem monsterAttack_food (mi : ℕ) (rng : ℕ → ℚ) (ctx : AiCtx) :
    (monsterAttack mi rng ctx).player.food = ctx.player.food := by
  unfold monsterAttack
  dsimp only
  split
  · split
    · rfl
    · rfl
  · split
    · split
      · dsimp only
        rw [applySpecialAttack_food]
      · rfl
    · split
      · split
        · dsimp only
          rw [applySpecialAttack_food]
        · dsimp only
          rw [applySpecialAttack_food]
      · rfl

theorem pursueSteps_food (map : GMap) (mi : ℕ) (rng : ℕ → ℚ) :
    ∀ (steps : List (Int × Int)) (ctx : AiCtx),
      (pursueSteps map mi rng ctx steps).player.food = ctx.player.food := by
  intro steps
  induction steps with
  | nil => intro ctx; rfl
  | cons st rest ih =>
    intro ctx
    unfold pursueSteps
    dsimp only
    split
    · exact monsterAttack_food mi rng ctx
    · split
      · exact ih ctx
      · split
        · exact ih ctx
        · rfl

theorem pursuePlayer_food (map : GMap) (mi : ℕ) (rng : ℕ → ℚ)
    (ctx : AiCtx) :
    (pursuePlayer map mi rng ctx).player.food = ctx.player.food := by
  unfold pursuePlayer
  exact pursueSteps_food map mi rng _ ctx

theorem fleePlayer_food (map : GMap) (mi : ℕ) (ctx : AiCtx) :
    (fleePlayer map mi ctx).player.food = ctx.player.food := by
  unfold fleePlayer
  dsimp only
  split <;> rfl

theorem wanderMove_food (map : GMap) (mi : ℕ) :
    ∀ (dirs : List (Int × Int)) (ctx : AiCtx),
      (wanderMove map mi ctx dirs).player.food = ctx.player.food := by
  intro dirs
  induction dirs with
  | nil => intro ctx; rfl
  | cons d rest ih =>
    intro ctx
    unfold wanderMove
    dsimp only
    split
    · exact ih ctx
    · split
      · exact ih ctx
      · rfl

theorem wanderStep_food (map : GMap) (mi : ℕ) (rng : ℕ → ℚ)
    (ctx : AiCtx) :
    (wanderStep map mi rng ctx).player.food = ctx.player.food := by
  unfold wanderStep
  exact wanderMove_food map mi _ _

theorem stepOne_food (map : GMap) (rng : ℕ → ℚ) (ctx : AiCtx) (mi : ℕ) :
    (stepOne map rng ctx mi).player.food = ctx.player.food := by
  unfold stepOne
  dsimp only
  repeat' split
  all_goals first
    | rfl
    | exact fleePlayer_food map mi _
    | exact wanderStep_food map mi rng _
    | exact pursuePlayer_food map mi rng _

theorem stepMonsters_food (s : GameState) (rng : ℕ → ℚ) (k : ℕ) :
    ((stepMonsters s rng k).1).player.food = s.player.food := by
  unfold stepMonsters
  split
  · rfl
  · dsimp only
    have hfold : ∀ (l : List ℕ) (c : AiCtx),
        ((l.foldl (stepOne s.dungeon.map rng) c).player.food = c.player.food) := by
      intro l
      induction l with
      | nil => intro c; rfl
      | cons i r ih =>
        intro c
        rw [List.foldl_cons, ih, stepOne_food]
    rw [hfold]

theorem killReward_food (s : GameState) (ti : ℕ) (rng : ℕ → ℚ) (k : ℕ) :
    ((killReward s ti rng k).1).player.food = s.player.food := by
  unfold killReward
  dsimp only
  repeat' split
  all_goals rfl

theorem advanceTurn_food (s : GameState) (rng : ℕ → ℚ) (k : ℕ) :
    ((advanceTurn s rng k).1).player.food = s.player.food := by
  unfold advanceTurn
  dsimp only
  rw [(regenHp_inv _).1, handleDeath_player, stepMonsters_food]
  rfl

/-! ### The tail with empty monster list -/

theorem stepMonsters_nil {s : GameState} (hmon : s.monsters = [])
    (rng : ℕ → ℚ) (k : ℕ) : stepMonsters s rng k = (s, k) := by
  obtain ⟨d, p, pn, dl, t, mons, gi, di, msg, dead, cod⟩ := s
  simp only at hmon
  subst hmon
  unfold stepMonsters
  split
  · rfl
  · simp [ite_self]

theorem advanceTurn_nil (s : GameState) (rng : ℕ → ℚ) (k : ℕ)
    (hmon : s.monsters = []) :
    advanceTurn s rng k =
      (regenHp (handleDeath (fovApply (tickPlayerEffects
        { s with turn := s.turn + 1 }))), k) := by
  unfold advanceTurn
  dsimp only
  rw [stepMonsters_nil (s := fovApply (tickPlayerEffects
    { s with turn := s.turn + 1 })) hmon rng k]

/-- The hunger tail on a monster-free state: the food counter drops by
exactly one. -/
theorem advanceTurnHunger_food (s : GameState) (rng : ℕ → ℚ) (k : ℕ)
    (hmon : s.monsters = []) (hdead : s.dead = false)
    (hhp : 0 < s.player.hp)
    (hslow : hasRing s.player "ring of slow digestion" = false)
    (hfood : 0 < s.player.food) :
    ((advanceTurnHunger s rng k).1).player.food = s.player.food - 1 := by
  unfold advanceTurnHunger
  dsimp only
  rw [advanceTurn_nil s rng k hmon]
  dsimp only
  rw [handleDeath_id (s := fovApply (tickPlayerEffects { s with turn := s.turn + 1 })) hhp]
  have h4 := regenHp_inv (fovApply (tickPlayerEffects { s with turn := s.turn + 1 }))
  have hr : hasRing (regenHp (fovApply (tickPlayerEffects { s with turn := s.turn + 1 }))).player
      "ring of slow digestion" = false := by
    rw [hasRing_eqRings h4.2.1]
    exact hslow
  have hd : (regenHp (fovApply (tickPlayerEffects { s with turn := s.turn + 1 }))).dead = false := by
    rw [h4.2.2.1]
    exact hdead
  have hf : 0 < (regenHp (fovApply (tickPlayerEffects { s with turn := s.turn + 1 }))).player.food := by
    rw [h4.1]
    exact hfood
  rw [tickHunger_food hd (by intro hc; rw [hr] at hc; exact Bool.false_ne_true hc.1) hf, h4.1]
  rfl

/-- The hunger tail under a slow-digestion ring on an odd turn: the food
counter is untouched (the tail increments the turn before tickHunger reads
it). -/
theorem advanceTurnHunger_slow (s : GameState) (rng : ℕ → ℚ) (k : ℕ)
    (hmon : s.monsters = []) (hdead : s.dead = false)
    (hhp : 0 < s.player.hp)
    (hslow : hasRing s.player "ring of slow digestion" = true)
    (hodd : (s.turn + 1) % 2 ≠ 0) :
    ((advanceTurnHunger s rng k).1).player.food = s.player.food := by
  unfold advanceTurnHunger
  dsimp only
  rw [advanceTurn_nil s rng k hmon]
  dsimp only
  rw [handleDeath_id (s := fovApply (tickPlayerEffects { s with turn := s.turn + 1 })) hhp]
  have h4 := regenHp_inv (fovApply (tickPlayerEffects { s with turn := s.turn + 1 }))
  have hr : hasRing (regenHp (fovApply (tickPlayerEffects { s with turn := s.turn + 1 }))).player
      "ring of slow digestion" = true := by
    rw [hasRing_eqRings h4.2.1]
    exact hslow
  have hd : (regenHp (fovApply (tickPlayerEffects { s with turn := s.turn + 1 }))).dead = false := by
    rw [h4.2.2.1]
    exact hdead
  have ht : (regenHp (fovApply (tickPlayerEffects { s with turn := s.turn + 1 }))).turn % 2 ≠ 0 := by
    rw [regenHp_turn]
    exact hodd
  rw [tickHunger_noop hd hr ht, h4.1]
  rfl

/-- The hunger tail at exactly 1 food with regen suppressed (hp at max):
food hits 0 and the player takes the 1 hp starvation hit. -/
theorem advanceTurnHunger_starve (s : GameState) (rng : ℕ → ℚ) (k : ℕ)
    (hmon : s.monsters = []) (hdead : s.dead = false)
    (hhp : 0 < s.player.hp)
    (hslow : hasRing s.player "ring of slow digestion" = false)
    (hfood1 : s.player.food = 1)
    (hfull : s.player.maxHp ≤ s.player.hp) :
    ((advanceTurnHunger s rng k).1).player.food = 0 ∧
    ((advanceTurnHunger s rng k).1).player.hp = s.player.hp - 1 := by
  unfold advanceTurnHunger
  dsimp only
  rw [advanceTurn_nil s rng k hmon]
  dsimp only
  rw [handleDeath_id (s := fovApply (tickPlayerEffects { s with turn := s.turn + 1 })) hhp]
  rw [regenHp_full (s := fovApply (tickPlayerEffects { s with turn := s.turn + 1 })) hfull]
  have hst := tickHunger_starve
    (s := fovApply (tickPlayerEffects { s with turn := s.turn + 1 }))
    hdead
    (by
      intro hc
      have h1 : hasRing s.player "ring of slow digestion" = true := hc.1
      rw [hslow] at h1
      exact Bool.false_ne_true h1)
    hfood1
  exact hst

/-- The hunger tail pushes the crossed threshold's message. -/
theorem advanceTurnHunger_msg (s : GameState) (rng : ℕ → ℚ) (k : ℕ)
    (hmon : s.monsters = []) (hdead : s.dead = false)
    (hhp : 0 < s.player.hp)
    (hslow : hasRing s.player "ring of slow digestion" = false)
    (hfood : 0 < s.player.food) (t : Int × String)
    (ht : t ∈ HUNGER_THRESHOLDS) (he : s.player.food - 1 = t.1) :
    t.2 ∈ ((advanceTurnHunger s rng k).1).messages := by
  unfold advanceTurnHunger
  dsimp only
  rw [advanceTurn_nil s rng k hmon]
  dsimp only
  rw [handleDeath_id (s := fovApply (tickPlayerEffects { s with turn := s.turn + 1 })) hhp]
  have h4 := regenHp_inv (fovApply (tickPlayerEffects { s with turn := s.turn + 1 }))
  have hr : hasRing (regenHp (fovApply (tickPlayerEffects { s with turn := s.turn + 1 }))).player
      "ring of slow digestion" = false := by
    rw [hasRing_eqRings h4.2.1]
    exact hslow
  have hd : (regenHp (fovApply (tickPlayerEffects { s with turn := s.turn + 1 }))).dead = false := by
    rw [h4.2.2.1]
    exact hdead
  have hf : 0 < (regenHp (fovApply (tickPlayerEffects { s with turn := s.turn + 1 }))).player.food := by
    rw [h4.1]
    exact hfood
  refine tickHunger_msg hd
    (by intro hc; rw [hr] at hc; exact Bool.false_ne_true hc.1) hf t ht ?_
  rw [h4.1]
  exact he

/-! ### Branch-reduction of the turn drivers -/

/-- The state a plain (monster-free destination) move produces just before
the turn tail: position update, door illumination, both pickups. -/
def moveDest (s : GameState) (dx dy : Int) : GameState :=
  let nx := s.player.x + dx
  let ny := s.player.y + dy
  let s1 := { s with messages := [],
                     player := { s.player with x := nx, y := ny } }
  let s2 := if (s.dungeon.map.cell nx ny).type = Tile.door then
      { s1 with dungeon := { s1.dungeon with
          map := illuminateRoomAt s1.dungeon.map s1.dungeon.rooms (nx + dx) (ny + dy) } }
    else s1
  pickupDungeonItem (pickupGold s2 nx ny) nx ny

theorem moveDest_inv (s : GameState) (dx dy : Int) :
    (moveDest s dx dy).monsters = s.monsters ∧
    (moveDest s dx dy).dead = s.dead ∧
    (moveDest s dx dy).player.hp = s.player.hp ∧
    (moveDest s dx dy).player.maxHp = s.player.maxHp ∧
    (moveDest s dx dy).player.food = s.player.food ∧
    (moveDest s dx dy).player.equippedRings = s.player.equippedRings ∧
    (moveDest s dx dy).turn = s.turn := by
  unfold moveDest
  dsimp only
  refine ⟨?_, ?_, ?_, ?_, ?_, ?_, ?_⟩
  · rw [(pickupDungeonItem_inv _ _ _).1, (pickupGold_inv _ _ _).1]
    split <;> rfl
  · rw [(pickupDungeonItem_inv _ _ _).2.1, (pickupGold_inv _ _ _).2.1]
    split <;> rfl
  · rw [(pickupDungeonItem_inv _ _ _).2.2.1, (pickupGold_inv _ _ _).2.2.1]
    split <;> rfl
  · rw [(pickupDungeonItem_inv _ _ _).2.2.2.1, (pickupGold_inv _ _ _).2.2.2.1]
    split <;> rfl
  · rw [(pickupDungeonItem_inv _ _ _).2.2.2.2.1,
      (pickupGold_inv _ _ _).2.2.2.2.1]
    split <;> rfl
  · rw [(pickupDungeonItem_inv _ _ _).2.2.2.2.2.1,
      (pickupGold_inv _ _ _).2.2.2.2.2.1]
    split <;> rfl
  · rw [(pickupDungeonItem_inv _ _ _).2.2.2.2.2.2.1,
      (pickupGold_inv _ _ _).2.2.2.2.2.2.1]
    split <;> rfl

/-- movePlayer on a sober player with a walkable, monster-free destination
is exactly the move state followed by the hunger tail. -/
theorem movePlayer_move_eq (s : GameState) (dx dy : Int) (rng : ℕ → ℚ)
    (k : ℕ)
    (hpar : effGetD s.player.statusEffects "paralysis" ≤ 0)
    (hconf : effGetD s.player.statusEffects "confusion" ≤ 0)
    (hok : ¬(s.player.y + dy < 0 ∨ s.dungeon.map.height ≤ s.player.y + dy ∨
      s.player.x + dx < 0 ∨ s.dungeon.map.width ≤ s.player.x + dx ∨
      isWalkable ((s.dungeon.map.cell (s.player.x + dx) (s.player.y + dy)).type) = false))
    (hfind : findIdxA (fun (mo : Monster) =>
        decide (0 < mo.hp) && decide (mo.x = s.player.x + dx) &&
        decide (mo.y = s.player.y + dy)) s.monsters = none) :
    movePlayer s dx dy rng k = advanceTurnHunger (moveDest s dx dy) rng k := by
  unfold movePlayer
  rw [if_neg (Int.not_lt.mpr hpar)]
  simp only [decide_eq_false (Int.not_lt.mpr hconf), Bool.false_eq_true,
    if_false]
  rw [if_neg hok]
  rw [hfind]
  rfl

/-- The state a wand-of-light zap produces just before the turn tail. -/
def zapDest (s : GameState) (wand : Item) : GameState :=
  let inv2 := replaceFirst s.player.inventory wand { wand with charges := wand.charges - 1 }
  let p0 := { s.player with inventory := inv2 }
  let s0 := { s with player := p0, messages := [] }
  let mL := illuminateRoomAt s0.dungeon.map s0.dungeon.rooms s0.player.x s0.player.y
  let sL := { s0 with dungeon := { s0.dungeon with map := mL }, messages := s0.messages ++ ["The room floods with light"] }
  { sL with monsters := sL.monsters.filter (fun mo => decide (0 < mo.hp)) }

theorem zapWand_light_eq (s : GameState) (wand : Item) (dx dy : Int)
    (rng : ℕ → ℚ) (k : ℕ)
    (hin : s.player.inventory.any (fun it => decide (it = wand)) = true)
    (hch : 0 < wand.charges)
    (hname : stripPre "wand of " wand.name = "light") :
    zapWand s wand dx dy rng k = advanceTurnHunger (zapDest s wand) rng k := by
  unfold zapWand
  rw [hin]
  simp only [Bool.true_eq_false, if_false]
  rw [if_neg (Int.not_le.mpr hch)]
  rw [hname]
  rw [if_pos rfl]
  rfl

theorem zapDest_inv (s : GameState) (wand : Item)
    (hmon : s.monsters = []) :
    (zapDest s wand).monsters = [] ∧
    (zapDest s wand).dead = s.dead ∧
    (zapDest s wand).player.hp = s.player.hp ∧
    (zapDest s wand).player.food = s.player.food ∧
    (zapDest s wand).player.equippedRings = s.player.equippedRings := by
  unfold zapDest
  dsimp only
  refine ⟨?_, rfl, rfl, rfl, rfl⟩
  rw [hmon]
  rfl

/-- The state a missed throw produces just before the turn tail (item not
equipped anywhere). -/
def throwDest (s : GameState) (item : Item) (landPos : Option (Int × Int)) :
    GameState :=
  let p0 := { s.player with inventory := eraseFirst (fun it => decide (it = item)) s.player.inventory }
  let s0 := { s with player := p0, messages := [] }
  let s1 := match landPos with
    | some lp => { s0 with dungeonItems := s0.dungeonItems ++ [DungeonItem.mk lp.1 lp.2 item] }
    | none => s0
  let s2 := { s1 with messages := s1.messages ++ ["The " ++ item.name ++ " hits the floor"] }
  { s2 with monsters := s2.monsters.filter (fun mo => decide (0 < mo.hp)) }

theorem resolveThrow_none_eq (s : GameState) (item : Item)
    (landPos : Option (Int × Int)) (rng : ℕ → ℚ) (k : ℕ)
    (hw : ¬ s.player.equippedWeapon = some item)
    (ha : ¬ s.player.equippedArmor = some item)
    (hr : findIdxA (fun r => decide (r = some item))
      s.player.equippedRings = none) :
    resolveThrow s item none landPos rng k =
      advanceTurnHunger (throwDest s item landPos) rng k := by
  unfold resolveThrow
  dsimp only
  rw [if_neg hw, if_neg ha, hr]
  rfl

theorem throwDest_inv (s : GameState) (item : Item)
    (landPos : Option (Int × Int)) (hmon : s.monsters = []) :
    (throwDest s item landPos).monsters = [] ∧
    (throwDest s item landPos).dead = s.dead ∧
    (throwDest s item landPos).player.hp = s.player.hp ∧
    (throwDest s item landPos).player.food = s.player.food ∧
    (throwDest s item landPos).player.equippedRings = s.player.equippedRings := by
  unfold throwDest
  dsimp only
  cases landPos with
  | some lp =>
    refine ⟨?_, rfl, rfl, rfl, rfl⟩
    rw [hmon]
    rfl
  | none =>
    refine ⟨?_, rfl, rfl, rfl, rfl⟩
    rw [hmon]
    rfl

/-- C4 (amended): the turn-resolution tail ticks hunger for a plain move,
a wait (the same source branch at dx = dy = 0), a wand zap and a throw —
the food counter drops by exactly one per such turn (stated on
monster-free states so no monster can interleave), with the
threshold-crossing message pushed when a threshold is hit, no decrement on
the off turns under a slow-digestion ring, and 1 hp of starvation damage
the turn food reaches 0 — but the attack-by-bump branch of movePlayer
returns after regeneration WITHOUT ticking hunger: for every bump on a
living monster (hit or miss, kill or not) the food counter is unchanged,
contrary to the claim's inclusion of attack-by-bump. -/
theorem claim_C4_hunger_contract :
    (∀ (s : GameState) (dx dy : Int) (rng : ℕ → ℚ) (k : ℕ),
      effGetD s.player.statusEffects "paralysis" ≤ 0 →
      effGetD s.player.statusEffects "confusion" ≤ 0 →
      ¬(s.player.y + dy < 0 ∨ s.dungeon.map.height ≤ s.player.y + dy ∨
        s.player.x + dx < 0 ∨ s.dungeon.map.width ≤ s.player.x + dx ∨
        isWalkable ((s.dungeon.map.cell (s.player.x + dx) (s.player.y + dy)).type) = false) →
      s.monsters = [] → s.dead = false → 0 < s.player.hp →
      hasRing s.player "ring of slow digestion" = false →
      0 < s.player.food →
      ((movePlayer s dx dy rng k).1).player.food = s.player.food - 1) ∧
    (∀ (s : GameState) (dx dy : Int) (rng : ℕ → ℚ) (k : ℕ),
      effGetD s.player.statusEffects "paralysis" ≤ 0 →
      effGetD s.player.statusEffects "confusion" ≤ 0 →
      ¬(s.player.y + dy < 0 ∨ s.dungeon.map.height ≤ s.player.y + dy ∨
        s.player.x + dx < 0 ∨ s.dungeon.map.width ≤ s.player.x + dx ∨
        isWalkable ((s.dungeon.map.cell (s.player.x + dx) (s.player.y + dy)).type) = false) →
      s.monsters = [] → s.dead = false → 0 < s.player.hp →
      hasRing s.player "ring of slow digestion" = false →
      0 < s.player.food →
      ∀ t ∈ HUNGER_THRESHOLDS, s.player.food - 1 = t.1 →
      t.2 ∈ ((movePlayer s dx dy rng k).1).messages) ∧
    (∀ (s : GameState) (dx dy : Int) (rng : ℕ → ℚ) (k : ℕ),
      effGetD s.player.statusEffects "paralysis" ≤ 0 →
      effGetD s.player.statusEffects "confusion" ≤ 0 →
      ¬(s.player.y + dy < 0 ∨ s.dungeon.map.height ≤ s.player.y + dy ∨
        s.player.x + dx < 0 ∨ s.dungeon.map.width ≤ s.player.x + dx ∨
        isWalkable ((s.dungeon.map.cell (s.player.x + dx) (s.player.y + dy)).type) = false) →
      s.monsters = [] → s.dead = false → 0 < s.player.hp →
      hasRing s.player "ring of slow digestion" = true →
      (s.turn + 1) % 2 ≠ 0 →
      ((movePlayer s dx dy rng k).1).player.food = s.player.food) ∧
    (∀ (s : GameState) (dx dy : Int) (rng : ℕ → ℚ) (k : ℕ),
      effGetD s.player.statusEffects "paralysis" ≤ 0 →
      effGetD s.player.statusEffects "confusion" ≤ 0 →
      ¬(s.player.y + dy < 0 ∨ s.dungeon.map.height ≤ s.player.y + dy ∨
        s.player.x + dx < 0 ∨ s.dungeon.map.width ≤ s.player.x + dx ∨
        isWalkable ((s.dungeon.map.cell (s.player.x + dx) (s.player.y + dy)).type) = false) →
      s.monsters = [] → s.dead = false → 0 < s.player.hp →
      hasRing s.player "ring of slow digestion" = false →
      s.player.food = 1 → s.player.maxHp ≤ s.player.hp →
      ((movePlayer s dx dy rng k).1).player.food = 0 ∧
      ((movePlayer s dx dy rng k).1).player.hp = s.player.hp - 1) ∧
    (∀ (s : GameState) (wand : Item) (dx dy : Int) (rng : ℕ → ℚ) (k : ℕ),
      s.player.inventory.any (fun it => decide (it = wand)) = true →
      0 < wand.charges →
      stripPre "wand of " wand.name = "light" →
      s.monsters = [] → s.dead = false → 0 < s.player.hp →
      hasRing s.player "ring of slow digestion" = false →
      0 < s.player.food →
      ((zapWand s wand dx dy rng k).1).player.food = s.player.food - 1) ∧
    (∀ (s : GameState) (item : Item) (landPos : Option (Int × Int))
        (rng : ℕ → ℚ) (k : ℕ),
      ¬ s.player.equippedWeapon = some item →
      ¬ s.player.equippedArmor = some item →
      findIdxA (fun r => decide (r = some item)) s.player.equippedRings = none →
      s.monsters = [] → s.dead = false → 0 < s.player.hp →
      hasRing s.player "ring of slow digestion" = false →
      0 < s.player.food →
      ((resolveThrow s item none landPos rng k).1).player.food = s.player.food - 1) ∧
    (∀ (s : GameState) (dx dy : Int) (rng : ℕ → ℚ) (k : ℕ) (ti : ℕ),
      effGetD s.player.statusEffects "paralysis" ≤ 0 →
      effGetD s.player.statusEffects "confusion" ≤ 0 →
      ¬(s.player.y + dy < 0 ∨ s.dungeon.map.height ≤ s.player.y + dy ∨
        s.player.x + dx < 0 ∨ s.dungeon.map.width ≤ s.player.x + dx ∨
        isWalkable ((s.dungeon.map.cell (s.player.x + dx) (s.player.y + dy)).type) = false) →
      findIdxA (fun (mo : Monster) =>
        decide (0 < mo.hp) && decide (mo.x = s.player.x + dx) &&
        decide (mo.y = s.player.y + dy)) s.monsters = some ti →
      ((movePlayer s dx dy rng k).1).player.food = s.player.food) := by
  refine ⟨?_, ?_, ?_, ?_, ?_, ?_, ?_⟩
  · intro s dx dy rng k hpar hconf hok hmon hdead hhp hslow hfood
    rw [movePlayer_move_eq s dx dy rng k hpar hconf hok (by rw [hmon]; rfl)]
    have hi := moveDest_inv s dx dy
    have hres := advanceTurnHunger_food (moveDest s dx dy) rng k
      (by rw [hi.1]; exact hmon)
      (by rw [hi.2.1]; exact hdead)
      (by rw [hi.2.2.1]; exact hhp)
      (by rw [hasRing_eqRings hi.2.2.2.2.2.1]; exact hslow)
      (by rw [hi.2.2.2.2.1]; exact hfood)
    rw [hres, hi.2.2.2.2.1]
  · intro s dx dy rng k hpar hconf hok hmon hdead hhp hslow hfood t ht he
    rw [movePlayer_move_eq s dx dy rng k hpar hconf hok (by rw [hmon]; rfl)]
    have hi := moveDest_inv s dx dy
    exact advanceTurnHunger_msg (moveDest s dx dy) rng k
      (by rw [hi.1]; exact hmon)
      (by rw [hi.2.1]; exact hdead)
      (by rw [hi.2.2.1]; exact hhp)
      (by rw [hasRing_eqRings hi.2.2.2.2.2.1]; exact hslow)
      (by rw [hi.2.2.2.2.1]; exact hfood)
      t ht (by rw [hi.2.2.2.2.1]; exact he)
  · intro s dx dy rng k hpar hconf hok hmon hdead hhp hslow hodd
    rw [movePlayer_move_eq s dx dy rng k hpar hconf hok (by rw [hmon]; rfl)]
    have hi := moveDest_inv s dx dy
    have hres := advanceTurnHunger_slow (moveDest s dx dy) rng k
      (by rw [hi.1]; exact hmon)
      (by rw [hi.2.1]; exact hdead)
      (by rw [hi.2.2.1]; exact hhp)
      (by rw [hasRing_eqRings hi.2.2.2.2.2.1]; exact hslow)
      (by rw [hi.2.2.2.2.2.2]; exact hodd)
    rw [hres, hi.2.2.2.2.1]
  · intro s dx dy rng k hpar hconf hok hmon hdead hhp hslow hfood1 hfull
    rw [movePlayer_move_eq s dx dy rng k hpar hconf hok (by rw [hmon]; rfl)]
    have hi := moveDest_inv s dx dy
    have hres := advanceTurnHunger_starve (moveDest s dx dy) rng k
      (by rw [hi.1]; exact hmon)
      (by rw [hi.2.1]; exact hdead)
      (by rw [hi.2.2.1]; exact hhp)
      (by rw [hasRing_eqRings hi.2.2.2.2.2.1]; exact hslow)
      (by rw [hi.2.2.2.2.1]; exact hfood1)
      (by rw [hi.2.2.2.1, hi.2.2.1]; exact hfull)
    refine ⟨hres.1, ?_⟩
    rw [hres.2, hi.2.2.1]
  · intro s wand dx dy rng k hin hch hname hmon hdead hhp hslow hfood
    rw [zapWand_light_eq s wand dx dy rng k hin hch hname]
    have hi := zapDest_inv s wand hmon
    have hres := advanceTurnHunger_food (zapDest s wand) rng k
      hi.1
      (by rw [hi.2.1]; exact hdead)
      (by rw [hi.2.2.1]; exact hhp)
      (by rw [hasRing_eqRings hi.2.2.2.2]; exact hslow)
      (by rw [hi.2.2.2.1]; exact hfood)
    rw [hres, hi.2.2.2.1]
  · intro s item landPos rng k hw ha hr hmon hdead hhp hslow hfood
    rw [resolveThrow_none_eq s item landPos rng k hw ha hr]
    have hi := throwDest_inv s item landPos hmon
    have hres := advanceTurnHunger_food (throwDest s item landPos) rng k
      hi.1
      (by rw [hi.2.1]; exact hdead)
      (by rw [hi.2.2.1]; exact hhp)
      (by rw [hasRing_eqRings hi.2.2.2.2]; exact hslow)
      (by rw [hi.2.2.2.1]; exact hfood)
    rw [hres, hi.2.2.2.1]
  · intro s dx dy rng k ti hpar hconf hok hfind
    unfold movePlayer
    rw [if_neg (Int.not_lt.mpr hpar)]
    simp only [decide_eq_false (Int.not_lt.mpr hconf), Bool.false_eq_true,
      if_false]
    rw [if_neg hok]
    rw [hfind]
    rw [advanceTurn_food]
    dsimp only
    split
    · rw [killReward_food]
    · rfl

/-- Bump-attack state for the C4 counterexample: a living 1 hp orc
directly right of the player, player food 500, +1/+1 bonuses so the 1/2
draw is a guaranteed kill. -/
def c4S : GameState where
  dungeon := stDungeon
  player := { c8player with x := 1, y := 1, gold := 0, hitBonus := 1, damageBonus := 1 }
  playerName := "t"
  dungeonLevel := 1
  turn := 0
  monsters := [{ dMonster with name := "orc", char := "O", x := 2, y := 1, hp := 1, maxHp := 5, attack := 2, defense := 0, xp := 0, aggression := 1 }]
  goldItems := []
  dungeonItems := []
  messages := []
  dead := false
  causeOfDeath := none

/-- rng stream for the C4 counterexample and witness. -/
def c4rng : ℕ → ℚ := fun _ => 1 / 2

unseal Rat.mul Rat.add Rat.sub Rat.inv Rat.ofScientific in
/-- C4 counterexample: a bump attack on the living adjacent monster — a
turn-consuming action (the turn counter advances to 1) on a well-fed,
unparalyzed, ring-free player — leaves food at 500 where the claimed
contract requires the tick to 499. -/
theorem claim_C4_counterexample :
    ((c4S.monsters.getD 0 dMonster).hp = 1 ∧
     (c4S.monsters.getD 0 dMonster).x = c4S.player.x + 1 ∧
     (c4S.monsters.getD 0 dMonster).y = c4S.player.y + 0 ∧
     effGetD c4S.player.statusEffects "paralysis" = 0 ∧
     effGetD c4S.player.statusEffects "confusion" = 0 ∧
     hasRing c4S.player "ring of slow digestion" = false ∧
     c4S.dead = false ∧
     c4S.player.food = 500) ∧
    ((movePlayer c4S 1 0 c4rng 0).1).turn = c4S.turn + 1 ∧
    ((movePlayer c4S 1 0 c4rng 0).1).player.food = 500 := by
  decide

/-- Ring of slow digestion instance for the witness. -/
def rSlow : Item := { dItem with type := "ring", name := "ring of slow digestion" }

/-- Wand of light instance for the witness. -/
def wLight : Item := { dItem with type := "wand", name := "wand of light", charges := 3 }

/-- Thrown item instance for the witness. -/
def tFood : Item := { dItem with type := "food", name := "food ration" }

/-- The monster-free base state of the C4 witness. -/
def c4base : GameState := { c4S with monsters := [] }

/-- Witness states for the individual conjuncts. -/
def c4mS : GameState :=
  { c4base with player := { c4base.player with food := 901 } }

def c4sS : GameState :=
  { c4base with player := { c4base.player with equippedRings := [some rSlow, none] } }

def c4stS : GameState :=
  { c4base with player := { c4base.player with food := 1 } }

def c4zS : GameState :=
  { c4base with player := { c4base.player with inventory := [wLight] } }

def c4tS : GameState :=
  { c4base with player := { c4base.player with inventory := [tFood] } }

unseal Rat.mul Rat.add Rat.sub Rat.inv Rat.ofScientific in
/-- Closed instances of every conjunct of the amended C4 contract. -/
theorem claim_C4_witness :
    ((movePlayer c4base 1 0 c4rng 0).1).player.food = c4base.player.food - 1 ∧
    "You are getting hungry" ∈ ((movePlayer c4mS 1 0 c4rng 0).1).messages ∧
    ((movePlayer c4sS 1 0 c4rng 0).1).player.food = c4sS.player.food ∧
    (((movePlayer c4stS 1 0 c4rng 0).1).player.food = 0 ∧
     ((movePlayer c4stS 1 0 c4rng 0).1).player.hp = c4stS.player.hp - 1) ∧
    ((zapWand c4zS wLight 1 0 c4rng 0).1).player.food = c4zS.player.food - 1 ∧
    ((resolveThrow c4tS tFood none (some (2, 2)) c4rng 0).1).player.food = c4tS.player.food - 1 ∧
    ((movePlayer c4S 1 0 c4rng 0).1).player.food = c4S.player.food :=
  ⟨claim_C4_hunger_contract.1 c4base 1 0 c4rng 0 (by decide) (by decide)
     (by decide) rfl rfl (by decide) (by decide) (by decide),
   claim_C4_hunger_contract.2.1 c4mS 1 0 c4rng 0 (by decide) (by decide)
     (by decide) rfl rfl (by decide) (by decide) (by decide)
     (900, "You are getting hungry") (by decide) (by decide),
   claim_C4_hunger_contract.2.2.1 c4sS 1 0 c4rng 0 (by decide) (by decide)
     (by decide) rfl rfl (by decide) (by decide) (by decide),
   claim_C4_hunger_contract.2.2.2.1 c4stS 1 0 c4rng 0 (by decide) (by decide)
     (by decide) rfl rfl (by decide) (by decide) (by decide) (by decide),
   claim_C4_hunger_contract.2.2.2.2.1 c4zS wLight 1 0 c4rng 0 (by decide)
     (by decide) (by decide) rfl rfl (by decide) (by decide) (by decide),
   claim_C4_hunger_contract.2.2.2.2.2.1 c4tS tFood (some (2, 2)) c4rng 0
     (by decide) (by decide) (by decide) rfl rfl (by decide) (by decide)
     (by decide),
   claim_C4_hunger_contract.2.2.2.2.2.2 c4S 1 0 c4rng 0 0 (by decide)
     (by decide) (by decide) (by decide)⟩

end Rogue
